import Mathlib

/-!
# Scan engine of the sub-GHz detector (`cc1101_manager.cpp`)

Shallow embedding of the CC1101 scan engine.  The radio driver (RadioLib) is
an external collaborator: it is modelled as a record holding the four profile
settings the engine writes, an oracle for the values the driver hands back
(RSSI readings, `begin()` statuses) and the trace of every call made on it.
Frequencies that the source keeps in `float`/`double` are exact rationals
here; `int` values are mathematical integers (RSSI values and the scan
counter stay far from the 32-bit limits), the `uint32_t` fine-scan variable
is reduced modulo `2^32` explicitly and the `int16_t` sample cast modulo
`2^16`.
-/

namespace Cc1101

/-! ## Radio driver model -/

/-- One call made on the radio driver or on the timing primitives, with the
value handed back where there is one.  Delays are in microseconds. -/
inductive RadioCmd where
  | spiBegin
  | begin (status : Int)
  | standby
  | setOOK (enable : Bool)
  | setRxBandwidth (khz : ℚ)
  | setFrequencyDeviation (khz : ℚ)
  | setFrequency (mhz : ℚ)
  | receiveDirect
  | delay (us : Nat)
  | getRSSI (dbm : Int)
  deriving DecidableEq

/-- The settings that make up the radio profile: the values last requested
from the driver.  The source ignores the status the driver's setters return,
so a request the driver refuses is not told apart from one it applies. -/
structure Profile where
  ook : Bool
  rxBandwidth : ℚ
  deviation : ℚ
  frequency : ℚ
  deriving DecidableEq

/-- Radio driver state.  `rssi k` is the value returned by the `k`-th call of
`getRSSI` since power-up (converted to `int`), `beginStatus k` the status
returned by the `k`-th call of `begin()`; `defaults` is the profile a
successful `begin()` leaves behind (a property of the driver, not of this
repository), a failing `begin()` is taken to leave the profile as it was.
`log` lists the calls made so far, oldest first. -/
structure Radio where
  profile : Profile
  defaults : Profile
  rssi : Nat → Int
  reads : Nat
  beginStatus : Nat → Int
  begins : Nat
  log : List RadioCmd

/-- The driver's success status. -/
def RADIOLIB_ERR_NONE : Int := 0

namespace Radio

def emit (r : Radio) (c : RadioCmd) : Radio :=
  { r with log := r.log ++ [c] }

def spiBegin (r : Radio) : Radio := r.emit .spiBegin

def standby (r : Radio) : Radio := r.emit .standby

def receiveDirect (r : Radio) : Radio := r.emit .receiveDirect

def delay (r : Radio) (us : Nat) : Radio := r.emit (.delay us)

def setOOK (r : Radio) (enable : Bool) : Radio :=
  { r with profile := { r.profile with ook := enable },
           log := r.log ++ [.setOOK enable] }

def setRxBandwidth (r : Radio) (khz : ℚ) : Radio :=
  { r with profile := { r.profile with rxBandwidth := khz },
           log := r.log ++ [.setRxBandwidth khz] }

def setFrequencyDeviation (r : Radio) (khz : ℚ) : Radio :=
  { r with profile := { r.profile with deviation := khz },
           log := r.log ++ [.setFrequencyDeviation khz] }

def setFrequency (r : Radio) (mhz : ℚ) : Radio :=
  { r with profile := { r.profile with frequency := mhz },
           log := r.log ++ [.setFrequency mhz] }

def getRSSI (r : Radio) : Int × Radio :=
  (r.rssi r.reads,
   { r with reads := r.reads + 1, log := r.log ++ [.getRSSI (r.rssi r.reads)] })

def begin (r : Radio) : Int × Radio :=
  let status := r.beginStatus r.begins
  (status,
   { r with begins := r.begins + 1,
            profile := if status = RADIOLIB_ERR_NONE then r.defaults else r.profile,
            log := r.log ++ [.begin status] })

end Radio

/-! ## Data model -/

structure FrequencyRSSI where
  frequency_coarse : Nat
  rssi_coarse : Int
  frequency_fine : Nat
  rssi_fine : Int
  is_fsk : Bool
  deriving DecidableEq

structure Cc1101ScanResult where
  signal_detected : Bool
  detected_freq_mhz : ℚ
  detected_rssi_dbm : Int
  is_fsk : Bool
  best_rssi_dbm : Int
  scan_count : Int
  deriving DecidableEq

def CC1101_SWEEP_MAX_SAMPLES : Nat := 128

structure Cc1101SweepResult where
  valid : Bool
  start_freq_mhz : ℚ
  end_freq_mhz : ℚ
  sample_count : Nat
  rssi_dbm : List Int
  max_freq_mhz : ℚ
  max_rssi_dbm : Int
  deriving DecidableEq

/-- Value-initialised `Cc1101ScanResult{}`. -/
def Cc1101ScanResult.zero : Cc1101ScanResult :=
  { signal_detected := false, detected_freq_mhz := 0, detected_rssi_dbm := 0,
    is_fsk := false, best_rssi_dbm := 0, scan_count := 0 }

/-- Value-initialised `Cc1101SweepResult{}`: all 128 sample slots are zero. -/
def Cc1101SweepResult.zero : Cc1101SweepResult :=
  { valid := false, start_freq_mhz := 0, end_freq_mhz := 0, sample_count := 0,
    rssi_dbm := List.replicate CC1101_SWEEP_MAX_SAMPLES 0,
    max_freq_mhz := 0, max_rssi_dbm := 0 }

def kSubGHzFrequencyList : List Nat := [
  300000000, 302757000, 303875000, 303900000, 304250000,
  307000000, 307500000, 307800000, 309000000, 310000000,
  312000000, 312100000, 312200000, 313000000, 313850000,
  314000000, 314350000, 314980000, 315000000, 318000000,
  330000000, 345000000, 348000000, 350000000, 387000000,
  390000000, 418000000, 430000000, 430500000, 431000000,
  431500000, 433075000, 433220000, 433420000, 433657070,
  433889000, 433920000, 434075000, 434176948, 434190000,
  434390000, 434420000, 434620000, 434775000, 438900000,
  440175000, 464000000, 467750000, 779000000, 868350000,
  868400000, 868800000, 868950000, 906400000, 915000000,
  925000000, 928000000]

/-- Module state of `cc1101_manager.cpp`: the radio handle and the two
globals. -/
structure State where
  radio : Radio
  g_scan_count : Int
  g_need_scan_reinit : Bool

/-! ## Operations -/

def clamp_freq (value_mhz min_mhz max_mhz : ℚ) : ℚ :=
  if value_mhz < min_mhz then min_mhz
  else if value_mhz > max_mhz then max_mhz
  else value_mhz

def apply_scan_profile (r : Radio) : Radio :=
  ((((r.standby).setOOK false).setRxBandwidth 650).setFrequencyDeviation (476 / 10)).setFrequency
    (43392 / 100)

def apply_sweep_profile (r : Radio) : Radio :=
  ((r.standby).setOOK false).setRxBandwidth 200

def reinit_for_scan (s : State) : Bool × State :=
  let r1 := s.radio.spiBegin
  let (state, r2) := r1.begin
  if state ≠ RADIOLIB_ERR_NONE then
    (false, { s with radio := r2 })
  else
    (true, { s with radio := apply_scan_profile r2, g_need_scan_reinit := false })

def detect_modulation (r : Radio) (frequency_mhz : ℚ) : Bool × Radio :=
  let bandwidth : ℚ := if frequency_mhz > 850 then 250 else 200
  let deviation : ℚ := if frequency_mhz > 850 then 50 else 476 / 10
  -- ASK/OOK measurement.
  let r := r.setOOK true
  let r := r.setFrequency frequency_mhz
  let r := r.setRxBandwidth bandwidth
  let r := r.standby
  let r := r.delay 2000
  let r := r.receiveDirect
  let r := r.delay 8000
  let (rssi_ask, r) := r.getRSSI
  -- FSK measurement.
  let r := r.setOOK false
  let r := r.setFrequency frequency_mhz
  let r := r.setRxBandwidth bandwidth
  let r := r.setFrequencyDeviation deviation
  let r := r.standby
  let r := r.delay 2000
  let r := r.receiveDirect
  let r := r.delay 8000
  let (rssi_fsk, r) := r.getRSSI
  (decide (rssi_fsk > rssi_ask), r)

def cc1101_manager_init (s : State) : Bool × State :=
  let r1 := s.radio.spiBegin
  let (state, r2) := r1.begin
  if state ≠ RADIOLIB_ERR_NONE then
    (false, { s with radio := r2 })
  else
    (true, { s with radio := r2.setFrequency (43392 / 100), g_need_scan_reinit := false })

/-- Body of the coarse loop for one table entry. -/
def coarse_step (acc : Radio × FrequencyRSSI) (freq : Nat) : Radio × FrequencyRSSI :=
  let r := acc.1.setFrequency ((freq : ℚ) / 1000000)
  let r := r.receiveDirect
  let r := r.delay 3000
  let (rssi, r) := r.getRSSI
  if rssi > acc.2.rssi_coarse then
    (r, { acc.2 with rssi_coarse := rssi, frequency_coarse := freq })
  else
    (r, acc.2)

/-- The coarse loop over the candidate table. -/
def coarse_scan (r : Radio) (freq_rssi : FrequencyRSSI) : Radio × FrequencyRSSI :=
  kSubGHzFrequencyList.foldl coarse_step (r, freq_rssi)

/-- Body of the fine loop at frequency `f` (Hz). -/
def fine_step (r : Radio) (freq_rssi : FrequencyRSSI) (f : Nat) : Radio × FrequencyRSSI :=
  let r := r.setFrequency ((f : ℚ) / 1000000)
  let r := r.receiveDirect
  let r := r.delay 3000
  let (rssi, r) := r.getRSSI
  if rssi > freq_rssi.rssi_fine then
    (r, { freq_rssi with rssi_fine := rssi, frequency_fine := f })
  else
    (r, freq_rssi)

/-- The fine loop `for (uint32_t f = ...; f <= bound; f += 20000)`.  `fuel`
bounds the number of iterations the model follows; `none` means the loop was
still running when the fuel ran out. -/
def fine_scan : Nat → Nat → Nat → Radio → FrequencyRSSI → Option (Radio × FrequencyRSSI)
  | 0, f, bound, r, freq_rssi => if f ≤ bound then none else some (r, freq_rssi)
  | fuel + 1, f, bound, r, freq_rssi =>
    if f ≤ bound then
      let next := fine_step r freq_rssi f
      fine_scan fuel ((f + 20000) % 2 ^ 32) bound next.1 next.2
    else
      some (r, freq_rssi)

def cc1101_manager_scan_once (fuel : Nat) (s : State) (rssi_threshold : Int) :
    Option (Cc1101ScanResult × State) :=
  let freq_rssi : FrequencyRSSI :=
    { frequency_coarse := 0, rssi_coarse := -100, frequency_fine := 0, rssi_fine := -100,
      is_fsk := false }
  let s := { s with g_scan_count := s.g_scan_count + 1 }
  let prepared : Bool × State :=
    if s.g_need_scan_reinit then reinit_for_scan s
    else (true, { s with radio := apply_scan_profile s.radio })
  if !prepared.1 then
    some (Cc1101ScanResult.zero, prepared.2)
  else
    let s := prepared.2
    -- Coarse scan over known sub-GHz channels.
    let coarse := coarse_scan s.radio freq_rssi
    let freq_rssi := coarse.2
    let result : Cc1101ScanResult :=
      { Cc1101ScanResult.zero with
        best_rssi_dbm := freq_rssi.rssi_coarse, scan_count := s.g_scan_count }
    if freq_rssi.rssi_coarse ≤ rssi_threshold then
      some (result, { s with radio := coarse.1 })
    else
      let r := coarse.1.setRxBandwidth 58
      -- Fine scan around the best coarse hit.
      match fine_scan fuel ((freq_rssi.frequency_coarse + 2 ^ 32 - 300000) % 2 ^ 32)
          ((freq_rssi.frequency_coarse + 300000) % 2 ^ 32) r freq_rssi with
      | none => none
      | some (r, freq_rssi) =>
        let modulation := detect_modulation r ((freq_rssi.frequency_fine : ℚ) / 1000000)
        some ({ result with
                signal_detected := true,
                detected_freq_mhz := (freq_rssi.frequency_fine : ℚ) / 1000000,
                detected_rssi_dbm := freq_rssi.rssi_fine,
                is_fsk := modulation.1 },
              { s with radio := modulation.2 })

/-- The cast `static_cast<int16_t>(rssi)`. -/
def toInt16 (x : Int) : Int := (x + 32768) % 65536 - 32768

/-- Body of the sweep loop for sample index `i`. -/
def sweep_step (start freq_step : ℚ) (acc : Radio × Cc1101SweepResult) (i : Nat) :
    Radio × Cc1101SweepResult :=
  let freq_mhz := start + freq_step * (i : ℚ)
  let r := acc.1.setFrequency freq_mhz
  let r := r.receiveDirect
  let r := r.delay 2500
  let (rssi, r) := r.getRSSI
  let result := { acc.2 with rssi_dbm := acc.2.rssi_dbm.set i (toInt16 rssi) }
  if rssi > result.max_rssi_dbm then
    (r, { result with max_rssi_dbm := rssi, max_freq_mhz := freq_mhz })
  else
    (r, result)

/-- Sweep capture.  `out_result` is the pointee of the output pointer before
the call (`none` for a null pointer); the second component of the value is the
pointee after the call. -/
def cc1101_manager_capture_sweep (s : State) (start_freq_mhz end_freq_mhz : ℚ)
    (sample_count : Nat) (out_result : Option Cc1101SweepResult) :
    Bool × Option Cc1101SweepResult × State :=
  match out_result with
  | none => (false, none, s)
  | some _ =>
    let result : Cc1101SweepResult :=
      { Cc1101SweepResult.zero with valid := false, max_rssi_dbm := -120, max_freq_mhz := 0 }
    if sample_count < 2 ∨ sample_count > CC1101_SWEEP_MAX_SAMPLES then
      (false, some result, { s with radio := apply_scan_profile s.radio })
    else
      let start := clamp_freq start_freq_mhz 300 928
      let end_mhz := clamp_freq end_freq_mhz 300 928
      let end_mhz := if end_mhz ≤ start then start + 1 / 10 else end_mhz
      let result := { result with
        start_freq_mhz := start, end_freq_mhz := end_mhz, sample_count := sample_count }
      -- Uniform sweep over the requested band.
      let freq_step := (end_mhz - start) / ((sample_count - 1 : Nat) : ℚ)
      let r := apply_sweep_profile s.radio
      let swept := (List.range sample_count).foldl (sweep_step start freq_step) (r, result)
      let r := apply_scan_profile swept.1
      let result := { swept.2 with valid := true }
      (true, some result, { s with radio := r })

def cc1101_manager_restore_scan_mode (s : State) : State :=
  { s with g_need_scan_reinit := true }

/-! ## Concrete radios used in examples -/

/-- A radio freshly powered: nothing read, nothing logged, every `begin()`
succeeding, and the given RSSI feed. -/
def Radio.fresh (feed : Nat → Int) : Radio :=
  { profile := { ook := false, rxBandwidth := 58, deviation := 5, frequency := 434 },
    defaults := { ook := false, rxBandwidth := 58, deviation := 5, frequency := 434 },
    rssi := feed, reads := 0, beginStatus := fun _ => 0, begins := 0, log := [] }

/-! ## Readings and traces -/

/-- The values the radio hands to the next `n` calls of `getRSSI`, in
order. -/
def Radio.upcoming (r : Radio) (n : Nat) : List Int :=
  (List.range n).map (fun i => r.rssi (r.reads + i))

/-- The values of an RSSI feed at positions `k, k+1, ..., k+n-1`. -/
def feedFrom (rssi : Nat → Int) : Nat → Nat → List Int
  | _, 0 => []
  | k, n + 1 => rssi k :: feedFrom rssi (k + 1) n

/-- The fine loop as a fold over the list of frequencies it visits. -/
def fine_fold (r : Radio) (freq_rssi : FrequencyRSSI) (fs : List Nat) :
    Radio × FrequencyRSSI :=
  fs.foldl (fun acc f => fine_step acc.1 acc.2 f) (r, freq_rssi)

/-- The frequencies `f, f + 20000, ...` (`m` of them). -/
def gridFrom (f : Nat) : Nat → List Nat
  | 0 => []
  | m + 1 => f :: gridFrom (f + 20000) m

/-- The frequencies the fine loop visits around a coarse hit `fc`: none when
the subtraction `fc - 300000` wraps, else the 31 grid points. -/
def fine_freqs (fc : Nat) : List Nat :=
  if fc = 0 then [] else gridFrom (fc - 300000) 31

/-- The value `freq_rssi` is initialised with in `scan_once`. -/
def freq_rssi_init : FrequencyRSSI :=
  { frequency_coarse := 0, rssi_coarse := -100, frequency_fine := 0, rssi_fine := -100,
    is_fsk := false }

/-- The scan of `scan_once` goes ahead: no reinit is pending, or the `begin()`
of the pending reinit succeeds. -/
def scan_ready (s : State) : Prop :=
  s.g_need_scan_reinit = false ∨ s.radio.beginStatus s.radio.begins = RADIOLIB_ERR_NONE

instance (s : State) : Decidable (scan_ready s) :=
  inferInstanceAs (Decidable
    (s.g_need_scan_reinit = false ∨ s.radio.beginStatus s.radio.begins = RADIOLIB_ERR_NONE))

/-- The radio at the start of the coarse loop of a scan that goes ahead. -/
def scan_radio (s : State) : Radio :=
  if s.g_need_scan_reinit then apply_scan_profile (s.radio.spiBegin.begin).2
  else apply_scan_profile s.radio

/-- The result of the coarse loop of a scan that goes ahead. -/
@[irreducible]
def scan_coarse (s : State) : Radio × FrequencyRSSI :=
  coarse_scan (scan_radio s) freq_rssi_init

/-- The result of the fine loop of a scan that detects a signal. -/
@[irreducible]
def scan_fine (s : State) : Radio × FrequencyRSSI :=
  fine_fold ((scan_coarse s).1.setRxBandwidth 58) (scan_coarse s).2
    (fine_freqs (scan_coarse s).2.frequency_coarse)

/-- The calls made by a loop that tunes to each frequency of a list (Hz) in
turn, settles for `settle` microseconds and reads the RSSI, the first reading
being number `k` of the feed. -/
def probe_trace (rssi : Nat → Int) (settle : Nat) : Nat → List Nat → List RadioCmd
  | _, [] => []
  | k, f :: fs =>
    [.setFrequency ((f : ℚ) / 1000000), .receiveDirect, .delay settle, .getRSSI (rssi k)] ++
      probe_trace rssi settle (k + 1) fs

/-- The calls made by `apply_scan_profile`. -/
def scan_profile_trace : List RadioCmd :=
  [.standby, .setOOK false, .setRxBandwidth 650, .setFrequencyDeviation (476 / 10),
   .setFrequency (43392 / 100)]

/-- The calls a scan makes for a pending reinit: none when no reinit is
pending. -/
def reinit_trace (s : State) : List RadioCmd :=
  if s.g_need_scan_reinit then [.spiBegin, .begin (s.radio.beginStatus s.radio.begins)]
  else []

/-- The greatest element `max(R₁..Rₙ)` of a non-empty list of readings (`0`
for the empty list, which no statement below uses). -/
def maxReading : List Int → Int
  | [] => 0
  | x :: xs => xs.foldl max x

/-- The normal scan profile: OOK off, RX bandwidth 650 kHz, deviation
47.6 kHz, frequency 433.92 MHz. -/
def scanProfile : Profile :=
  { ook := false, rxBandwidth := 650, deviation := 476 / 10, frequency := 43392 / 100 }

/-- The result `capture_sweep` starts from: value-initialised, then
`max_rssi_dbm = -120`. -/
def sweep_init : Cc1101SweepResult :=
  { Cc1101SweepResult.zero with valid := false, max_rssi_dbm := -120, max_freq_mhz := 0 }

/-- The sweep loop run for `n` samples. -/
def sweep_fold (start freq_step : ℚ) (r : Radio) (result : Cc1101SweepResult) (n : Nat) :
    Radio × Cc1101SweepResult :=
  (List.range n).foldl (sweep_step start freq_step) (r, result)

/-- The start frequency a sweep works with. -/
def sweep_start (start_freq_mhz : ℚ) : ℚ := clamp_freq start_freq_mhz 300 928

/-- The end frequency a sweep works with. -/
def sweep_end (start_freq_mhz end_freq_mhz : ℚ) : ℚ :=
  if clamp_freq end_freq_mhz 300 928 ≤ sweep_start start_freq_mhz then
    sweep_start start_freq_mhz + 1 / 10
  else clamp_freq end_freq_mhz 300 928

/-- The step between two sample points of a sweep. -/
def sweep_freq_step (start_freq_mhz end_freq_mhz : ℚ) (sample_count : Nat) : ℚ :=
  (sweep_end start_freq_mhz end_freq_mhz - sweep_start start_freq_mhz) /
    ((sample_count - 1 : Nat) : ℚ)

/-- The sweep loop of an accepted `capture_sweep` call. -/
def sweep_run (s : State) (start_freq_mhz end_freq_mhz : ℚ) (sample_count : Nat) :
    Radio × Cc1101SweepResult :=
  sweep_fold (sweep_start start_freq_mhz)
    (sweep_freq_step start_freq_mhz end_freq_mhz sample_count)
    (apply_sweep_profile s.radio)
    { sweep_init with
      start_freq_mhz := sweep_start start_freq_mhz,
      end_freq_mhz := sweep_end start_freq_mhz end_freq_mhz,
      sample_count := sample_count }
    sample_count

/-! ## Call histories -/

/-- The module state at boot: the initial values of the two globals. -/
def State.boot (r : Radio) : State :=
  { radio := r, g_scan_count := 0, g_need_scan_reinit := false }

/-- One call of the public interface of the scan engine. -/
inductive Call where
  | init
  | scan_once (rssi_threshold : Int)
  | capture_sweep (start_freq_mhz end_freq_mhz : ℚ) (sample_count : Nat)
  | restore_scan_mode

/-- The module state after one call. -/
def run_call (fuel : Nat) (s : State) : Call → Option State
  | .init => some (cc1101_manager_init s).2
  | .scan_once t => (cc1101_manager_scan_once fuel s t).map Prod.snd
  | .capture_sweep a b n =>
    some (cc1101_manager_capture_sweep s a b n (some Cc1101SweepResult.zero)).2.2
  | .restore_scan_mode => some (cc1101_manager_restore_scan_mode s)

/-- The module state after a sequence of calls, oldest first. -/
def run_calls (fuel : Nat) : State → List Call → Option State
  | s, [] => some s
  | s, c :: cs => (run_call fuel s c).bind (fun s1 => run_calls fuel s1 cs)

/-- The number of `scan_once` calls in a history. -/
def scan_calls : List Call → Nat
  | [] => 0
  | .scan_once _ :: cs => scan_calls cs + 1
  | _ :: cs => scan_calls cs

/-! ## Concrete states used in examples -/

/-- A quiet band: every reading is -120 dBm. -/
def quietState : State := State.boot (Radio.fresh (fun _ => -120))

/-- A band whose readings all sit at -105 dBm. -/
def mutedState : State := State.boot (Radio.fresh (fun _ => -105))

/-- A burst that ends before the fine scan: the 57 coarse readings are
-50 dBm, every later reading is -110 dBm. -/
def fadingState : State :=
  State.boot (Radio.fresh (fun k => if k < 57 then -50 else -110))

/-- A steady OOK transmitter on 433.92 MHz: coarse reading 36 (the 433.92 MHz
entry) is -40 dBm, fine reading 15 (433.92 MHz again) is -45 dBm, the ASK
measurement reads -42 dBm and the FSK measurement -60 dBm; the rest is
noise at -105 dBm. -/
def keyfobState : State :=
  State.boot (Radio.fresh (fun k =>
    if k = 36 then -40 else if k = 72 then -45 else if k = 88 then -42
    else if k = 89 then -60 else -105))

/-- A radio whose first `begin()` fails with status -2 and whose later ones
succeed, on a quiet band. -/
def flakyRadio : Radio :=
  { Radio.fresh (fun _ => -120) with beginStatus := fun k => if k = 0 then -2 else 0 }

/-- The state `flakyRadio` is left in by `restore_scan_mode` followed by one
`scan_once` whose reinit fails. -/
def flakyAfterFailedScan : State :=
  { radio := { flakyRadio with begins := 1, log := [.spiBegin, .begin (-2)] },
    g_scan_count := 1, g_need_scan_reinit := true }

/-- A pending reinit on a radio whose `begin()` fails. -/
def stuckState : State :=
  { radio := { Radio.fresh (fun _ => -40) with beginStatus := fun _ => -2 },
    g_scan_count := 7, g_need_scan_reinit := true }

/-- A sweep over a band with one peak: sample 50 reads -45 dBm, the others
-95 dBm. -/
def peakState : State :=
  State.boot (Radio.fresh (fun k => if k = 50 then -45 else -95))

/-- A sweep over a band whose readings all sit at -130 dBm. -/
def deepQuietState : State := State.boot (Radio.fresh (fun _ => -130))

/-! ## Traces of whole scans -/

/-- Whether a call belongs to a hardware reinitialisation: the SPI start or
the radio's `begin()`. -/
def RadioCmd.isReinit : RadioCmd → Bool
  | .spiBegin => true
  | .begin _ => true
  | _ => false

/-- The calls of `detect_modulation` at frequency `f` (MHz) when the two
readings are `rssi_ask` and `rssi_fsk`. -/
def modulation_trace (f : ℚ) (rssi_ask rssi_fsk : Int) : List RadioCmd :=
  [.setOOK true, .setFrequency f, .setRxBandwidth (if f > 850 then 250 else 200),
   .standby, .delay 2000, .receiveDirect, .delay 8000, .getRSSI rssi_ask,
   .setOOK false, .setFrequency f, .setRxBandwidth (if f > 850 then 250 else 200),
   .setFrequencyDeviation (if f > 850 then 50 else 476 / 10),
   .standby, .delay 2000, .receiveDirect, .delay 8000, .getRSSI rssi_fsk]

/-- The calls a scan that goes ahead makes after applying the scan profile:
the coarse loop and, when the coarse level exceeds the threshold, the
bandwidth change, the fine loop and the modulation measurement. -/
def scan_tail (s : State) (rssi_threshold : Int) : List RadioCmd :=
  if (scan_coarse s).2.rssi_coarse ≤ rssi_threshold then
    probe_trace s.radio.rssi 3000 s.radio.reads kSubGHzFrequencyList
  else
    probe_trace s.radio.rssi 3000 s.radio.reads kSubGHzFrequencyList ++
      ([.setRxBandwidth 58] ++
        (probe_trace s.radio.rssi 3000 (s.radio.reads + 57)
            (fine_freqs (scan_coarse s).2.frequency_coarse) ++
          modulation_trace (((scan_fine s).2.frequency_fine : ℚ) / 1000000)
            ((scan_fine s).1.rssi (scan_fine s).1.reads)
            ((scan_fine s).1.rssi ((scan_fine s).1.reads + 1))))

/-! ## The pending-data slots of `ui_manager.cpp`

The three slots shared between the producers and the UI thread.  Every access
in the source sits inside `portENTER_CRITICAL` / `portEXIT_CRITICAL`, so each
operation below is one atomic step.  A `char` buffer is represented by the C
string it holds (the bytes before the terminator); a `const char *` argument
is `none` for a null pointer.  Rendering is left out: the consumer returns
what it hands to `update_ui`, `update_spectrum_visual` and
`update_battery_ui`. -/

/-- The pending data of `ui_manager.cpp`. -/
structure UiPending where
  ui_needs_update : Bool
  pending_freq : ℚ
  pending_rssi : Int
  pending_mod : List Nat
  pending_status : List Nat
  spectrum_needs_update : Bool
  pending_spectrum : Cc1101SweepResult
  battery_needs_update : Bool
  pending_battery_state : Nat
  pending_battery_voltage : ℚ
  deriving DecidableEq

/-- The static initialisers of the pending data. -/
def UiPending.initial : UiPending :=
  { ui_needs_update := false, pending_freq := 0, pending_rssi := 0, pending_mod := [],
    pending_status := [], spectrum_needs_update := false,
    pending_spectrum := Cc1101SweepResult.zero, battery_needs_update := false,
    pending_battery_state := 0, pending_battery_voltage := 0 }

/-- The string left in a buffer by `strncpy(dst, src, n)` followed by
`dst[n] = 0`: the first `n` bytes of the source string. -/
def strncpy_terminated (src : List Nat) (n : Nat) : List Nat := src.take n

/-- The bytes `strncpy(dst, src, n)` copies from a source string into a
zero-filled buffer of `n` bytes. -/
def strncpy_local (src : List Nat) (n : Nat) : List Nat := src.take n

def ui_manager_queue_update (u : UiPending) (freq_mhz : ℚ) (rssi : Int)
    (modulation status : Option (List Nat)) : UiPending :=
  let u := { u with pending_freq := freq_mhz, pending_rssi := rssi }
  let u := match modulation with
    | some m => { u with pending_mod := strncpy_terminated m (32 - 1) }
    | none => u
  let u := match status with
    | some st => { u with pending_status := strncpy_terminated st (64 - 1) }
    | none => u
  { u with ui_needs_update := true }

def ui_manager_queue_spectrum_update (u : UiPending) (sweep : Cc1101SweepResult) : UiPending :=
  if !sweep.valid || sweep.sample_count < 2 || sweep.sample_count > CC1101_SWEEP_MAX_SAMPLES then
    u
  else
    { u with pending_spectrum := sweep, spectrum_needs_update := true }

def ui_manager_queue_battery_update (u : UiPending) (battery_state : Nat)
    (battery_voltage : ℚ) : UiPending :=
  { u with pending_battery_state := battery_state, pending_battery_voltage := battery_voltage,
           battery_needs_update := true }

/-- What one call of `ui_manager_process_pending_update` hands to the three
render functions: `none` where the render function is not called. -/
structure UiDelivery where
  ui : Option (ℚ × Int × List Nat × List Nat)
  spectrum : Option Cc1101SweepResult
  battery : Option (Nat × ℚ)
  deriving DecidableEq

def ui_manager_process_pending_update (u : UiPending) : UiDelivery × UiPending :=
  let ui_part : Option (ℚ × Int × List Nat × List Nat) × UiPending :=
    if u.ui_needs_update then
      (some (u.pending_freq, u.pending_rssi, strncpy_local u.pending_mod 32,
          strncpy_local u.pending_status 64),
        { u with ui_needs_update := false })
    else (none, u)
  let u := ui_part.2
  let spectrum_part : Option Cc1101SweepResult × UiPending :=
    if u.spectrum_needs_update then
      (some u.pending_spectrum, { u with spectrum_needs_update := false })
    else (none, u)
  let u := spectrum_part.2
  let battery_part : Option (Nat × ℚ) × UiPending :=
    if u.battery_needs_update then
      (some (u.pending_battery_state, u.pending_battery_voltage),
        { u with battery_needs_update := false })
    else (none, u)
  ({ ui := ui_part.1, spectrum := spectrum_part.1, battery := battery_part.1 }, battery_part.2)

/-- One operation on the pending data. -/
inductive UiOp where
  | queue_update (freq_mhz : ℚ) (rssi : Int) (modulation status : Option (List Nat))
  | queue_spectrum_update (sweep : Cc1101SweepResult)
  | queue_battery_update (battery_state : Nat) (battery_voltage : ℚ)
  | process_pending_update

/-- The deliveries made by the `process_pending_update` calls of a sequence
of operations, in order, and the pending data at its end. -/
def ui_run : UiPending → List UiOp → List UiDelivery × UiPending
  | u, [] => ([], u)
  | u, .queue_update f r m st :: ops => ui_run (ui_manager_queue_update u f r m st) ops
  | u, .queue_spectrum_update sw :: ops => ui_run (ui_manager_queue_spectrum_update u sw) ops
  | u, .queue_battery_update b v :: ops => ui_run (ui_manager_queue_battery_update u b v) ops
  | u, .process_pending_update :: ops =>
    let out := ui_manager_process_pending_update u
    let rest := ui_run out.2 ops
    (out.1 :: rest.1, rest.2)

def UiOp.isProcess : UiOp → Bool
  | .process_pending_update => true
  | _ => false

def UiOp.isQueueUpdate : UiOp → Bool
  | .queue_update _ _ _ _ => true
  | _ => false

def UiOp.isQueueSpectrum : UiOp → Bool
  | .queue_spectrum_update _ => true
  | _ => false

def UiOp.isQueueBattery : UiOp → Bool
  | .queue_battery_update _ _ => true
  | _ => false

/-- The string a detection publish leaves in a buffer of `size` bytes that
held `old`: the argument cut to `size - 1` bytes, or `old` for a null
argument. -/
def stored_string (old : List Nat) (arg : Option (List Nat)) (size : Nat) : List Nat :=
  match arg with
  | some a => a.take (size - 1)
  | none => old

/-- A sweep that `queue_spectrum_update` accepts. -/
def sweep_publishable (sweep : Cc1101SweepResult) : Prop :=
  sweep.valid = true ∧ 2 ≤ sweep.sample_count ∧ sweep.sample_count ≤ 128

instance (sweep : Cc1101SweepResult) : Decidable (sweep_publishable sweep) :=
  inferInstanceAs (Decidable (_ ∧ _ ∧ _))

/-- A valid two-point sweep used in examples. -/
def sampleSweep : Cc1101SweepResult :=
  { Cc1101SweepResult.zero with
    valid := true, start_freq_mhz := 433, end_freq_mhz := 434, sample_count := 2,
    max_freq_mhz := 433, max_rssi_dbm := -70 }

/-- The pending data after one operation. -/
def ui_apply (u : UiPending) : UiOp → UiPending
  | .queue_update f r m st => ui_manager_queue_update u f r m st
  | .queue_spectrum_update sw => ui_manager_queue_spectrum_update u sw
  | .queue_battery_update b v => ui_manager_queue_battery_update u b v
  | .process_pending_update => (ui_manager_process_pending_update u).2

/-- The string the consumer hands on for a buffer of `size` bytes after a
detection publish with argument `arg` on a buffer that held `old`. -/
def delivered_string (old : List Nat) (arg : Option (List Nat)) (size : Nat) : List Nat :=
  (stored_string old arg size).take size

/-- A list of per-call deliveries of one slot in which the value `v` is
delivered by the first call, if there is one, and nothing by any later
call. -/
def delivered_once {α : Type} (xs : List (Option α)) (v : α) : Prop :=
  xs = [] ∨ ∃ rest, xs = some v :: rest ∧ ∀ x ∈ rest, x = none

/-! ## The audio feedback service (`audio_feedback_manager.cpp`)

The FreeRTOS queue and the codec device are external: the queue is a bounded
first-in first-out list, the codec is a record of the results it hands back
(by call number) and of the trace of calls made on it.  The samples of a tone
are floating-point values and are not represented: a write is recorded with
its size in bytes only. -/

inductive AudioEvent where
  | Startup
  | Shutdown
  | Detect
  deriving DecidableEq

/-- A queue created by `xQueueCreate(capacity, _)`: its items, oldest
first. -/
structure Queue where
  capacity : Nat
  items : List AudioEvent
  deriving DecidableEq

/-- The call `xQueueSend(q, &evt, 0)`: refused when the queue is full. -/
def xQueueSend (q : Queue) (evt : AudioEvent) : Bool × Queue :=
  if q.items.length < q.capacity then (true, { q with items := q.items ++ [evt] })
  else (false, q)

/-- The call `xQueueReceive(q, &evt, 0)`: takes the oldest item, if any. -/
def xQueueReceive (q : Queue) : Option AudioEvent × Queue :=
  match q.items with
  | [] => (none, q)
  | evt :: rest => (some evt, { q with items := rest })

def uxQueueMessagesWaiting (q : Queue) : Nat := q.items.length

/-- One call made by the audio task on the codec or on the scheduler, with
the value handed back where the source looks at it. -/
inductive AudioCmd where
  | set_codec_board_type
  | init_codec (ret : Int)
  | get_playback_handle (ok : Bool)
  | set_out_vol (volume : Nat)
  | set_out_mute (mute : Bool)
  | set_disable_when_closed (disable : Bool)
  | dev_open (ret : Int)
  | dev_write (bytes : Nat) (ret : Int)
  | dev_close
  | delay (ms : Nat)
  deriving DecidableEq

/-- The codec device: `init_codec_ret k`, `handle_ok k`, `open_ret k` and
`write_ret k` are the results of the `k`-th call of `init_codec`,
`get_playback_handle`, `esp_codec_dev_open` and `esp_codec_dev_write`; `log`
lists the calls made so far, oldest first. -/
structure Codec where
  init_codec_ret : Nat → Int
  inits : Nat
  handle_ok : Nat → Bool
  handles : Nat
  open_ret : Nat → Int
  opens : Nat
  write_ret : Nat → Int
  writes : Nat
  log : List AudioCmd

namespace Codec

def emit (c : Codec) (cmd : AudioCmd) : Codec := { c with log := c.log ++ [cmd] }

def init_codec (c : Codec) : Int × Codec :=
  (c.init_codec_ret c.inits,
   { c with inits := c.inits + 1, log := c.log ++ [.init_codec (c.init_codec_ret c.inits)] })

def get_playback_handle (c : Codec) : Bool × Codec :=
  (c.handle_ok c.handles,
   { c with handles := c.handles + 1,
            log := c.log ++ [.get_playback_handle (c.handle_ok c.handles)] })

def dev_open (c : Codec) : Int × Codec :=
  (c.open_ret c.opens,
   { c with opens := c.opens + 1, log := c.log ++ [.dev_open (c.open_ret c.opens)] })

def dev_write (c : Codec) (bytes : Nat) : Int × Codec :=
  (c.write_ret c.writes,
   { c with writes := c.writes + 1,
            log := c.log ++ [.dev_write bytes (c.write_ret c.writes)] })

end Codec

/-- Module state of `audio_feedback_manager.cpp`; a handle is `true` when it
is not null. -/
structure AudioService where
  g_audio_queue : Option Queue
  g_audio_task : Bool
  g_playing : Bool
  g_codec_ready : Bool
  g_playback : Bool
  codec : Codec

/-- The static initialisers of the module. -/
def AudioService.boot (c : Codec) : AudioService :=
  { g_audio_queue := none, g_audio_task := false, g_playing := false, g_codec_ready := false,
    g_playback := false, codec := c }

def codec_prepare (s : AudioService) : Bool × AudioService :=
  if s.g_codec_ready && s.g_playback then
    (true, s)
  else
    let c := s.codec.emit .set_codec_board_type
    let init := c.init_codec
    if init.1 ≠ 0 then
      (false, { s with codec := init.2 })
    else
      let handle := init.2.get_playback_handle
      let s := { s with codec := handle.2, g_playback := handle.1 }
      if !s.g_playback then
        (false, s)
      else
        let c := ((s.codec.emit (.set_out_vol 95)).emit (.set_out_mute false)).emit
          (.set_disable_when_closed false)
        (true, { s with codec := c, g_codec_ready := true })

/-- The loop `while (written < total_frames)` of `play_tone`; every pass
writes at least one frame, so `fuel = total_frames` passes are enough. -/
def play_tone_loop : Nat → Int → Int → Codec → Codec
  | 0, _, _, c => c
  | fuel + 1, written, total_frames, c =>
    if written < total_frames then
      let chunk : Int := if total_frames - written > 256 then 256 else total_frames - written
      let wr := c.dev_write (chunk * 2 * 2).toNat
      if wr.1 ≠ 0 then wr.2
      else play_tone_loop fuel (written + chunk) total_frames wr.2
    else c

def play_tone (s : AudioService) (frequency_hz : ℚ) (duration_ms : Int) (_gain : ℚ) :
    AudioService :=
  if !s.g_playback || frequency_hz ≤ 0 || duration_ms ≤ 0 then
    s
  else
    let total_frames : Int := (16000 * duration_ms) / 1000
    { s with codec := play_tone_loop total_frames.toNat 0 total_frames s.codec }

def vTaskDelay (s : AudioService) (ms : Nat) : AudioService :=
  { s with codec := s.codec.emit (.delay ms) }

def play_startup_sound (s : AudioService) : AudioService :=
  let s := play_tone s 660 130 (42 / 100)
  let s := vTaskDelay s 20
  play_tone s 990 170 (40 / 100)

def play_shutdown_sound (s : AudioService) : AudioService :=
  let s := play_tone s 880 70 (38 / 100)
  let s := vTaskDelay s 10
  play_tone s 520 110 (40 / 100)

def play_detect_sound (s : AudioService) : AudioService :=
  let s := play_tone s 1400 45 (32 / 100)
  let s := vTaskDelay s 8
  play_tone s 1700 45 (30 / 100)

/-- The body of the loop of `audio_task` once an event has been received. -/
def audio_task_event (s : AudioService) (evt : AudioEvent) : AudioService :=
  let prepared := codec_prepare s
  if !prepared.1 then
    prepared.2
  else
    let s : AudioService := { prepared.2 with g_playing := true }
    let opened : Int × Codec := s.codec.dev_open
    let s : AudioService := { s with codec := opened.2 }
    if opened.1 ≠ 0 then
      { s with g_playing := false }
    else
      let s := { s with codec := (s.codec.emit (.set_out_mute false)).emit (.set_out_vol 95) }
      let s := match evt with
        | .Startup => play_startup_sound s
        | .Shutdown => play_shutdown_sound s
        | .Detect => play_detect_sound s
      let silence := s.codec.dev_write 1024
      let c := silence.2.emit .dev_close
      { s with codec := c, g_playing := false }

/-- One pass of the loop of `audio_task`: `none` while the task is blocked on
an empty queue. -/
def audio_task_iteration (s : AudioService) : Option AudioService :=
  match s.g_audio_queue with
  | none => none
  | some q =>
    match xQueueReceive q with
    | (none, _) => none
    | (some evt, q1) => some (audio_task_event { s with g_audio_queue := some q1 } evt)

def enqueue_event (s : AudioService) (evt : AudioEvent) : AudioService :=
  match s.g_audio_queue with
  | none => s
  | some q =>
    let sent := xQueueSend q evt
    if sent.1 then
      { s with g_audio_queue := some sent.2 }
    else
      let dropped := xQueueReceive sent.2
      let resent := xQueueSend dropped.2 evt
      { s with g_audio_queue := some resent.2 }

/-- The call `audio_feedback_init()`; the two arguments tell whether the
queue and the task could be created. -/
def audio_feedback_init (s : AudioService) (queue_created task_created : Bool) : AudioService :=
  if s.g_audio_task then
    s
  else
    let s := { s with
      g_audio_queue := if queue_created then some { capacity := 4, items := [] } else none }
    if s.g_audio_queue.isNone then s
    else { s with g_audio_task := task_created }

def audio_feedback_play_startup (s : AudioService) : AudioService :=
  enqueue_event s .Startup

def audio_feedback_play_shutdown (s : AudioService) : AudioService :=
  enqueue_event s .Shutdown

def audio_feedback_play_detect (s : AudioService) : AudioService :=
  enqueue_event s .Detect

def audio_feedback_is_idle (s : AudioService) : Bool :=
  match s.g_audio_queue with
  | none => true
  | some q => (!s.g_playing) && (uxQueueMessagesWaiting q == 0)

/-- A codec on which every call succeeds. -/
def Codec.good : Codec :=
  { init_codec_ret := fun _ => 0, inits := 0, handle_ok := fun _ => true, handles := 0,
    open_ret := fun _ => 0, opens := 0, write_ret := fun _ => 0, writes := 0, log := [] }

/-- A codec whose initialisation fails. -/
def Codec.dead : Codec :=
  { Codec.good with init_codec_ret := fun _ => -1 }

/-- The service after a successful `audio_feedback_init()`. -/
def AudioService.ready (c : Codec) : AudioService :=
  audio_feedback_init (AudioService.boot c) true true

/-- Whether a call is a stream write. -/
def AudioCmd.isWrite : AudioCmd → Bool
  | .dev_write _ _ => true
  | _ => false

/-- Whether a call is a stream write that failed. -/
def AudioCmd.isFailedWrite : AudioCmd → Bool
  | .dev_write _ ret => decide (ret ≠ 0)
  | _ => false

/-- A run of calls in which a failed stream write, if there is one, is the
last call. -/
def stops_at_failed_write (added : List AudioCmd) : Prop :=
  ∀ pre x post, added = pre ++ x :: post → x.isFailedWrite = true → post = []

/-- The number of frames one pass of the tone loop writes. -/
def tone_chunk (written total_frames : Int) : Int :=
  if total_frames - written > 256 then 256 else total_frames - written

/-- The sound of an event. -/
def play_event_sound (s : AudioService) : AudioEvent → AudioService
  | .Startup => play_startup_sound s
  | .Shutdown => play_shutdown_sound s
  | .Detect => play_detect_sound s

def POWER_EVENTS_ARM_DELAY_MS : Nat := 3000
def POWER_EVENTS_ARM_DELAY_EXT_RESET_MS : Nat := 8000
def POWER_OFF_GUARD_EXT_RESET_BATTERY_MS : Nat := 30000
def LOOP_DELAY_MS : Nat := 10
def POWER_HOLD_MS : Nat := 500
def BOOT_DEBOUNCE_MS : Nat := 500
def POWER_CUT_EARLIEST_MS : Nat := 100
def POWER_CUT_DEADLINE_MS : Nat := 320
def POWER_IDLE_STABLE_MS : Nat := 1200

/-- Sum of two `uint32_t` values. -/
def add32 (a b : Nat) : Nat := (a + b) % 2 ^ 32

/-- Difference of two `uint32_t` values. -/
def sub32 (a b : Nat) : Nat := (a + 2 ^ 32 - b) % 2 ^ 32

/-- A call made by `loop()` or, for the backlight, by a function it calls:
`process_ui` is `lvgl_port_run_with_gui(process_ui_pending_locked)`,
`off_request` is `power_manager_off_request()`, `play_shutdown` is
`audio_feedback_play_shutdown()`, `commit_power_off` is
`power_manager_commit_power_off()`, `delay ms` is `vTaskDelay`, and
`set_upduty true` is `setUpduty(LCD_PWM_MODE_0)` (backlight off) while
`set_upduty false` is `setUpduty(LCD_PWM_MODE_200)`. -/
inductive LoopEvent where
  | process_ui
  | off_request
  | play_shutdown
  | commit_power_off
  | delay (ms : Nat)
  | set_upduty (locked : Bool)
  deriving DecidableEq

/-- The globals of `main.cpp` that `loop()` works on, the trace of its calls,
and `halted`, set when a pass has entered the endless wait that follows the
power cut. -/
structure LoopState where
  screen_locked : Bool
  ignore_power_events_until_ms : Nat
  power_events_armed : Bool
  power_off_allowed_after_ms : Nat
  power_btn_pressed : Bool
  power_btn_pressed_since_ms : Nat
  power_seen_released_since_arm : Bool
  power_idle_stable : Bool
  power_idle_since_ms : Nat
  power_cut_pending : Bool
  power_cut_earliest_ms : Nat
  power_cut_deadline_ms : Nat
  boot_btn_pressed : Bool
  log : List LoopEvent
  halted : Bool
  deriving DecidableEq

/-- What one pass of `loop()` reads: `app_scanning` is
`app_state == STATE_SCANNING`, `millis_check` and `millis_stamp` are the two
clock reads of the arming block, `now_ms` the clock read of the power block,
`sys_out_low` and `boot_low` tell whether the power and BOOT buttons read
pressed, `usb` is `usb_connected()` and `audio_idle` is
`audio_feedback_is_idle()`. -/
structure TickInput where
  app_scanning : Bool
  millis_check : Nat
  millis_stamp : Nat
  sys_out_low : Bool
  now_ms : Nat
  usb : Bool
  audio_idle : Bool
  boot_low : Bool
  deriving DecidableEq

/-- The static initialisers of the globals. -/
def LoopState.initial : LoopState :=
  { screen_locked := false, ignore_power_events_until_ms := 0, power_events_armed := false,
    power_off_allowed_after_ms := 0, power_btn_pressed := false,
    power_btn_pressed_since_ms := 0, power_seen_released_since_arm := false,
    power_idle_stable := false, power_idle_since_ms := 0, power_cut_pending := false,
    power_cut_earliest_ms := 0, power_cut_deadline_ms := 0, boot_btn_pressed := false,
    log := [], halted := false }

def LoopState.emit (s : LoopState) (e : LoopEvent) : LoopState :=
  { s with log := s.log ++ [e] }

/-- The part of `setup()` that prepares the power sequencer: `ext_reset` is
`esp_reset_reason() == ESP_RST_EXT`, `usb` is `usb_connected()`,
`millis_arm` and `millis_guard` are the two clock reads. -/
def setup (ext_reset usb : Bool) (millis_arm millis_guard : Nat) : LoopState :=
  let s := LoopState.initial
  let s := { s with
    ignore_power_events_until_ms :=
      add32 millis_arm
        (if ext_reset then POWER_EVENTS_ARM_DELAY_EXT_RESET_MS else POWER_EVENTS_ARM_DELAY_MS) }
  let s :=
    if ext_reset && !usb then
      { s with
        power_off_allowed_after_ms := add32 millis_guard POWER_OFF_GUARD_EXT_RESET_BATTERY_MS }
    else
      { s with power_off_allowed_after_ms := 0 }
  { s with screen_locked := false }

def set_screen_locked (s : LoopState) (locked : Bool) : LoopState :=
  if locked = s.screen_locked then s
  else ({ s with screen_locked := locked }).emit (.set_upduty locked)

/-- The arming block of `loop()`. -/
def arm_step (s : LoopState) (i : TickInput) : LoopState :=
  if !s.power_events_armed && i.app_scanning &&
      decide (i.millis_check ≥ s.ignore_power_events_until_ms) then
    { s with power_events_armed := true, power_seen_released_since_arm := false,
             power_idle_stable := false, power_idle_since_ms := i.millis_stamp }
  else s

/-- The release and idle-stability tracking of the power block. -/
def idle_step (s : LoopState) (i : TickInput) : LoopState :=
  if !i.sys_out_low then
    let s := { s with power_seen_released_since_arm := true }
    if !s.power_idle_stable then
      if sub32 i.now_ms s.power_idle_since_ms ≥ POWER_IDLE_STABLE_MS then
        { s with power_idle_stable := true }
      else s
    else s
  else
    { s with power_idle_since_ms := i.now_ms }

/-- The call `power_manager_off_request()` of `power_manager.cpp`: its body
marks the shutdown in the power manager and turns the backlight off with
`backlight_off()`, which is `setUpduty(LCD_PWM_MODE_0)`. -/
def power_manager_off_request (s : LoopState) : LoopState :=
  (s.emit .off_request).emit (.set_upduty true)

/-- The shutdown request made when the hold threshold is reached. -/
def hold_step (s : LoopState) (i : TickInput) : LoopState :=
  let s :=
    if i.usb then s
    else if decide (s.power_off_allowed_after_ms ≠ 0) &&
        decide (i.now_ms < s.power_off_allowed_after_ms) then s
    else
      let s := power_manager_off_request s
      let s := s.emit .play_shutdown
      { s with power_cut_pending := true,
               power_cut_earliest_ms := add32 i.now_ms POWER_CUT_EARLIEST_MS,
               power_cut_deadline_ms := add32 i.now_ms POWER_CUT_DEADLINE_MS }
  { s with power_btn_pressed_since_ms := i.now_ms }

/-- The long-press tracking of the power block. -/
def press_step (s : LoopState) (i : TickInput) : LoopState :=
  if i.sys_out_low && s.power_seen_released_since_arm && s.power_idle_stable &&
      !s.power_cut_pending then
    if !s.power_btn_pressed then
      { s with power_btn_pressed := true, power_btn_pressed_since_ms := i.now_ms }
    else if sub32 i.now_ms s.power_btn_pressed_since_ms ≥ POWER_HOLD_MS then
      hold_step s i
    else s
  else if s.power_btn_pressed then
    { s with power_btn_pressed := false }
  else s

/-- Whether the pending power cut is due in this pass. -/
def cut_due (s : LoopState) (i : TickInput) : Bool :=
  s.power_cut_pending &&
    (decide (i.now_ms ≥ s.power_cut_deadline_ms) ||
      (i.audio_idle && decide (i.now_ms ≥ s.power_cut_earliest_ms)))

/-- The BOOT button block of `loop()`. -/
def boot_step (s : LoopState) (i : TickInput) : LoopState :=
  if i.boot_low && !s.boot_btn_pressed then
    let s := { s with boot_btn_pressed := true }
    let s := s.emit (.delay BOOT_DEBOUNCE_MS)
    set_screen_locked s (!s.screen_locked)
  else if !i.boot_low && s.boot_btn_pressed then
    { s with boot_btn_pressed := false }
  else s

/-- One pass of `loop()`.  A pass that commits the power cut never returns:
the state is marked `halted` and later passes do nothing. -/
def loop_tick (s : LoopState) (i : TickInput) : LoopState :=
  if s.halted then s
  else
    let s := s.emit .process_ui
    let s := arm_step s i
    if s.power_events_armed then
      let s := idle_step s i
      let s := press_step s i
      if cut_due s i then
        { s.emit .commit_power_off with halted := true }
      else
        let s := boot_step s i
        s.emit (.delay LOOP_DELAY_MS)
    else
      s.emit (.delay LOOP_DELAY_MS)

/-- The state after a sequence of passes. -/
def run_ticks (s : LoopState) (ticks : List TickInput) : LoopState :=
  ticks.foldl loop_tick s

/-- The clock reads of one pass, in the order they are made. -/
def tick_times (i : TickInput) : List Nat := [i.millis_check, i.millis_stamp, i.now_ms]

/-- The clock never goes back over a sequence of passes and stays below
`2^32` (no wrap-around of `millis()` during the run). -/
def clock_ok (ticks : List TickInput) : Prop :=
  (ticks.flatMap tick_times).Pairwise (fun a b => a ≤ b) ∧
  ∀ t ∈ ticks.flatMap tick_times, t < 2 ^ 32

instance (ticks : List TickInput) : Decidable (clock_ok ticks) :=
  inferInstanceAs (Decidable (_ ∧ _))

/-- The pass reads the power button: it is not halted and the sequencer is
armed once the arming block has run. -/
def reads_button (s : LoopState) (i : TickInput) : Bool :=
  !s.halted && (arm_step (s.emit .process_ui) i).power_events_armed

/-- The state in which the long-press tracking of a pass runs. -/
def before_press (s : LoopState) (i : TickInput) : LoopState :=
  idle_step (arm_step (s.emit .process_ui) i) i

/-- The pass finds the power button held for the hold threshold: it reads the
button pressed with the press timer running for at least `POWER_HOLD_MS`. -/
def hold_reached (s : LoopState) (i : TickInput) : Bool :=
  reads_button s i && i.sys_out_low && (before_press s i).power_seen_released_since_arm &&
    (before_press s i).power_idle_stable && !(before_press s i).power_cut_pending &&
    (before_press s i).power_btn_pressed &&
    decide (sub32 i.now_ms (before_press s i).power_btn_pressed_since_ms ≥ POWER_HOLD_MS)

/-- The pass starts the press timer for a new press. -/
def accepts_press (s : LoopState) (i : TickInput) : Prop :=
  s.power_btn_pressed = false ∧ (loop_tick s i).power_btn_pressed = true

/-- The pass requests the shutdown. -/
def requests_shutdown (s : LoopState) (i : TickInput) : Prop :=
  s.power_cut_pending = false ∧ (loop_tick s i).power_cut_pending = true

instance (s : LoopState) (i : TickInput) : Decidable (accepts_press s i) :=
  inferInstanceAs (Decidable (_ ∧ _))

instance (s : LoopState) (i : TickInput) : Decidable (requests_shutdown s i) :=
  inferInstanceAs (Decidable (_ ∧ _))

/-- A pass at time `t` with the given power button and USB levels, the
application scanning, the audio service busy and the BOOT button released. -/
def tickAt (t : Nat) (pressed usb : Bool) : TickInput :=
  { app_scanning := true, millis_check := t, millis_stamp := t, sys_out_low := pressed,
    now_ms := t, usb := usb, audio_idle := false, boot_low := false }

/-- The power sequencer after a pass, leaving out the trace, the BOOT button
and the halt: the long-press tracking when the pass reads the button, else
the arming block alone. -/
def power_core (s : LoopState) (i : TickInput) : LoopState :=
  if s.halted then s
  else if reads_button s i then press_step (before_press s i) i
  else arm_step (s.emit .process_ui) i

/-- The calls a pass adds to the trace after its first one. -/
def tick_added (s : LoopState) (i : TickInput) : List LoopEvent :=
  (loop_tick s i).log.drop (s.log.length + 1)

/-- The condition under which the long-press tracking looks at a pressed
button: pressed now, released at least once since arming, idle stability
reached, no shutdown requested yet. -/
def press_window (s : LoopState) (i : TickInput) : Bool :=
  i.sys_out_low && s.power_seen_released_since_arm && s.power_idle_stable &&
    !s.power_cut_pending

/-- The fields of the power sequencer, without the trace, the BOOT button
state and the halt mark. -/
structure PowerFields where
  ignore_power_events_until_ms : Nat
  power_events_armed : Bool
  power_off_allowed_after_ms : Nat
  power_btn_pressed : Bool
  power_btn_pressed_since_ms : Nat
  power_seen_released_since_arm : Bool
  power_idle_stable : Bool
  power_idle_since_ms : Nat
  power_cut_pending : Bool
  power_cut_earliest_ms : Nat
  power_cut_deadline_ms : Nat
  deriving DecidableEq

def LoopState.power (s : LoopState) : PowerFields :=
  { ignore_power_events_until_ms := s.ignore_power_events_until_ms,
    power_events_armed := s.power_events_armed,
    power_off_allowed_after_ms := s.power_off_allowed_after_ms,
    power_btn_pressed := s.power_btn_pressed,
    power_btn_pressed_since_ms := s.power_btn_pressed_since_ms,
    power_seen_released_since_arm := s.power_seen_released_since_arm,
    power_idle_stable := s.power_idle_stable,
    power_idle_since_ms := s.power_idle_since_ms,
    power_cut_pending := s.power_cut_pending,
    power_cut_earliest_ms := s.power_cut_earliest_ms,
    power_cut_deadline_ms := s.power_cut_deadline_ms }

/-- The calls the long-press tracking of a pass makes: the off request, the
backlight call of its body and the shutdown cue when the hold threshold is
reached with USB absent and the reset guard not blocking, none otherwise. -/
def power_calls (s : LoopState) (i : TickInput) : List LoopEvent :=
  if hold_reached s i && !i.usb &&
      !(decide (s.power_off_allowed_after_ms ≠ 0) &&
        decide (i.now_ms < s.power_off_allowed_after_ms)) then
    [.off_request, .set_upduty true, .play_shutdown]
  else []

/-- The calls the BOOT button block makes when it runs: the debounce delay
and the backlight change on a press edge, none otherwise. -/
def boot_calls (s : LoopState) (i : TickInput) : List LoopEvent :=
  if i.boot_low && !s.boot_btn_pressed then
    [.delay BOOT_DEBOUNCE_MS, .set_upduty (!s.screen_locked)]
  else []

def LoopEvent.isUpduty : LoopEvent → Bool
  | .set_upduty _ => true
  | _ => false

/-- A pass with the given inputs at time `t`, the application scanning. -/
def tickWith (t : Nat) (pressed usb audio_idle boot_low : Bool) : TickInput :=
  { app_scanning := true, millis_check := t, millis_stamp := t, sys_out_low := pressed,
    now_ms := t, usb := usb, audio_idle := audio_idle, boot_low := boot_low }

/-! ## The RF task of `main.cpp`

One iteration of the `while (true)` loop of `rf_task` is one step on the
task's locals and on the module state of `cc1101_manager.cpp`.  What the
iteration reads of the UI thread and the clock is its input; its calls are
appended to a trace, the radio calls being run on the module state. -/

def SWEEP_START_MHZ : ℚ := 43305 / 100
def SWEEP_END_MHZ : ℚ := 43479 / 100
def SWEEP_SAMPLE_COUNT : Nat := 96
def DETECT_BEEP_MIN_INTERVAL_MS : Nat := 900
def SCAN_DELAY_MS : Nat := 100

/-- What one iteration reads: `app_scanning` is `app_state == STATE_SCANNING`,
the three screen flags are `ui_manager_is_subghz_active()`,
`ui_manager_is_spectrum_active()` and `ui_manager_is_freq_only_active()`,
`rssi_threshold` is the global of that name, `now_ms` is `millis()`. -/
structure RfInput where
  app_scanning : Bool
  subghz_active : Bool
  spectrum_active : Bool
  freq_only_active : Bool
  rssi_threshold : Int
  now_ms : Nat

/-- A call made by `rf_task`.  `capture_sweep` carries the value returned,
`scan_once` the value of `g_need_scan_reinit` found on entry;
`queue_detection` is `ui_manager_queue_update` with the status
`Signal detecte`, `queue_waiting` the one with the waiting status of the scan
count. -/
inductive RfCall where
  | restore_scan_mode
  | capture_sweep (ok : Bool)
  | scan_once (need_reinit : Bool)
  | queue_spectrum_update (sweep : Cc1101SweepResult)
  | set_last_signal (freq_mhz : ℚ) (rssi : Int) (is_fsk : Bool)
  | queue_detection (freq_mhz : ℚ) (rssi : Int) (is_fsk : Bool)
  | queue_waiting (best_rssi : Int) (scan_count : Int)
  | play_detect
  | delay (ms : Nat)
  deriving DecidableEq

/-- The locals of `rf_task`, the module state of the radio manager and the
trace of calls. -/
structure RfTask where
  mgr : State
  was_spectrum_mode : Bool
  prev_signal_detected : Bool
  last_detect_beep_ms : Nat
  calls : List RfCall

/-- The task at its first iteration. -/
def RfTask.start (mgr : State) : RfTask :=
  { mgr := mgr, was_spectrum_mode := false, prev_signal_detected := false,
    last_detect_beep_ms := 0, calls := [] }

def RfTask.call (t : RfTask) (c : RfCall) : RfTask :=
  { t with calls := t.calls ++ [c] }

/-- The call `cc1101_manager_restore_scan_mode()` made by the task. -/
def rf_restore (t : RfTask) : RfTask :=
  { t.call .restore_scan_mode with mgr := cc1101_manager_restore_scan_mode t.mgr }

/-- The end of the spectrum branch: the sweep is published when the capture
returned true. -/
def rf_publish (t : RfTask) (out : Bool × Option Cc1101SweepResult × State) : RfTask :=
  let t := { t.call (.capture_sweep out.1) with mgr := out.2.2 }
  if out.1 then
    match out.2.1 with
    | some sweep => t.call (.queue_spectrum_update sweep)
    | none => t
  else t

/-- The spectrum branch: one sweep, published when it succeeds. -/
def rf_sweep (t : RfTask) : RfTask :=
  rf_publish { t with prev_signal_detected := false }
    (cc1101_manager_capture_sweep t.mgr SWEEP_START_MHZ SWEEP_END_MHZ SWEEP_SAMPLE_COUNT
      (some Cc1101SweepResult.zero))

/-- What the detection branch does with the result of the scan. -/
def rf_after_scan (t : RfTask) (i : RfInput) (result : Cc1101ScanResult) : RfTask :=
  if result.signal_detected then
    let t := t.call
      (.set_last_signal result.detected_freq_mhz result.detected_rssi_dbm result.is_fsk)
    let t := t.call
      (.queue_detection result.detected_freq_mhz result.detected_rssi_dbm result.is_fsk)
    let t :=
      if i.freq_only_active &&
          (!t.prev_signal_detected ||
            decide (sub32 i.now_ms t.last_detect_beep_ms ≥ DETECT_BEEP_MIN_INTERVAL_MS)) then
        { t.call .play_detect with last_detect_beep_ms := i.now_ms }
      else t
    { t with prev_signal_detected := true }
  else if result.scan_count % 10 = 0 then
    { t.call (.queue_waiting result.best_rssi_dbm result.scan_count) with
      prev_signal_detected := false }
  else
    { t with prev_signal_detected := false }

/-- The detection branch: one `scan_once`, then the handling of its result.
`fuel` bounds the fine loop of the scan. -/
def rf_scan (fuel : Nat) (t : RfTask) (i : RfInput) : Option RfTask :=
  match cc1101_manager_scan_once fuel t.mgr i.rssi_threshold with
  | none => none
  | some (result, mgr) =>
    let t := { t.call (.scan_once t.mgr.g_need_scan_reinit) with mgr := mgr }
    some (rf_after_scan t i result)

/-- One iteration of the loop of `rf_task`. -/
def rf_task_iteration (fuel : Nat) (t : RfTask) (i : RfInput) : Option RfTask :=
  if i.app_scanning then
    if !i.subghz_active then
      let t :=
        if t.was_spectrum_mode then { rf_restore t with was_spectrum_mode := false }
        else t
      let t := { t with prev_signal_detected := false }
      some (t.call (.delay SCAN_DELAY_MS))
    else
      let spectrum_mode := i.spectrum_active
      -- Leaving spectrum can leave radio in a temporary profile, request scan restore.
      let t := if t.was_spectrum_mode && !spectrum_mode then rf_restore t else t
      let t := { t with was_spectrum_mode := spectrum_mode }
      if spectrum_mode then
        some ((rf_sweep t).call (.delay SCAN_DELAY_MS))
      else
        match rf_scan fuel t i with
        | none => none
        | some t => some (t.call (.delay SCAN_DELAY_MS))
  else
    some (t.call (.delay SCAN_DELAY_MS))

/-- The task after a sequence of iterations. -/
def rf_task_run (fuel : Nat) : RfTask → List RfInput → Option RfTask
  | t, [] => some t
  | t, i :: rest =>
    match rf_task_iteration fuel t i with
    | none => none
    | some t2 => rf_task_run fuel t2 rest

/-- The radio operations of the claim: a sweep or a scan. -/
def RfCall.isRadioOp : RfCall → Bool
  | .capture_sweep _ => true
  | .scan_once _ => true
  | _ => false

/-- A call that matters to the sweep bookkeeping. -/
def RfCall.isTracked : RfCall → Bool
  | .capture_sweep _ => true
  | .scan_once _ => true
  | .restore_scan_mode => true
  | _ => false

/-- Where a trace stands with respect to its last sweep: no sweep since the
last scan, a sweep not followed by a restore, a sweep followed by one. -/
inductive SweepTrack where
  | clear
  | swept
  | restored
  deriving DecidableEq

/-- Reading one call of a trace: the standing after it, and whether every
scan so far came after a restore (with the flag set) whenever a sweep was
the last radio operation before it. -/
def track_step (st : SweepTrack × Bool) : RfCall → SweepTrack × Bool
  | .capture_sweep _ => (.swept, st.2)
  | .restore_scan_mode =>
    (match st.1 with
      | .clear => .clear
      | _ => .restored, st.2)
  | .scan_once flag =>
    (.clear, st.2 && decide (st.1 ≠ .swept) && (decide (st.1 ≠ .restored) || flag))
  | _ => st

def track (calls : List RfCall) : SweepTrack × Bool :=
  calls.foldl track_step (.clear, true)

/-- An iteration on the given screen, the application scanning, threshold
-60 dBm. -/
def rfOn (subghz spectrum : Bool) : RfInput :=
  { app_scanning := true, subghz_active := subghz, spectrum_active := spectrum,
    freq_only_active := false, rssi_threshold := -60, now_ms := 0 }

/-- What the task keeps true between iterations: its trace reads without
fault; after a sweep not yet followed by a restore `was_spectrum_mode` is
set; after a sweep followed by a restore the reinit flag is set. -/
def rf_inv (t : RfTask) : Prop :=
  (track t.calls).2 = true ∧
  ((track t.calls).1 = .swept → t.was_spectrum_mode = true) ∧
  ((track t.calls).1 = .restored → t.mgr.g_need_scan_reinit = true)

/-- A signal on the first channel of the table, 300 MHz: the radio reads
-50 dBm on the first coarse reading and on the fine reading taken at the
same frequency (reading 72), and -120 dBm everywhere else. -/
def bandEdgeState : State :=
  State.boot (Radio.fresh (fun k => if k = 0 ∨ k = 72 then -50 else -120))

/-! ## The audio consumer, step by step

The body of the loop of `audio_task` seen at the points where the other
tasks can observe the service through `audio_feedback_is_idle()`. -/

/-- The call `xQueueReceive(g_audio_queue, &evt, portMAX_DELAY)` of the
consumer: `none` while it is blocked on an empty queue. -/
def audio_task_receive (s : AudioService) : Option (AudioEvent × AudioService) :=
  match s.g_audio_queue with
  | none => none
  | some q =>
    match xQueueReceive q with
    | (none, _) => none
    | (some evt, q1) => some (evt, { s with g_audio_queue := some q1 })

/-- The states of the service while the consumer handles the event it has
received, in order: on return from the receive; after `codec_prepare()`;
after `g_playing = true`; after `esp_codec_dev_open`; after the mute and
volume calls; after the sound; after the buffer of silence; after the close;
last, the state in which the event is finished (`g_playing = false`, or the
state after a failed `codec_prepare()`). -/
def audio_task_steps (s : AudioService) (evt : AudioEvent) : List AudioService :=
  let prepared := codec_prepare s
  if !prepared.1 then
    [s, prepared.2]
  else
    let s1 : AudioService := { prepared.2 with g_playing := true }
    let opened : Int × Codec := s1.codec.dev_open
    let s2 : AudioService := { s1 with codec := opened.2 }
    if opened.1 ≠ 0 then
      [s, prepared.2, s1, s2, { s2 with g_playing := false }]
    else
      let s3 : AudioService :=
        { s2 with codec := (s2.codec.emit (.set_out_mute false)).emit (.set_out_vol 95) }
      let s4 : AudioService := play_event_sound s3 evt
      let silence : Int × Codec := s4.codec.dev_write 1024
      let s5 : AudioService := { s4 with codec := silence.2 }
      let s6 : AudioService := { s5 with codec := s5.codec.emit .dev_close }
      [s, prepared.2, s1, s2, s3, s4, s5, s6, { s6 with g_playing := false }]

/-! ## The spectrum rendering of `ui_manager.cpp` -/

def kSpectrumPointCount : Nat := 96
def kSpectrumPlotH : Int := 98
def kSpectrumRssiMin : Int := -110
def kSpectrumRssiMax : Int := -35

def clamp_int (value min_value max_value : Int) : Int :=
  if value < min_value then min_value
  else if value > max_value then max_value
  else value

def rssi_to_bar_height (rssi_dbm : Int) : Int :=
  let clamped := clamp_int rssi_dbm kSpectrumRssiMin kSpectrumRssiMax
  let range := kSpectrumRssiMax - kSpectrumRssiMin
  if range ≤ 0 then 2
  else
    let mapped := Int.tdiv ((clamped - kSpectrumRssiMin) * (kSpectrumPlotH - 2)) range
    clamp_int mapped 2 kSpectrumPlotH

/-- The index `src_idx` of the sample shown in display bin `i`: the product
is taken in `uint32_t`, the quotient cast to `uint16_t`. -/
def spectrum_src_idx (i sample_count : Nat) : Nat :=
  ((i % 2 ^ 32) * (sample_count - 1) % 2 ^ 32 / (kSpectrumPointCount - 1)) % 2 ^ 16

/-- What `update_spectrum_visual` sets on one bar. -/
structure SpectrumBar where
  bin : Nat
  src_idx : Nat
  height : Int
  deriving DecidableEq

/-- The bars `update_spectrum_visual` draws, with the colour choice
`signal_detected`: `none` when it returns at once.  `plot_ready` tells whether
`spectrum_plot` is set.  A read of `rssi_dbm` past its 128 entries is given
the value 0 here. -/
def update_spectrum_visual (plot_ready : Bool) (rssi_threshold : Int)
    (sweep : Cc1101SweepResult) : Option (Bool × List SpectrumBar) :=
  if !sweep.valid || sweep.sample_count < 2 || !plot_ready then none
  else
    let signal_detected := decide (sweep.max_rssi_dbm ≥ rssi_threshold)
    some (signal_detected,
      (List.range kSpectrumPointCount).map (fun i =>
        { bin := i, src_idx := spectrum_src_idx i sweep.sample_count,
          height := rssi_to_bar_height
            (sweep.rssi_dbm.getD (spectrum_src_idx i sweep.sample_count) 0) }))

theorem feedFrom_eq_map (rssi : Nat → Int) (n : Nat) :
    ∀ k, feedFrom rssi k n = (List.range n).map (fun i => rssi (k + i)) := by
  induction n with
  | zero => intro k; rfl
  | succ n ih =>
    intro k
    rw [feedFrom, ih, List.range_succ_eq_map, List.map_cons, List.map_map]
    simp only [Nat.add_zero, List.cons.injEq, true_and]
    apply List.map_congr_left
    intro i _
    simp only [Function.comp, Nat.succ_eq_add_one]
    congr 1
    omega

theorem upcoming_eq_feedFrom (r : Radio) (n : Nat) :
    r.upcoming n = feedFrom r.rssi r.reads n := by
  rw [feedFrom_eq_map]; rfl

theorem feedFrom_length (rssi : Nat → Int) (n : Nat) : ∀ k, (feedFrom rssi k n).length = n := by
  induction n with
  | zero => intro k; rfl
  | succ n ih => intro k; simp [feedFrom, ih]

theorem feedFrom_add (rssi : Nat → Int) (m n : Nat) :
    ∀ k, feedFrom rssi k (m + n) = feedFrom rssi k m ++ feedFrom rssi (k + m) n := by
  induction m with
  | zero => intro k; simp [feedFrom]
  | succ m ih =>
    intro k
    have h : m + 1 + n = (m + n) + 1 := by omega
    rw [h, feedFrom, feedFrom, ih (k + 1)]
    have h2 : k + 1 + m = k + (m + 1) := by omega
    rw [h2]; rfl

theorem apply_scan_profile_profile (r : Radio) :
    (apply_scan_profile r).profile =
      { ook := false, rxBandwidth := 650, deviation := 476 / 10, frequency := 43392 / 100 } := by
  simp [apply_scan_profile, Radio.standby, Radio.emit, Radio.setOOK, Radio.setRxBandwidth,
    Radio.setFrequencyDeviation, Radio.setFrequency]

theorem apply_scan_profile_log (r : Radio) :
    (apply_scan_profile r).log =
      r.log ++ [.standby, .setOOK false, .setRxBandwidth 650,
        .setFrequencyDeviation (476 / 10), .setFrequency (43392 / 100)] := by
  simp [apply_scan_profile, Radio.standby, Radio.emit, Radio.setOOK, Radio.setRxBandwidth,
    Radio.setFrequencyDeviation, Radio.setFrequency]

theorem apply_scan_profile_feed (r : Radio) :
    (apply_scan_profile r).rssi = r.rssi ∧ (apply_scan_profile r).reads = r.reads ∧
    (apply_scan_profile r).beginStatus = r.beginStatus ∧
    (apply_scan_profile r).begins = r.begins ∧
    (apply_scan_profile r).defaults = r.defaults := by
  simp [apply_scan_profile, Radio.standby, Radio.emit, Radio.setOOK, Radio.setRxBandwidth,
    Radio.setFrequencyDeviation, Radio.setFrequency]

/-! ## Lemmas on the coarse loop -/

theorem coarse_step_radio (acc : Radio × FrequencyRSSI) (f : Nat) :
    (coarse_step acc f).1.rssi = acc.1.rssi ∧ (coarse_step acc f).1.reads = acc.1.reads + 1 := by
  unfold coarse_step
  simp only [Radio.getRSSI, Radio.delay, Radio.receiveDirect, Radio.emit, Radio.setFrequency]
  split <;> simp

theorem coarse_step_rssi (acc : Radio × FrequencyRSSI) (f : Nat) :
    (coarse_step acc f).2.rssi_coarse = max acc.2.rssi_coarse (acc.1.rssi acc.1.reads) := by
  unfold coarse_step
  simp only [Radio.getRSSI, Radio.delay, Radio.receiveDirect, Radio.emit, Radio.setFrequency]
  split
  · rename_i h; simp only; rw [max_eq_right (le_of_lt h)]
  · rename_i h; simp only; rw [max_eq_left (not_lt.mp h)]

theorem coarse_step_fine (acc : Radio × FrequencyRSSI) (f : Nat) :
    (coarse_step acc f).2.frequency_fine = acc.2.frequency_fine ∧
    (coarse_step acc f).2.rssi_fine = acc.2.rssi_fine ∧
    (coarse_step acc f).2.is_fsk = acc.2.is_fsk := by
  unfold coarse_step
  simp only [Radio.getRSSI, Radio.delay, Radio.receiveDirect, Radio.emit, Radio.setFrequency]
  split <;> simp

theorem coarse_step_freq (acc : Radio × FrequencyRSSI) (f : Nat) :
    (coarse_step acc f).2.frequency_coarse =
      if acc.1.rssi acc.1.reads > acc.2.rssi_coarse then f else acc.2.frequency_coarse := by
  unfold coarse_step
  simp only [Radio.getRSSI, Radio.delay, Radio.receiveDirect, Radio.emit, Radio.setFrequency]
  split <;> simp [*]

theorem coarse_fold_radio (fs : List Nat) :
    ∀ acc : Radio × FrequencyRSSI,
      (fs.foldl coarse_step acc).1.rssi = acc.1.rssi ∧
      (fs.foldl coarse_step acc).1.reads = acc.1.reads + fs.length := by
  induction fs with
  | nil => intro acc; simp
  | cons f fs ih =>
    intro acc
    have h := coarse_step_radio acc f
    have h2 := ih (coarse_step acc f)
    simp only [List.foldl_cons, List.length_cons]
    rw [h2.1, h2.2, h.1, h.2]
    exact ⟨rfl, by omega⟩

theorem coarse_fold_rssi (fs : List Nat) :
    ∀ acc : Radio × FrequencyRSSI,
      (fs.foldl coarse_step acc).2.rssi_coarse =
        (feedFrom acc.1.rssi acc.1.reads fs.length).foldl max acc.2.rssi_coarse := by
  induction fs with
  | nil => intro acc; simp [feedFrom]
  | cons f fs ih =>
    intro acc
    have h := coarse_step_radio acc f
    simp only [List.foldl_cons, List.length_cons, feedFrom]
    rw [ih (coarse_step acc f), h.1, h.2, coarse_step_rssi]

theorem coarse_fold_fine (fs : List Nat) :
    ∀ acc : Radio × FrequencyRSSI,
      (fs.foldl coarse_step acc).2.frequency_fine = acc.2.frequency_fine ∧
      (fs.foldl coarse_step acc).2.rssi_fine = acc.2.rssi_fine ∧
      (fs.foldl coarse_step acc).2.is_fsk = acc.2.is_fsk := by
  induction fs with
  | nil => intro acc; simp
  | cons f fs ih =>
    intro acc
    have h := coarse_step_fine acc f
    have h2 := ih (coarse_step acc f)
    simp only [List.foldl_cons]
    rw [h2.1, h2.2.1, h2.2.2, h.1, h.2.1, h.2.2]
    exact ⟨rfl, rfl, rfl⟩

/-- The coarse hit is either a table entry or the initial value; in the latter
case no reading exceeded the initial level. -/
theorem coarse_fold_freq (fs : List Nat) :
    ∀ acc : Radio × FrequencyRSSI,
      (fs.foldl coarse_step acc).2.frequency_coarse ∈ fs ∨
      ((fs.foldl coarse_step acc).2.frequency_coarse = acc.2.frequency_coarse ∧
       (fs.foldl coarse_step acc).2.rssi_coarse = acc.2.rssi_coarse) := by
  induction fs with
  | nil => intro acc; simp
  | cons f fs ih =>
    intro acc
    simp only [List.foldl_cons, List.mem_cons]
    rcases ih (coarse_step acc f) with h | ⟨h1, h2⟩
    · exact Or.inl (Or.inr h)
    · rw [h1, h2, coarse_step_freq, coarse_step_rssi]
      by_cases hc : acc.1.rssi acc.1.reads > acc.2.rssi_coarse
      · simp [hc]
      · right
        simp only [hc, if_false, true_and]
        exact max_eq_left (not_lt.mp hc)

theorem table_length : kSubGHzFrequencyList.length = 57 := by decide

theorem table_range : ∀ f ∈ kSubGHzFrequencyList, 300000000 ≤ f ∧ f ≤ 928000000 := by
  decide

/-! ## Lemmas on the fine loop -/

theorem fine_step_radio (r : Radio) (fr : FrequencyRSSI) (f : Nat) :
    (fine_step r fr f).1.rssi = r.rssi ∧ (fine_step r fr f).1.reads = r.reads + 1 := by
  unfold fine_step
  simp only [Radio.getRSSI, Radio.delay, Radio.receiveDirect, Radio.emit, Radio.setFrequency]
  split <;> simp

theorem fine_step_rssi (r : Radio) (fr : FrequencyRSSI) (f : Nat) :
    (fine_step r fr f).2.rssi_fine = max fr.rssi_fine (r.rssi r.reads) := by
  unfold fine_step
  simp only [Radio.getRSSI, Radio.delay, Radio.receiveDirect, Radio.emit, Radio.setFrequency]
  split
  · rename_i h; simp only; rw [max_eq_right (le_of_lt h)]
  · rename_i h; simp only; rw [max_eq_left (not_lt.mp h)]

theorem fine_step_freq (r : Radio) (fr : FrequencyRSSI) (f : Nat) :
    (fine_step r fr f).2.frequency_fine =
      if r.rssi r.reads > fr.rssi_fine then f else fr.frequency_fine := by
  unfold fine_step
  simp only [Radio.getRSSI, Radio.delay, Radio.receiveDirect, Radio.emit, Radio.setFrequency]
  split <;> simp [*]

theorem fine_step_coarse (r : Radio) (fr : FrequencyRSSI) (f : Nat) :
    (fine_step r fr f).2.frequency_coarse = fr.frequency_coarse ∧
    (fine_step r fr f).2.rssi_coarse = fr.rssi_coarse := by
  unfold fine_step
  simp only [Radio.getRSSI, Radio.delay, Radio.receiveDirect, Radio.emit, Radio.setFrequency]
  split <;> simp

theorem fine_fold_cons (r : Radio) (fr : FrequencyRSSI) (f : Nat) (fs : List Nat) :
    fine_fold r fr (f :: fs) = fine_fold (fine_step r fr f).1 (fine_step r fr f).2 fs := rfl

theorem fine_fold_radio (fs : List Nat) :
    ∀ (r : Radio) (fr : FrequencyRSSI),
      (fine_fold r fr fs).1.rssi = r.rssi ∧
      (fine_fold r fr fs).1.reads = r.reads + fs.length := by
  induction fs with
  | nil => intro r fr; simp [fine_fold]
  | cons f fs ih =>
    intro r fr
    have h := fine_step_radio r fr f
    have h2 := ih (fine_step r fr f).1 (fine_step r fr f).2
    rw [fine_fold_cons, h2.1, h2.2, h.1, h.2, List.length_cons]
    exact ⟨rfl, by omega⟩

theorem fine_fold_rssi (fs : List Nat) :
    ∀ (r : Radio) (fr : FrequencyRSSI),
      (fine_fold r fr fs).2.rssi_fine =
        (feedFrom r.rssi r.reads fs.length).foldl max fr.rssi_fine := by
  induction fs with
  | nil => intro r fr; simp [fine_fold, feedFrom]
  | cons f fs ih =>
    intro r fr
    have h := fine_step_radio r fr f
    rw [fine_fold_cons, ih, h.1, h.2, fine_step_rssi]
    simp [feedFrom]

theorem fine_fold_coarse (fs : List Nat) :
    ∀ (r : Radio) (fr : FrequencyRSSI),
      (fine_fold r fr fs).2.frequency_coarse = fr.frequency_coarse ∧
      (fine_fold r fr fs).2.rssi_coarse = fr.rssi_coarse := by
  induction fs with
  | nil => intro r fr; simp [fine_fold]
  | cons f fs ih =>
    intro r fr
    have h := fine_step_coarse r fr f
    have h2 := ih (fine_step r fr f).1 (fine_step r fr f).2
    rw [fine_fold_cons, h2.1, h2.2, h.1, h.2]
    exact ⟨rfl, rfl⟩

/-- The refined frequency is either one of the visited frequencies or the
initial value; in the latter case no fine reading exceeded the initial
level. -/
theorem fine_fold_freq (fs : List Nat) :
    ∀ (r : Radio) (fr : FrequencyRSSI),
      (fine_fold r fr fs).2.frequency_fine ∈ fs ∨
      ((fine_fold r fr fs).2.frequency_fine = fr.frequency_fine ∧
       (fine_fold r fr fs).2.rssi_fine = fr.rssi_fine) := by
  induction fs with
  | nil => intro r fr; simp [fine_fold]
  | cons f fs ih =>
    intro r fr
    rw [fine_fold_cons, List.mem_cons]
    rcases ih (fine_step r fr f).1 (fine_step r fr f).2 with h | ⟨h1, h2⟩
    · exact Or.inl (Or.inr h)
    · rw [h1, h2, fine_step_freq, fine_step_rssi]
      by_cases hc : r.rssi r.reads > fr.rssi_fine
      · simp [hc]
      · right
        simp only [hc, if_false, true_and]
        exact max_eq_left (not_lt.mp hc)

theorem mem_gridFrom (m : Nat) :
    ∀ (f x : Nat), x ∈ gridFrom f m → ∃ k, k < m ∧ x = f + 20000 * k := by
  induction m with
  | zero => intro f x h; simp [gridFrom] at h
  | succ m ih =>
    intro f x h
    simp only [gridFrom, List.mem_cons] at h
    rcases h with h | h
    · exact ⟨0, by omega, by omega⟩
    · obtain ⟨k, hk, hx⟩ := ih _ _ h
      exact ⟨k + 1, by omega, by omega⟩

theorem gridFrom_length (m : Nat) : ∀ f, (gridFrom f m).length = m := by
  induction m with
  | zero => intro f; rfl
  | succ m ih => intro f; simp [gridFrom, ih]

/-- With enough fuel and no wrap-around of the loop variable, the fine loop
ends after visiting exactly the `m` grid points that lie at or below the
bound. -/
theorem fine_scan_eq (m : Nat) :
    ∀ (fuel f bound : Nat) (r : Radio) (fr : FrequencyRSSI),
      m ≤ fuel → (∀ j, j < m → f + 20000 * j ≤ bound) → bound < f + 20000 * m →
      f + 20000 * m < 2 ^ 32 →
      fine_scan fuel f bound r fr = some (fine_fold r fr (gridFrom f m)) := by
  induction m with
  | zero =>
    intro fuel f bound r fr _ _ hout _
    have hlt : ¬ f ≤ bound := by omega
    cases fuel <;> simp [fine_scan, hlt, fine_fold, gridFrom]
  | succ m ih =>
    intro fuel f bound r fr hfuel hin hout hno
    have hle : f ≤ bound := by have := hin 0 (by omega); omega
    cases fuel with
    | zero => omega
    | succ fuel =>
      have hmod : (f + 20000) % 2 ^ 32 = f + 20000 := by
        apply Nat.mod_eq_of_lt; omega
      simp only [fine_scan, hle, if_true, hmod, gridFrom, fine_fold_cons]
      apply ih
      · omega
      · intro j hj
        have := hin (j + 1) (by omega)
        omega
      · omega
      · omega

/-- The fine loop of `scan_once` around a coarse hit that is `0` or lies in
the candidate band: it terminates within 31 iterations. -/
theorem fine_scan_around (fuel fc : Nat) (r : Radio) (fr : FrequencyRSSI)
    (hfuel : 31 ≤ fuel) (hfc : fc = 0 ∨ (300000000 ≤ fc ∧ fc ≤ 928000000)) :
    fine_scan fuel ((fc + 2 ^ 32 - 300000) % 2 ^ 32) ((fc + 300000) % 2 ^ 32) r fr =
      some (fine_fold r fr (fine_freqs fc)) := by
  rcases hfc with h0 | ⟨hlo, hhi⟩
  · subst h0
    have := fine_scan_eq 0 fuel ((0 + 2 ^ 32 - 300000) % 2 ^ 32) ((0 + 300000) % 2 ^ 32) r fr
      (by omega) (by intro j hj; omega) (by norm_num) (by norm_num)
    rw [this]; simp [fine_freqs, gridFrom]
  · have h1 : (fc + 2 ^ 32 - 300000) % 2 ^ 32 = fc - 300000 := by
      have : fc + 2 ^ 32 - 300000 = (fc - 300000) + 2 ^ 32 := by omega
      rw [this, Nat.add_mod_right]
      apply Nat.mod_eq_of_lt; omega
    have h2 : (fc + 300000) % 2 ^ 32 = fc + 300000 := by
      apply Nat.mod_eq_of_lt; omega
    have hne : fc ≠ 0 := by omega
    rw [h1, h2]
    have := fine_scan_eq 31 fuel (fc - 300000) (fc + 300000) r fr hfuel
      (by intro j hj; omega) (by omega) (by omega)
    rw [this]; simp [fine_freqs, hne]

/-! ## Traces of the two scan loops -/

theorem coarse_step_log (acc : Radio × FrequencyRSSI) (f : Nat) :
    (coarse_step acc f).1.log =
      acc.1.log ++ [.setFrequency ((f : ℚ) / 1000000), .receiveDirect, .delay 3000,
        .getRSSI (acc.1.rssi acc.1.reads)] ∧
    (coarse_step acc f).1.begins = acc.1.begins ∧
    (coarse_step acc f).1.beginStatus = acc.1.beginStatus := by
  unfold coarse_step
  simp only [Radio.getRSSI, Radio.delay, Radio.receiveDirect, Radio.emit, Radio.setFrequency]
  split <;> simp

theorem fine_step_log (r : Radio) (fr : FrequencyRSSI) (f : Nat) :
    (fine_step r fr f).1.log =
      r.log ++ [.setFrequency ((f : ℚ) / 1000000), .receiveDirect, .delay 3000,
        .getRSSI (r.rssi r.reads)] ∧
    (fine_step r fr f).1.begins = r.begins ∧
    (fine_step r fr f).1.beginStatus = r.beginStatus := by
  unfold fine_step
  simp only [Radio.getRSSI, Radio.delay, Radio.receiveDirect, Radio.emit, Radio.setFrequency]
  split <;> simp

theorem coarse_fold_log (fs : List Nat) :
    ∀ acc : Radio × FrequencyRSSI,
      (fs.foldl coarse_step acc).1.log =
        acc.1.log ++ probe_trace acc.1.rssi 3000 acc.1.reads fs ∧
      (fs.foldl coarse_step acc).1.begins = acc.1.begins ∧
      (fs.foldl coarse_step acc).1.beginStatus = acc.1.beginStatus := by
  induction fs with
  | nil => intro acc; simp [probe_trace]
  | cons f fs ih =>
    intro acc
    have h := coarse_step_log acc f
    have hr := coarse_step_radio acc f
    have h2 := ih (coarse_step acc f)
    simp only [List.foldl_cons, probe_trace]
    rw [h2.1, h2.2.1, h2.2.2, h.1, h.2.1, h.2.2, hr.1, hr.2, List.append_assoc]
    exact ⟨rfl, rfl, rfl⟩

theorem fine_fold_log (fs : List Nat) :
    ∀ (r : Radio) (fr : FrequencyRSSI),
      (fine_fold r fr fs).1.log = r.log ++ probe_trace r.rssi 3000 r.reads fs ∧
      (fine_fold r fr fs).1.begins = r.begins ∧
      (fine_fold r fr fs).1.beginStatus = r.beginStatus := by
  induction fs with
  | nil => intro r fr; simp [probe_trace, fine_fold]
  | cons f fs ih =>
    intro r fr
    have h := fine_step_log r fr f
    have hr := fine_step_radio r fr f
    have h2 := ih (fine_step r fr f).1 (fine_step r fr f).2
    rw [fine_fold_cons, h2.1, h2.2.1, h2.2.2, h.1, h.2.1, h.2.2, hr.1, hr.2, probe_trace,
      List.append_assoc]
    exact ⟨rfl, rfl, rfl⟩

/-! ## The two outcomes of a scan that goes ahead -/

theorem scan_radio_feed (s : State) :
    (scan_radio s).rssi = s.radio.rssi ∧ (scan_radio s).reads = s.radio.reads := by
  unfold scan_radio
  split
  · have h := apply_scan_profile_feed (s.radio.spiBegin.begin).2
    rw [h.1, h.2.1]
    simp [Radio.begin, Radio.spiBegin, Radio.emit]
  · have h := apply_scan_profile_feed s.radio
    exact ⟨h.1, h.2.1⟩

theorem scan_coarse_rssi (s : State) :
    (scan_coarse s).2.rssi_coarse = (s.radio.upcoming 57).foldl max (-100) := by
  unfold scan_coarse coarse_scan
  rw [coarse_fold_rssi, table_length, (scan_radio_feed s).1, (scan_radio_feed s).2,
    upcoming_eq_feedFrom]
  rfl

theorem scan_coarse_freq (s : State) :
    (scan_coarse s).2.frequency_coarse = 0 ∨
    (300000000 ≤ (scan_coarse s).2.frequency_coarse ∧
      (scan_coarse s).2.frequency_coarse ≤ 928000000) := by
  unfold scan_coarse coarse_scan
  rcases coarse_fold_freq kSubGHzFrequencyList (scan_radio s, freq_rssi_init) with h | h
  · exact Or.inr (table_range _ h)
  · exact Or.inl h.1

set_option maxRecDepth 10000 in
/-- A scan that goes ahead and whose coarse level stays at or below the
threshold. -/
theorem scan_once_quiet (fuel : Nat) (s : State) (rssi_threshold : Int)
    (hready : scan_ready s) (hq : (scan_coarse s).2.rssi_coarse ≤ rssi_threshold) :
    cc1101_manager_scan_once fuel s rssi_threshold =
      some ({ Cc1101ScanResult.zero with
              best_rssi_dbm := (scan_coarse s).2.rssi_coarse,
              scan_count := s.g_scan_count + 1 },
            { radio := (scan_coarse s).1, g_scan_count := s.g_scan_count + 1,
              g_need_scan_reinit := false }) := by
  unfold scan_coarse scan_radio at *
  unfold cc1101_manager_scan_once reinit_for_scan
  rcases hready with h | h
  · simp only [h] at hq ⊢
    simp [freq_rssi_init] at hq ⊢
    simp [hq, h]
  · cases hb : s.g_need_scan_reinit
    · simp only [hb] at hq ⊢
      simp [freq_rssi_init] at hq ⊢
      simp [hq]
    · simp only [hb] at hq ⊢
      have hst : (s.radio.spiBegin.begin).1 = RADIOLIB_ERR_NONE := by
        simpa [Radio.begin, Radio.spiBegin, Radio.emit] using h
      simp [freq_rssi_init, hst] at hq ⊢
      simp [hq]

set_option maxRecDepth 10000 in
/-- A scan that goes ahead and whose coarse level exceeds the threshold: with
fuel for 31 fine iterations it returns the refined hit. -/
theorem scan_once_detect (fuel : Nat) (s : State) (rssi_threshold : Int)
    (hfuel : 31 ≤ fuel) (hready : scan_ready s)
    (hd : rssi_threshold < (scan_coarse s).2.rssi_coarse) :
    cc1101_manager_scan_once fuel s rssi_threshold =
      some ({ signal_detected := true,
              detected_freq_mhz := ((scan_fine s).2.frequency_fine : ℚ) / 1000000,
              detected_rssi_dbm := (scan_fine s).2.rssi_fine,
              is_fsk := (detect_modulation (scan_fine s).1
                (((scan_fine s).2.frequency_fine : ℚ) / 1000000)).1,
              best_rssi_dbm := (scan_coarse s).2.rssi_coarse,
              scan_count := s.g_scan_count + 1 },
            { radio := (detect_modulation (scan_fine s).1
                (((scan_fine s).2.frequency_fine : ℚ) / 1000000)).2,
              g_scan_count := s.g_scan_count + 1,
              g_need_scan_reinit := false }) := by
  have hfine := fine_scan_around fuel (scan_coarse s).2.frequency_coarse
    ((scan_coarse s).1.setRxBandwidth 58) (scan_coarse s).2 hfuel (scan_coarse_freq s)
  have hnq : ¬ (scan_coarse s).2.rssi_coarse ≤ rssi_threshold := not_le.mpr hd
  unfold scan_fine
  unfold scan_coarse scan_radio at *
  unfold cc1101_manager_scan_once reinit_for_scan
  rcases hready with h | h
  · simp only [h] at hnq hfine ⊢
    simp [freq_rssi_init] at hnq hfine ⊢
    simp [hnq, h, hfine, Cc1101ScanResult.zero]
  · cases hb : s.g_need_scan_reinit
    · simp only [hb] at hnq hfine ⊢
      simp [freq_rssi_init] at hnq hfine ⊢
      simp [hnq, hfine, Cc1101ScanResult.zero]
    · simp only [hb] at hnq hfine ⊢
      have hst : (s.radio.spiBegin.begin).1 = RADIOLIB_ERR_NONE := by
        simpa [Radio.begin, Radio.spiBegin, Radio.emit] using h
      simp [freq_rssi_init, hst] at hnq hfine ⊢
      simp [hnq, hfine, Cc1101ScanResult.zero]

/-- A scan whose pending reinit fails. -/
theorem scan_once_reinit_failed (fuel : Nat) (s : State) (rssi_threshold : Int)
    (hflag : s.g_need_scan_reinit = true)
    (hfail : s.radio.beginStatus s.radio.begins ≠ RADIOLIB_ERR_NONE) :
    cc1101_manager_scan_once fuel s rssi_threshold =
      some (Cc1101ScanResult.zero,
            { radio := (s.radio.spiBegin.begin).2, g_scan_count := s.g_scan_count + 1,
              g_need_scan_reinit := true }) := by
  have hst : (s.radio.spiBegin.begin).1 ≠ RADIOLIB_ERR_NONE := by
    simpa [Radio.begin, Radio.spiBegin, Radio.emit] using hfail
  unfold cc1101_manager_scan_once reinit_for_scan
  simp [hflag, hst]

/-! ## Lemmas on maxima of readings -/

theorem foldl_max_max (xs : List Int) :
    ∀ a x : Int, xs.foldl max (max a x) = max a (xs.foldl max x) := by
  induction xs with
  | nil => intro a x; rfl
  | cons y ys ih =>
    intro a x
    simp only [List.foldl_cons]
    rw [max_assoc, ih]

theorem foldl_max_eq (a : Int) (xs : List Int) (hne : xs ≠ []) :
    xs.foldl max a = max a (maxReading xs) := by
  cases xs with
  | nil => exact absurd rfl hne
  | cons x xs => simp only [List.foldl_cons, maxReading]; exact foldl_max_max xs a x

theorem le_foldl_max (xs : List Int) : ∀ a : Int, a ≤ xs.foldl max a := by
  induction xs with
  | nil => intro a; exact le_refl a
  | cons y ys ih => intro a; exact le_trans (le_max_left a y) (ih (max a y))

theorem mem_le_foldl_max (xs : List Int) :
    ∀ a : Int, ∀ x ∈ xs, x ≤ xs.foldl max a := by
  induction xs with
  | nil => intro a x h; simp at h
  | cons y ys ih =>
    intro a x h
    simp only [List.mem_cons] at h
    simp only [List.foldl_cons]
    rcases h with h | h
    · subst h; exact le_trans (le_max_right a x) (le_foldl_max ys (max a x))
    · exact ih (max a y) x h

theorem foldl_max_mem (xs : List Int) :
    ∀ a : Int, xs.foldl max a = a ∨ xs.foldl max a ∈ xs := by
  induction xs with
  | nil => intro a; exact Or.inl rfl
  | cons y ys ih =>
    intro a
    simp only [List.foldl_cons, List.mem_cons]
    rcases ih (max a y) with h | h
    · rw [h]
      rcases max_choice a y with hc | hc
      · exact Or.inl hc
      · exact Or.inr (Or.inl hc)
    · exact Or.inr (Or.inr h)

/-- `maxReading` is the greatest element of a non-empty list. -/
theorem maxReading_spec (xs : List Int) (hne : xs ≠ []) :
    maxReading xs ∈ xs ∧ ∀ x ∈ xs, x ≤ maxReading xs := by
  cases xs with
  | nil => exact absurd rfl hne
  | cons x xs =>
    simp only [maxReading, List.mem_cons]
    refine ⟨?_, ?_⟩
    · rcases foldl_max_mem xs x with h | h
      · exact Or.inl h
      · exact Or.inr h
    · intro y hy
      rcases hy with hy | hy
      · subst hy; exact le_foldl_max xs y
      · exact mem_le_foldl_max xs x y hy

theorem upcoming_succ (r : Radio) (n : Nat) :
    r.upcoming (n + 1) = r.upcoming n ++ [r.rssi (r.reads + n)] := by
  simp [Radio.upcoming, List.range_succ]

theorem upcoming_length (r : Radio) (n : Nat) : (r.upcoming n).length = n := by
  simp [Radio.upcoming]

theorem upcoming_ne_nil (r : Radio) (n : Nat) (hn : 0 < n) : r.upcoming n ≠ [] := by
  intro h
  have := upcoming_length r n
  rw [h] at this
  simp at this
  omega

theorem mem_upcoming (r : Radio) (n : Nat) (x : Int) :
    x ∈ r.upcoming n ↔ ∃ i, i < n ∧ r.rssi (r.reads + i) = x := by
  simp [Radio.upcoming]

/-! ## Lemmas on the sweep loop -/

theorem sweep_step_radio (start step : ℚ) (acc : Radio × Cc1101SweepResult) (i : Nat) :
    (sweep_step start step acc i).1.rssi = acc.1.rssi ∧
    (sweep_step start step acc i).1.reads = acc.1.reads + 1 := by
  unfold sweep_step
  simp only [Radio.getRSSI, Radio.delay, Radio.receiveDirect, Radio.emit, Radio.setFrequency]
  split <;> simp

theorem sweep_step_header (start step : ℚ) (acc : Radio × Cc1101SweepResult) (i : Nat) :
    (sweep_step start step acc i).2.valid = acc.2.valid ∧
    (sweep_step start step acc i).2.start_freq_mhz = acc.2.start_freq_mhz ∧
    (sweep_step start step acc i).2.end_freq_mhz = acc.2.end_freq_mhz ∧
    (sweep_step start step acc i).2.sample_count = acc.2.sample_count := by
  unfold sweep_step
  simp only [Radio.getRSSI, Radio.delay, Radio.receiveDirect, Radio.emit, Radio.setFrequency]
  split <;> simp

theorem sweep_step_samples (start step : ℚ) (acc : Radio × Cc1101SweepResult) (i : Nat) :
    (sweep_step start step acc i).2.rssi_dbm =
      acc.2.rssi_dbm.set i (toInt16 (acc.1.rssi acc.1.reads)) := by
  unfold sweep_step
  simp only [Radio.getRSSI, Radio.delay, Radio.receiveDirect, Radio.emit, Radio.setFrequency]
  split <;> simp

theorem sweep_step_max (start step : ℚ) (acc : Radio × Cc1101SweepResult) (i : Nat) :
    (sweep_step start step acc i).2.max_rssi_dbm =
      max acc.2.max_rssi_dbm (acc.1.rssi acc.1.reads) ∧
    (sweep_step start step acc i).2.max_freq_mhz =
      if acc.1.rssi acc.1.reads > acc.2.max_rssi_dbm then start + step * (i : ℚ)
      else acc.2.max_freq_mhz := by
  by_cases h : acc.1.rssi acc.1.reads > acc.2.max_rssi_dbm
  · simp [sweep_step, Radio.getRSSI, Radio.delay, Radio.receiveDirect, Radio.emit,
      Radio.setFrequency, h, max_eq_right (le_of_lt h)]
  · simp [sweep_step, Radio.getRSSI, Radio.delay, Radio.receiveDirect, Radio.emit,
      Radio.setFrequency, h, max_eq_left (not_lt.mp h)]

theorem sweep_fold_succ (start step : ℚ) (r : Radio) (res : Cc1101SweepResult) (n : Nat) :
    sweep_fold start step r res (n + 1) =
      sweep_step start step (sweep_fold start step r res n) n := by
  simp [sweep_fold, List.range_succ, List.foldl_append]

theorem sweep_fold_radio (start step : ℚ) (r : Radio) (res : Cc1101SweepResult) (n : Nat) :
    (sweep_fold start step r res n).1.rssi = r.rssi ∧
    (sweep_fold start step r res n).1.reads = r.reads + n := by
  induction n with
  | zero => simp [sweep_fold]
  | succ n ih =>
    have h := sweep_step_radio start step (sweep_fold start step r res n) n
    rw [sweep_fold_succ, h.1, h.2, ih.1, ih.2]
    exact ⟨rfl, by omega⟩

theorem sweep_fold_header (start step : ℚ) (r : Radio) (res : Cc1101SweepResult) (n : Nat) :
    (sweep_fold start step r res n).2.valid = res.valid ∧
    (sweep_fold start step r res n).2.start_freq_mhz = res.start_freq_mhz ∧
    (sweep_fold start step r res n).2.end_freq_mhz = res.end_freq_mhz ∧
    (sweep_fold start step r res n).2.sample_count = res.sample_count := by
  induction n with
  | zero => simp [sweep_fold]
  | succ n ih =>
    have h := sweep_step_header start step (sweep_fold start step r res n) n
    rw [sweep_fold_succ, h.1, h.2.1, h.2.2.1, h.2.2.2]
    exact ih

theorem sweep_fold_samples (start step : ℚ) (r : Radio) (res : Cc1101SweepResult) (n : Nat) :
    (sweep_fold start step r res n).2.rssi_dbm.length = res.rssi_dbm.length ∧
    (n ≤ res.rssi_dbm.length →
      (sweep_fold start step r res n).2.rssi_dbm.take n = (r.upcoming n).map toInt16) := by
  induction n with
  | zero => simp [sweep_fold, Radio.upcoming]
  | succ n ih =>
    have hr := sweep_fold_radio start step r res n
    rw [sweep_fold_succ, sweep_step_samples, List.length_set, hr.1, hr.2]
    refine ⟨ih.1, ?_⟩
    intro hn
    have hlen : n < (sweep_fold start step r res n).2.rssi_dbm.length := by
      rw [ih.1]; omega
    rw [List.take_succ, List.set_take, List.set_eq_of_length_le (by simp),
      List.getElem?_set_self hlen, ih.2 (by omega), upcoming_succ]
    simp

theorem sweep_fold_max (start step : ℚ) (r : Radio) (res : Cc1101SweepResult) (n : Nat) :
    (sweep_fold start step r res n).2.max_rssi_dbm =
      (r.upcoming n).foldl max res.max_rssi_dbm := by
  induction n with
  | zero => simp [sweep_fold, Radio.upcoming]
  | succ n ih =>
    have hr := sweep_fold_radio start step r res n
    rw [sweep_fold_succ, (sweep_step_max _ _ _ _).1, ih, hr.1, hr.2, upcoming_succ,
      List.foldl_append]
    rfl

/-- Where the maximum of the sweep sits: either no reading exceeded the
initial level and the initial frequency is kept, or the frequency is that of
the first sample point whose reading equals the final maximum. -/
theorem sweep_fold_peak (start step : ℚ) (r : Radio) (res : Cc1101SweepResult) (n : Nat) :
    ((sweep_fold start step r res n).2.max_rssi_dbm = res.max_rssi_dbm ∧
      (sweep_fold start step r res n).2.max_freq_mhz = res.max_freq_mhz) ∨
    (∃ i, i < n ∧
      r.rssi (r.reads + i) = (sweep_fold start step r res n).2.max_rssi_dbm ∧
      res.max_rssi_dbm < (sweep_fold start step r res n).2.max_rssi_dbm ∧
      (∀ j, j < i → r.rssi (r.reads + j) < (sweep_fold start step r res n).2.max_rssi_dbm) ∧
      (sweep_fold start step r res n).2.max_freq_mhz = start + step * (i : ℚ)) := by
  induction n with
  | zero => left; simp [sweep_fold]
  | succ n ih =>
    have hr := sweep_fold_radio start step r res n
    have hm := sweep_step_max start step (sweep_fold start step r res n) n
    have hall : ∀ j, j < n → r.rssi (r.reads + j) ≤
        (sweep_fold start step r res n).2.max_rssi_dbm := by
      intro j hj
      rw [sweep_fold_max]
      exact mem_le_foldl_max _ _ _ ((mem_upcoming r n _).2 ⟨j, hj, rfl⟩)
    have hinit : res.max_rssi_dbm ≤ (sweep_fold start step r res n).2.max_rssi_dbm := by
      rw [sweep_fold_max]; exact le_foldl_max _ _
    rw [sweep_fold_succ, hm.1, hm.2, hr.1, hr.2]
    by_cases hc : r.rssi (r.reads + n) > (sweep_fold start step r res n).2.max_rssi_dbm
    · right
      refine ⟨n, by omega, ?_, ?_, ?_, ?_⟩
      · rw [max_eq_right (le_of_lt hc)]
      · rw [max_eq_right (le_of_lt hc)]; exact lt_of_le_of_lt hinit hc
      · intro j hj
        rw [max_eq_right (le_of_lt hc)]
        exact lt_of_le_of_lt (hall j hj) hc
      · simp [hc]
    · rw [max_eq_left (not_lt.mp hc)]
      simp only [hc, if_false]
      rcases ih with h | ⟨i, hi, h1, h2, h3, h4⟩
      · exact Or.inl h
      · exact Or.inr ⟨i, by omega, h1, h2, h3, h4⟩

/-! ## Lemmas on the modulation measurement -/

theorem detect_modulation_fst (r : Radio) (f : ℚ) :
    (detect_modulation r f).1 = decide (r.rssi (r.reads + 1) > r.rssi r.reads) := by
  simp [detect_modulation, Radio.getRSSI, Radio.delay, Radio.receiveDirect, Radio.standby,
    Radio.emit, Radio.setFrequency, Radio.setOOK, Radio.setRxBandwidth,
    Radio.setFrequencyDeviation]

theorem detect_modulation_log (r : Radio) (f : ℚ) :
    (detect_modulation r f).2.log =
      r.log ++ [.setOOK true, .setFrequency f,
        .setRxBandwidth (if f > 850 then 250 else 200),
        .standby, .delay 2000, .receiveDirect, .delay 8000, .getRSSI (r.rssi r.reads),
        .setOOK false, .setFrequency f,
        .setRxBandwidth (if f > 850 then 250 else 200),
        .setFrequencyDeviation (if f > 850 then 50 else 476 / 10),
        .standby, .delay 2000, .receiveDirect, .delay 8000,
        .getRSSI (r.rssi (r.reads + 1))] := by
  simp [detect_modulation, Radio.getRSSI, Radio.delay, Radio.receiveDirect, Radio.standby,
    Radio.emit, Radio.setFrequency, Radio.setOOK, Radio.setRxBandwidth,
    Radio.setFrequencyDeviation]

/-! ## The two outcomes of a sweep -/

theorem capture_sweep_rejected (s : State) (a b : ℚ) (n : Nat) (old : Cc1101SweepResult)
    (h : n < 2 ∨ CC1101_SWEEP_MAX_SAMPLES < n) :
    cc1101_manager_capture_sweep s a b n (some old) =
      (false, some sweep_init, { s with radio := apply_scan_profile s.radio }) := by
  unfold cc1101_manager_capture_sweep
  simp only [gt_iff_lt, h, if_true]
  rfl

theorem capture_sweep_accepted (s : State) (a b : ℚ) (n : Nat) (old : Cc1101SweepResult)
    (h : 2 ≤ n ∧ n ≤ CC1101_SWEEP_MAX_SAMPLES) :
    cc1101_manager_capture_sweep s a b n (some old) =
      (true, some { (sweep_run s a b n).2 with valid := true },
        { s with radio := apply_scan_profile (sweep_run s a b n).1 }) := by
  have hn : ¬ (n < 2 ∨ n > CC1101_SWEEP_MAX_SAMPLES) := by
    intro hc; rcases hc with hc | hc <;> omega
  unfold cc1101_manager_capture_sweep
  simp only [hn, if_false]
  rfl

/-! ## Lemmas on call histories -/

theorem scan_once_returns (fuel : Nat) (s : State) (t : Int) (hfuel : 31 ≤ fuel) :
    ∃ res s1, cc1101_manager_scan_once fuel s t = some (res, s1) ∧
      s1.g_scan_count = s.g_scan_count + 1 := by
  by_cases hready : scan_ready s
  · by_cases hq : (scan_coarse s).2.rssi_coarse ≤ t
    · exact ⟨_, _, scan_once_quiet fuel s t hready hq, rfl⟩
    · exact ⟨_, _, scan_once_detect fuel s t hfuel hready (not_le.mp hq), rfl⟩
  · have hflag : s.g_need_scan_reinit = true := by
      cases hb : s.g_need_scan_reinit
      · exact absurd (Or.inl hb) hready
      · rfl
    have hfail : s.radio.beginStatus s.radio.begins ≠ RADIOLIB_ERR_NONE :=
      fun hc => hready (Or.inr hc)
    exact ⟨_, _, scan_once_reinit_failed fuel s t hflag hfail, rfl⟩

theorem capture_sweep_count (s : State) (a b : ℚ) (n : Nat) (old : Cc1101SweepResult) :
    (cc1101_manager_capture_sweep s a b n (some old)).2.2.g_scan_count = s.g_scan_count := by
  by_cases h : n < 2 ∨ CC1101_SWEEP_MAX_SAMPLES < n
  · rw [capture_sweep_rejected s a b n old h]
  · rw [capture_sweep_accepted s a b n old (by omega)]

theorem init_count (s : State) : (cc1101_manager_init s).2.g_scan_count = s.g_scan_count := by
  unfold cc1101_manager_init
  simp only []
  split <;> rfl

/-- The global counter counts the `scan_once` calls of a history. -/
theorem run_calls_count (fuel : Nat) (hfuel : 31 ≤ fuel) (cs : List Call) :
    ∀ s s1 : State, run_calls fuel s cs = some s1 →
      s1.g_scan_count = s.g_scan_count + (scan_calls cs : Int) := by
  induction cs with
  | nil =>
    intro s s1 h
    simp only [run_calls, Option.some.injEq] at h
    subst h
    simp [scan_calls]
  | cons c cs ih =>
    intro s s1 h
    cases c with
    | init =>
      simp only [run_calls, run_call, Option.some_bind] at h
      rw [ih _ _ h, init_count]; simp [scan_calls]
    | scan_once t =>
      obtain ⟨res, s2, h2, hc⟩ := scan_once_returns fuel s t hfuel
      simp only [run_calls, run_call, h2, Option.map_some', Option.some_bind] at h
      rw [ih _ _ h, hc]; simp [scan_calls]; ring
    | capture_sweep a b n =>
      simp only [run_calls, run_call, Option.some_bind] at h
      rw [ih _ _ h, capture_sweep_count]; simp [scan_calls]
    | restore_scan_mode =>
      simp only [run_calls, run_call, Option.some_bind] at h
      rw [ih _ _ h]; simp [scan_calls, cc1101_manager_restore_scan_mode]

/-- With fuel for 31 fine iterations every history runs to its end. -/
theorem run_calls_total (fuel : Nat) (hfuel : 31 ≤ fuel) (cs : List Call) :
    ∀ s : State, ∃ s1, run_calls fuel s cs = some s1 := by
  induction cs with
  | nil => intro s; exact ⟨s, rfl⟩
  | cons c cs ih =>
    intro s
    cases c with
    | init => simp only [run_calls, run_call, Option.some_bind]; exact ih _
    | scan_once t =>
      obtain ⟨res, s2, h2, _⟩ := scan_once_returns fuel s t hfuel
      simp only [run_calls, run_call, h2, Option.map_some', Option.some_bind]; exact ih _
    | capture_sweep a b n => simp only [run_calls, run_call, Option.some_bind]; exact ih _
    | restore_scan_mode => simp only [run_calls, run_call, Option.some_bind]; exact ih _

/-! ## The trace of a scan -/

theorem scan_radio_log (s : State) :
    (scan_radio s).log = s.radio.log ++ reinit_trace s ++ scan_profile_trace := by
  unfold scan_radio reinit_trace
  split
  · rw [apply_scan_profile_log]
    simp [Radio.begin, Radio.spiBegin, Radio.emit, scan_profile_trace]
  · rw [apply_scan_profile_log]
    simp [scan_profile_trace]

theorem scan_coarse_log (s : State) :
    (scan_coarse s).1.log =
      (scan_radio s).log ++ probe_trace s.radio.rssi 3000 s.radio.reads kSubGHzFrequencyList := by
  unfold scan_coarse coarse_scan
  rw [(coarse_fold_log _ _).1, (scan_radio_feed s).1, (scan_radio_feed s).2]

theorem scan_coarse_feed (s : State) :
    (scan_coarse s).1.rssi = s.radio.rssi ∧ (scan_coarse s).1.reads = s.radio.reads + 57 := by
  unfold scan_coarse coarse_scan
  rw [(coarse_fold_radio _ _).1, (coarse_fold_radio _ _).2, (scan_radio_feed s).1,
    (scan_radio_feed s).2, table_length]
  exact ⟨rfl, rfl⟩

theorem scan_fine_log (s : State) :
    (scan_fine s).1.log =
      (scan_coarse s).1.log ++ [.setRxBandwidth 58] ++
        probe_trace s.radio.rssi 3000 (s.radio.reads + 57)
          (fine_freqs (scan_coarse s).2.frequency_coarse) := by
  unfold scan_fine
  rw [(fine_fold_log _ _ _).1]
  simp only [Radio.setRxBandwidth]
  rw [(scan_coarse_feed s).1, (scan_coarse_feed s).2]

/-- With fuel for 31 fine iterations every scan returns, and what it adds to
the radio trace starts with the calls of the pending reinit. -/
theorem scan_once_log_starts_with_reinit (fuel : Nat) (s : State) (t : Int) (hfuel : 31 ≤ fuel) :
    ∃ res s1 rest, cc1101_manager_scan_once fuel s t = some (res, s1) ∧
      s1.radio.log = s.radio.log ++ reinit_trace s ++ rest := by
  by_cases hready : scan_ready s
  · by_cases hq : (scan_coarse s).2.rssi_coarse ≤ t
    · refine ⟨_, _,
        scan_profile_trace ++ probe_trace s.radio.rssi 3000 s.radio.reads kSubGHzFrequencyList,
        scan_once_quiet fuel s t hready hq, ?_⟩
      show (scan_coarse s).1.log = _
      rw [scan_coarse_log, scan_radio_log]
      simp only [List.append_assoc]
    · obtain ⟨tail, htail⟩ : ∃ tail,
          (detect_modulation (scan_fine s).1
            (((scan_fine s).2.frequency_fine : ℚ) / 1000000)).2.log =
            (scan_fine s).1.log ++ tail := ⟨_, detect_modulation_log _ _⟩
      refine ⟨_, _,
        scan_profile_trace ++
          (probe_trace s.radio.rssi 3000 s.radio.reads kSubGHzFrequencyList ++
            ([.setRxBandwidth 58] ++
              (probe_trace s.radio.rssi 3000 (s.radio.reads + 57)
                (fine_freqs (scan_coarse s).2.frequency_coarse) ++ tail))),
        scan_once_detect fuel s t hfuel hready (not_le.mp hq), ?_⟩
      show (detect_modulation _ _).2.log = _
      rw [htail, scan_fine_log, scan_coarse_log, scan_radio_log]
      simp only [List.append_assoc]
  · have hflag : s.g_need_scan_reinit = true := by
      cases hb : s.g_need_scan_reinit
      · exact absurd (Or.inl hb) hready
      · rfl
    have hfail : s.radio.beginStatus s.radio.begins ≠ RADIOLIB_ERR_NONE :=
      fun hc => hready (Or.inr hc)
    refine ⟨_, _, [], scan_once_reinit_failed fuel s t hflag hfail, ?_⟩
    simp [reinit_trace, hflag, Radio.begin, Radio.spiBegin, Radio.emit]

/-! ## What a scan that goes ahead reports -/

theorem scan_coarse_max (s : State) :
    (scan_coarse s).2.rssi_coarse = max (-100) (maxReading (s.radio.upcoming 57)) := by
  rw [scan_coarse_rssi, foldl_max_eq _ _ (upcoming_ne_nil _ _ (by omega))]

/-- A scan that goes ahead reports a signal exactly when the level it tracks,
`max(-100, max(Rᵢ))`, exceeds the threshold. -/
theorem scan_once_detects_iff (fuel : Nat) (s : State) (rssi_threshold : Int)
    (hfuel : 31 ≤ fuel) (hready : scan_ready s) :
    ∃ res s1, cc1101_manager_scan_once fuel s rssi_threshold = some (res, s1) ∧
      (res.signal_detected = true ↔
        rssi_threshold < max (-100) (maxReading (s.radio.upcoming 57))) := by
  by_cases hq : (scan_coarse s).2.rssi_coarse ≤ rssi_threshold
  · refine ⟨_, _, scan_once_quiet fuel s rssi_threshold hready hq, ?_⟩
    rw [← scan_coarse_max]
    constructor
    · intro h; simp [Cc1101ScanResult.zero] at h
    · intro h; exact absurd hq (not_le.mpr h)
  · refine ⟨_, _, scan_once_detect fuel s rssi_threshold hfuel hready (not_le.mp hq), ?_⟩
    rw [← scan_coarse_max]
    exact ⟨fun _ => not_le.mp hq, fun _ => rfl⟩

/-- The frequency of a reported signal: a point of the 20 kHz grid within
300 kHz of a table entry when some fine reading exceeded -100 dBm, and 0
otherwise. -/
theorem scan_once_detected_frequency (fuel : Nat) (s : State) (rssi_threshold : Int)
    (hfuel : 31 ≤ fuel) (hready : scan_ready s)
    (hd : rssi_threshold < max (-100) (maxReading (s.radio.upcoming 57))) :
    ∃ res s1, cc1101_manager_scan_once fuel s rssi_threshold = some (res, s1) ∧
      res.signal_detected = true ∧
      ((res.detected_freq_mhz = 0 ∧ res.detected_rssi_dbm = -100) ∨
        ∃ k, k ≤ 30 ∧ (scan_coarse s).2.frequency_coarse ∈ kSubGHzFrequencyList ∧
          res.detected_freq_mhz =
            (((scan_coarse s).2.frequency_coarse - 300000 + 20000 * k : Nat) : ℚ) /
              1000000) := by
  rw [← scan_coarse_max] at hd
  refine ⟨_, _, scan_once_detect fuel s rssi_threshold hfuel hready hd, rfl, ?_⟩
  show (((scan_fine s).2.frequency_fine : ℚ) / 1000000 = 0 ∧ (scan_fine s).2.rssi_fine = -100) ∨
    ∃ k, k ≤ 30 ∧ (scan_coarse s).2.frequency_coarse ∈ kSubGHzFrequencyList ∧
      ((scan_fine s).2.frequency_fine : ℚ) / 1000000 =
        (((scan_coarse s).2.frequency_coarse - 300000 + 20000 * k : Nat) : ℚ) / 1000000
  have hinit : (scan_coarse s).2.frequency_fine = 0 ∧ (scan_coarse s).2.rssi_fine = -100 := by
    unfold scan_coarse coarse_scan
    have h := coarse_fold_fine kSubGHzFrequencyList (scan_radio s, freq_rssi_init)
    exact ⟨h.1, h.2.1⟩
  have hfc : (scan_coarse s).2.frequency_coarse ∈ kSubGHzFrequencyList ∨
      (scan_coarse s).2.frequency_coarse = 0 := by
    unfold scan_coarse coarse_scan
    rcases coarse_fold_freq kSubGHzFrequencyList (scan_radio s, freq_rssi_init) with h | h
    · exact Or.inl h
    · exact Or.inr h.1
  have hfine := fine_fold_freq (fine_freqs (scan_coarse s).2.frequency_coarse)
    ((scan_coarse s).1.setRxBandwidth 58) (scan_coarse s).2
  have hfold : fine_fold ((scan_coarse s).1.setRxBandwidth 58) (scan_coarse s).2
      (fine_freqs (scan_coarse s).2.frequency_coarse) = scan_fine s := by
    unfold scan_fine; rfl
  rw [hfold] at hfine
  rcases hfine with hmem | ⟨h1, h2⟩
  · right
    rcases hfc with htab | h0
    · have hne : (scan_coarse s).2.frequency_coarse ≠ 0 := by
        have := table_range _ htab; omega
      simp only [fine_freqs, hne, if_false] at hmem
      obtain ⟨k, hk, hx⟩ := mem_gridFrom 31 _ _ hmem
      exact ⟨k, by omega, htab, by rw [hx]⟩
    · simp [fine_freqs, h0] at hmem
  · left
    rw [h1, h2, hinit.1, hinit.2]
    simp

/-! ## Claims on `cc1101_manager_scan_once` -/

set_option maxRecDepth 100000 in
/-- C1 (the code at the failing input): with threshold -110 dBm, no reinit
pending and every reading at -120 dBm, the greatest of the 57 coarse readings
is -120, which is not above the threshold, and yet `scan_once` returns
`signal_detected = true`, with frequency 0 and the initial levels -100. -/
theorem C1_quiet_band_reported_as_signal :
    maxReading (quietState.radio.upcoming 57) = -120 ∧
    Option.map Prod.fst (cc1101_manager_scan_once 31 quietState (-110)) =
      some { signal_detected := true, detected_freq_mhz := 0, detected_rssi_dbm := -100,
             is_fsk := false, best_rssi_dbm := -100, scan_count := 1 } := by
  constructor <;> decide!

set_option maxRecDepth 100000 in
/-- C2 (counterexample): with every reading at -120 dBm and threshold
-60 dBm the greatest coarse reading is -120 but `best_rssi_dbm` is -100. -/
theorem C2_best_rssi_not_max_of_readings :
    maxReading (quietState.radio.upcoming 57) = -120 ∧
    Option.map (fun out => out.1.best_rssi_dbm)
      (cc1101_manager_scan_once 31 quietState (-60)) = some (-100) := by
  constructor <;> decide!

/-- C2 (amended): for every threshold and every sequence of readings taken at
the 57 candidate channels by a scan that goes ahead, `best_rssi_dbm` equals
`max(-100, max(Rᵢ))`; it is `max(Rᵢ)` whenever some reading is at least
-100. -/
theorem C2_best_rssi_is_floored_max (fuel : Nat) (s : State) (rssi_threshold : Int)
    (hfuel : 31 ≤ fuel) (hready : scan_ready s) :
    ∃ res s1, cc1101_manager_scan_once fuel s rssi_threshold = some (res, s1) ∧
      res.best_rssi_dbm = max (-100) (maxReading (s.radio.upcoming 57)) ∧
      (-100 ≤ maxReading (s.radio.upcoming 57) →
        res.best_rssi_dbm = maxReading (s.radio.upcoming 57)) := by
  have hmax := scan_coarse_max s
  by_cases hq : (scan_coarse s).2.rssi_coarse ≤ rssi_threshold
  · refine ⟨_, _, scan_once_quiet fuel s rssi_threshold hready hq, ?_, ?_⟩
    · exact hmax
    · intro h; exact hmax.trans (max_eq_right h)
  · refine ⟨_, _, scan_once_detect fuel s rssi_threshold hfuel hready (not_le.mp hq), ?_, ?_⟩
    · exact hmax
    · intro h; exact hmax.trans (max_eq_right h)

set_option maxRecDepth 100000 in
/-- C2 (witness): the amended statement at the 433.92 MHz transmitter. -/
theorem C2_best_rssi_is_floored_max_witness :
    31 ≤ 31 ∧ scan_ready keyfobState ∧
    ∃ res s1, cc1101_manager_scan_once 31 keyfobState (-60) = some (res, s1) ∧
      res.best_rssi_dbm = max (-100) (maxReading (keyfobState.radio.upcoming 57)) ∧
      (-100 ≤ maxReading (keyfobState.radio.upcoming 57) →
        res.best_rssi_dbm = maxReading (keyfobState.radio.upcoming 57)) :=
  ⟨by decide, by decide,
    C2_best_rssi_is_floored_max 31 keyfobState (-60) (by decide) (by decide)⟩

set_option maxRecDepth 100000 in
/-- C3 (the code at the failing input): with threshold -80 dBm, coarse
readings of -50 dBm and fine readings of -110 dBm, the coarse hit is
300 MHz and a signal is reported, but the returned frequency is 0, which is
none of the grid points `300000000 - 300000 + 20000 * k` Hz. -/
theorem C3_fading_burst_reports_zero_frequency :
    (scan_coarse fadingState).2.frequency_coarse = 300000000 ∧
    Option.map Prod.fst (cc1101_manager_scan_once 31 fadingState (-80)) =
      some { signal_detected := true, detected_freq_mhz := 0, detected_rssi_dbm := -100,
             is_fsk := false, best_rssi_dbm := -50, scan_count := 1 } ∧
    ∀ k : Nat, k ≤ 30 → (0 : ℚ) * 1000000 ≠ ((300000000 - 300000 + 20000 * k : Nat) : ℚ) := by
  refine ⟨by decide!, by decide!, ?_⟩
  intro k _ h
  rw [zero_mul] at h
  have h2 : (300000000 - 300000 + 20000 * k : Nat) = 0 := by exact_mod_cast h.symm
  omega

/-- C4: with fuel for 31 fine iterations `scan_once` returns, and whenever it
reports a signal the call ends with the two measurements of
`detect_modulation` at the returned frequency, the first under OOK and the
second under FSK, and `is_fsk` is true if and only if the FSK reading is
strictly greater than the ASK/OOK reading. -/
theorem C4_is_fsk_iff_fsk_reading_greater (fuel : Nat) (s : State) (rssi_threshold : Int)
    (hfuel : 31 ≤ fuel) :
    ∃ res s1, cc1101_manager_scan_once fuel s rssi_threshold = some (res, s1) ∧
      (res.signal_detected = true →
        ∃ (pre : List RadioCmd) (rssi_ask rssi_fsk : Int) (bandwidth deviation : ℚ),
          s1.radio.log = pre ++
            [.setOOK true, .setFrequency res.detected_freq_mhz, .setRxBandwidth bandwidth,
             .standby, .delay 2000, .receiveDirect, .delay 8000, .getRSSI rssi_ask,
             .setOOK false, .setFrequency res.detected_freq_mhz, .setRxBandwidth bandwidth,
             .setFrequencyDeviation deviation,
             .standby, .delay 2000, .receiveDirect, .delay 8000, .getRSSI rssi_fsk] ∧
          (res.is_fsk = true ↔ rssi_fsk > rssi_ask)) := by
  by_cases hready : scan_ready s
  · by_cases hq : (scan_coarse s).2.rssi_coarse ≤ rssi_threshold
    · refine ⟨_, _, scan_once_quiet fuel s rssi_threshold hready hq, ?_⟩
      intro h; simp [Cc1101ScanResult.zero] at h
    · refine ⟨_, _, scan_once_detect fuel s rssi_threshold hfuel hready (not_le.mp hq), ?_⟩
      intro _
      refine ⟨(scan_fine s).1.log, _, _, _, _, detect_modulation_log _ _, ?_⟩
      simp only [detect_modulation_fst, decide_eq_true_eq]
  · have hflag : s.g_need_scan_reinit = true := by
      cases hb : s.g_need_scan_reinit
      · exact absurd (Or.inl hb) hready
      · rfl
    have hfail : s.radio.beginStatus s.radio.begins ≠ RADIOLIB_ERR_NONE :=
      fun hc => hready (Or.inr hc)
    refine ⟨_, _, scan_once_reinit_failed fuel s rssi_threshold hflag hfail, ?_⟩
    intro h; simp [Cc1101ScanResult.zero] at h

set_option maxRecDepth 100000 in
/-- C4 (witness): at the steady OOK transmitter on 433.92 MHz a signal is
reported, so the statement is used with its premise true, and `is_fsk` is
false. -/
theorem C4_is_fsk_iff_fsk_reading_greater_witness :
    31 ≤ 31 ∧
    Option.map Prod.fst (cc1101_manager_scan_once 31 keyfobState (-60)) =
      some { signal_detected := true, detected_freq_mhz := 43392 / 100,
             detected_rssi_dbm := -45, is_fsk := false, best_rssi_dbm := -40,
             scan_count := 1 } ∧
    ∃ res s1, cc1101_manager_scan_once 31 keyfobState (-60) = some (res, s1) ∧
      (res.signal_detected = true →
        ∃ (pre : List RadioCmd) (rssi_ask rssi_fsk : Int) (bandwidth deviation : ℚ),
          s1.radio.log = pre ++
            [.setOOK true, .setFrequency res.detected_freq_mhz, .setRxBandwidth bandwidth,
             .standby, .delay 2000, .receiveDirect, .delay 8000, .getRSSI rssi_ask,
             .setOOK false, .setFrequency res.detected_freq_mhz, .setRxBandwidth bandwidth,
             .setFrequencyDeviation deviation,
             .standby, .delay 2000, .receiveDirect, .delay 8000, .getRSSI rssi_fsk] ∧
          (res.is_fsk = true ↔ rssi_fsk > rssi_ask)) :=
  ⟨by decide, by decide!,
    C4_is_fsk_iff_fsk_reading_greater 31 keyfobState (-60) (by decide)⟩

set_option maxRecDepth 100000 in
/-- C5 (counterexample): with every reading at -105 dBm and threshold
-90 dBm the greatest coarse reading, -105, is at or below the threshold, and
the result has `best_rssi_dbm = -100`, not the greatest reading. -/
theorem C5_best_rssi_not_coarse_maximum :
    maxReading (mutedState.radio.upcoming 57) = -105 ∧
    Option.map Prod.fst (cc1101_manager_scan_once 31 mutedState (-90)) =
      some { signal_detected := false, detected_freq_mhz := 0, detected_rssi_dbm := 0,
             is_fsk := false, best_rssi_dbm := -100, scan_count := 1 } := by
  constructor <;> decide!

/-- C5 (amended): let `s` be the state reached from boot by any history of
calls.  For every scan from `s` that goes ahead and whose tracked coarse
maximum `max(-100, max(Rᵢ))` is at or below the threshold, the result has
`signal_detected = false`, `detected_freq_mhz = 0`, `detected_rssi_dbm = 0`,
`is_fsk = false`, `best_rssi_dbm = max(-100, max(Rᵢ))` and `scan_count` one
more than the number of `scan_once` calls in the history; the global counter
takes that value too. -/
theorem C5_quiet_scan_result (fuel : Nat) (r : Radio) (history : List Call) (s : State)
    (rssi_threshold : Int) (hfuel : 31 ≤ fuel)
    (hhist : run_calls fuel (State.boot r) history = some s) (hready : scan_ready s)
    (hquiet : max (-100) (maxReading (s.radio.upcoming 57)) ≤ rssi_threshold) :
    ∃ s1, cc1101_manager_scan_once fuel s rssi_threshold =
        some ({ signal_detected := false, detected_freq_mhz := 0, detected_rssi_dbm := 0,
                is_fsk := false,
                best_rssi_dbm := max (-100) (maxReading (s.radio.upcoming 57)),
                scan_count := (scan_calls history : Int) + 1 }, s1) ∧
      s1.g_scan_count = (scan_calls history : Int) + 1 := by
  have hmax := scan_coarse_max s
  have hcount : s.g_scan_count = (scan_calls history : Int) := by
    rw [run_calls_count fuel hfuel history _ _ hhist]
    simp [State.boot]
  have hq : (scan_coarse s).2.rssi_coarse ≤ rssi_threshold := by rw [hmax]; exact hquiet
  refine ⟨{ radio := (scan_coarse s).1, g_scan_count := s.g_scan_count + 1,
            g_need_scan_reinit := false }, ?_, ?_⟩
  · rw [scan_once_quiet fuel s rssi_threshold hready hq, hmax, hcount]
    rfl
  · simp [hcount]

set_option maxRecDepth 100000 in
/-- C5 (witness): on a radio whose first `begin()` fails, after
`restore_scan_mode` and one `scan_once` (which fails its reinit) the next
quiet scan reports `scan_count = 2`. -/
theorem C5_quiet_scan_result_witness :
    31 ≤ 31 ∧
    run_calls 31 (State.boot flakyRadio) [.restore_scan_mode, .scan_once (-60)] =
      some flakyAfterFailedScan ∧
    scan_ready flakyAfterFailedScan ∧
    max (-100) (maxReading (flakyAfterFailedScan.radio.upcoming 57)) ≤ -60 ∧
    ∃ s1, cc1101_manager_scan_once 31 flakyAfterFailedScan (-60) =
        some ({ signal_detected := false, detected_freq_mhz := 0, detected_rssi_dbm := 0,
                is_fsk := false,
                best_rssi_dbm := max (-100) (maxReading (flakyAfterFailedScan.radio.upcoming 57)),
                scan_count :=
                  (scan_calls [Call.restore_scan_mode, Call.scan_once (-60)] : Int) + 1 }, s1) ∧
      s1.g_scan_count =
        (scan_calls [Call.restore_scan_mode, Call.scan_once (-60)] : Int) + 1 :=
  ⟨by decide, rfl, by decide, by decide!,
    C5_quiet_scan_result 31 flakyRadio [.restore_scan_mode, .scan_once (-60)]
      flakyAfterFailedScan (-60) (by decide) rfl (by decide) (by decide!)⟩

/-- C10: when the reinit flag is set and `begin()` fails, `scan_once` returns
the all-zero result; the only calls made on the radio are the SPI start and
the failing `begin()`, so no frequency is tuned and no RSSI is read; the
reinit flag is still set afterwards, and the next `scan_once` starts with the
reinit calls again. -/
theorem C10_failed_reinit_returns_zero (fuel : Nat) (s : State) (rssi_threshold : Int)
    (hflag : s.g_need_scan_reinit = true)
    (hfail : s.radio.beginStatus s.radio.begins ≠ RADIOLIB_ERR_NONE) :
    ∃ s1, cc1101_manager_scan_once fuel s rssi_threshold =
        some ({ signal_detected := false, detected_freq_mhz := 0, detected_rssi_dbm := 0,
                is_fsk := false, best_rssi_dbm := 0, scan_count := 0 }, s1) ∧
      s1.radio.log =
        s.radio.log ++ [.spiBegin, .begin (s.radio.beginStatus s.radio.begins)] ∧
      s1.radio.reads = s.radio.reads ∧
      s1.radio.profile = s.radio.profile ∧
      s1.g_need_scan_reinit = true ∧
      ∀ (fuel2 : Nat) (t2 : Int), 31 ≤ fuel2 →
        ∃ res2 s2 rest, cc1101_manager_scan_once fuel2 s1 t2 = some (res2, s2) ∧
          s2.radio.log =
            s1.radio.log ++ [.spiBegin, .begin (s1.radio.beginStatus s1.radio.begins)] ++
              rest := by
  refine ⟨_, scan_once_reinit_failed fuel s rssi_threshold hflag hfail, ?_, ?_, ?_, rfl, ?_⟩
  · simp [Radio.begin, Radio.spiBegin, Radio.emit]
  · simp [Radio.begin, Radio.spiBegin, Radio.emit]
  · simp [Radio.begin, Radio.spiBegin, Radio.emit, hfail]
  · intro fuel2 t2 hfuel2
    obtain ⟨res2, s2, rest, h, hlog⟩ := scan_once_log_starts_with_reinit fuel2
      { radio := (s.radio.spiBegin.begin).2, g_scan_count := s.g_scan_count + 1,
        g_need_scan_reinit := true } t2 hfuel2
    refine ⟨res2, s2, rest, h, ?_⟩
    rw [hlog]
    simp [reinit_trace]

/-- C10 (witness): a pending reinit on a radio whose `begin()` returns -2. -/
theorem C10_failed_reinit_returns_zero_witness :
    stuckState.g_need_scan_reinit = true ∧
    stuckState.radio.beginStatus stuckState.radio.begins ≠ RADIOLIB_ERR_NONE ∧
    ∃ s1, cc1101_manager_scan_once 31 stuckState (-60) =
        some ({ signal_detected := false, detected_freq_mhz := 0, detected_rssi_dbm := 0,
                is_fsk := false, best_rssi_dbm := 0, scan_count := 0 }, s1) ∧
      s1.radio.log =
        stuckState.radio.log ++
          [.spiBegin, .begin (stuckState.radio.beginStatus stuckState.radio.begins)] ∧
      s1.radio.reads = stuckState.radio.reads ∧
      s1.radio.profile = stuckState.radio.profile ∧
      s1.g_need_scan_reinit = true ∧
      ∀ (fuel2 : Nat) (t2 : Int), 31 ≤ fuel2 →
        ∃ res2 s2 rest, cc1101_manager_scan_once fuel2 s1 t2 = some (res2, s2) ∧
          s2.radio.log =
            s1.radio.log ++ [.spiBegin, .begin (s1.radio.beginStatus s1.radio.begins)] ++
              rest :=
  ⟨rfl, by decide, C10_failed_reinit_returns_zero 31 stuckState (-60) rfl (by decide)⟩

/-! ## Lemmas on `cc1101_manager_capture_sweep` -/

theorem apply_sweep_profile_feed (r : Radio) :
    (apply_sweep_profile r).rssi = r.rssi ∧ (apply_sweep_profile r).reads = r.reads := by
  simp [apply_sweep_profile, Radio.standby, Radio.emit, Radio.setOOK, Radio.setRxBandwidth]

theorem clamp_freq_eq (v : ℚ) : clamp_freq v 300 928 = max 300 (min v 928) := by
  unfold clamp_freq
  by_cases h1 : v < 300
  · rw [if_pos h1, min_eq_left (by linarith), max_eq_left (le_of_lt h1)]
  · rw [if_neg h1]
    by_cases h2 : v > 928
    · rw [if_pos h2, min_eq_right (le_of_lt h2), max_eq_right (by norm_num)]
    · rw [if_neg h2, min_eq_left (not_lt.mp h2), max_eq_right (not_lt.mp h1)]

theorem toInt16_of_fits (x : Int) (h : -32768 ≤ x ∧ x ≤ 32767) : toInt16 x = x := by
  unfold toInt16; omega

theorem sweep_run_header (s : State) (a b : ℚ) (n : Nat) :
    (sweep_run s a b n).2.start_freq_mhz = sweep_start a ∧
    (sweep_run s a b n).2.end_freq_mhz = sweep_end a b ∧
    (sweep_run s a b n).2.sample_count = n := by
  unfold sweep_run
  have h := sweep_fold_header (sweep_start a) (sweep_freq_step a b n)
    (apply_sweep_profile s.radio)
    { sweep_init with
      start_freq_mhz := sweep_start a, end_freq_mhz := sweep_end a b, sample_count := n } n
  exact ⟨h.2.1, h.2.2.1, h.2.2.2⟩

theorem sweep_run_samples (s : State) (a b : ℚ) (n : Nat) (hn : n ≤ 128) :
    (sweep_run s a b n).2.rssi_dbm.take n = (s.radio.upcoming n).map toInt16 := by
  unfold sweep_run
  have h := (sweep_fold_samples (sweep_start a) (sweep_freq_step a b n)
    (apply_sweep_profile s.radio)
    { sweep_init with
      start_freq_mhz := sweep_start a, end_freq_mhz := sweep_end a b, sample_count := n } n).2
    (by simp [sweep_init, Cc1101SweepResult.zero, CC1101_SWEEP_MAX_SAMPLES]; exact hn)
  rw [h]
  have hf := apply_sweep_profile_feed s.radio
  simp only [Radio.upcoming, hf.1, hf.2]

theorem sweep_run_max (s : State) (a b : ℚ) (n : Nat) :
    (sweep_run s a b n).2.max_rssi_dbm = (s.radio.upcoming n).foldl max (-120) := by
  unfold sweep_run
  rw [sweep_fold_max]
  have hf := apply_sweep_profile_feed s.radio
  simp only [Radio.upcoming, hf.1, hf.2]
  rfl

theorem sweep_run_peak (s : State) (a b : ℚ) (n : Nat) :
    ((sweep_run s a b n).2.max_rssi_dbm = -120 ∧ (sweep_run s a b n).2.max_freq_mhz = 0) ∨
    (∃ i, i < n ∧
      s.radio.rssi (s.radio.reads + i) = (sweep_run s a b n).2.max_rssi_dbm ∧
      -120 < (sweep_run s a b n).2.max_rssi_dbm ∧
      (∀ j, j < i → s.radio.rssi (s.radio.reads + j) < (sweep_run s a b n).2.max_rssi_dbm) ∧
      (sweep_run s a b n).2.max_freq_mhz =
        sweep_start a + sweep_freq_step a b n * (i : ℚ)) := by
  have h := sweep_fold_peak (sweep_start a) (sweep_freq_step a b n)
    (apply_sweep_profile s.radio)
    { sweep_init with
      start_freq_mhz := sweep_start a, end_freq_mhz := sweep_end a b, sample_count := n } n
  have hf := apply_sweep_profile_feed s.radio
  rw [hf.1, hf.2] at h
  exact h

theorem sweep_end_gt_start (a b : ℚ) : sweep_start a < sweep_end a b := by
  unfold sweep_end
  split
  · linarith
  · rename_i h; exact not_le.mp h

/-! ## Claims on `cc1101_manager_capture_sweep` -/

set_option maxRecDepth 100000 in
/-- C6 (counterexample): a sweep with `sample_count = 1` on a radio set to
58 kHz bandwidth, 5 kHz deviation and 434 MHz returns false with
`valid = false`, but leaves the radio in the scan profile: the settings
after the call are not those before the call. -/
theorem C6_rejected_sweep_changes_profile :
    (cc1101_manager_capture_sweep quietState (43305 / 100) (43479 / 100) 1
      (some Cc1101SweepResult.zero)).1 = false ∧
    Option.map (fun res => res.valid)
      (cc1101_manager_capture_sweep quietState (43305 / 100) (43479 / 100) 1
        (some Cc1101SweepResult.zero)).2.1 = some false ∧
    quietState.radio.profile =
      { ook := false, rxBandwidth := 58, deviation := 5, frequency := 434 } ∧
    (cc1101_manager_capture_sweep quietState (43305 / 100) (43479 / 100) 1
      (some Cc1101SweepResult.zero)).2.2.radio.profile =
      { ook := false, rxBandwidth := 650, deviation := 476 / 10, frequency := 43392 / 100 } ∧
    (cc1101_manager_capture_sweep quietState (43305 / 100) (43479 / 100) 1
      (some Cc1101SweepResult.zero)).2.2.radio.profile ≠ quietState.radio.profile := by
  refine ⟨by decide!, by decide!, by decide!, by decide!, by decide!⟩

/-- C6 (amended): for every `sample_count` below 2 or above 128 and every
radio state, `capture_sweep` returns false with `valid = false`, reads no
RSSI, and the only calls it makes on the radio are those of
`apply_scan_profile`: on return the radio is in the normal scan profile, so
its settings are those before the call exactly when it was in the scan
profile before the call. -/
theorem C6_rejected_sweep_applies_scan_profile (s : State) (start_freq_mhz end_freq_mhz : ℚ)
    (sample_count : Nat) (old : Cc1101SweepResult)
    (h : sample_count < 2 ∨ 128 < sample_count) :
    ∃ res s1,
      cc1101_manager_capture_sweep s start_freq_mhz end_freq_mhz sample_count (some old) =
        (false, some res, s1) ∧
      res.valid = false ∧
      s1.radio.log = s.radio.log ++
        [.standby, .setOOK false, .setRxBandwidth 650, .setFrequencyDeviation (476 / 10),
         .setFrequency (43392 / 100)] ∧
      s1.radio.reads = s.radio.reads ∧
      s1.radio.profile = scanProfile ∧
      (s1.radio.profile = s.radio.profile ↔ s.radio.profile = scanProfile) := by
  refine ⟨_, _, capture_sweep_rejected s _ _ _ old h, rfl, apply_scan_profile_log _,
    (apply_scan_profile_feed _).2.1, apply_scan_profile_profile _, ?_⟩
  show (apply_scan_profile s.radio).profile = s.radio.profile ↔ _
  rw [apply_scan_profile_profile]
  exact eq_comm

/-- C6 (witness): `sample_count = 200` on a quiet band. -/
theorem C6_rejected_sweep_applies_scan_profile_witness :
    (200 < 2 ∨ 128 < 200) ∧
    ∃ res s1,
      cc1101_manager_capture_sweep quietState (43305 / 100) (43479 / 100) 200
          (some Cc1101SweepResult.zero) = (false, some res, s1) ∧
      res.valid = false ∧
      s1.radio.log = quietState.radio.log ++
        [.standby, .setOOK false, .setRxBandwidth 650, .setFrequencyDeviation (476 / 10),
         .setFrequency (43392 / 100)] ∧
      s1.radio.reads = quietState.radio.reads ∧
      s1.radio.profile = scanProfile ∧
      (s1.radio.profile = quietState.radio.profile ↔ quietState.radio.profile = scanProfile) :=
  ⟨by decide,
    C6_rejected_sweep_applies_scan_profile quietState (43305 / 100) (43479 / 100) 200
      Cc1101SweepResult.zero (by decide)⟩

set_option maxRecDepth 100000 in
/-- C7 (counterexample): a two-point sweep whose readings are both -130 dBm
is valid and records -130, -130, but reports `max_rssi_dbm = -120`, which is
no recorded sample, and `max_freq_mhz = 0`, which is no sample frequency. -/
theorem C7_sweep_max_not_a_recorded_sample :
    Option.map (fun res => (res.valid, res.sample_count, res.rssi_dbm.take 2))
      (cc1101_manager_capture_sweep deepQuietState (43305 / 100) (43479 / 100) 2
        (some Cc1101SweepResult.zero)).2.1 = some (true, 2, [-130, -130]) ∧
    Option.map (fun res => (res.max_rssi_dbm, res.max_freq_mhz))
      (cc1101_manager_capture_sweep deepQuietState (43305 / 100) (43479 / 100) 2
        (some Cc1101SweepResult.zero)).2.1 = some (-120, 0) ∧
    Option.map (fun res => (res.start_freq_mhz, res.end_freq_mhz))
      (cc1101_manager_capture_sweep deepQuietState (43305 / 100) (43479 / 100) 2
        (some Cc1101SweepResult.zero)).2.1 = some (43305 / 100, 43479 / 100) := by
  refine ⟨by decide!, by decide!, by decide!⟩

/-- C7 (amended): for every `sample_count` n in [2, 128] and every sequence
of n readings, `capture_sweep` returns true with `valid = true` and
`sample_count = n`; sample i holds reading i converted to `int16_t`, in
order, which is the reading itself when it fits 16 bits; `max_rssi_dbm`
equals `max(-120, greatest reading)`; when some reading exceeds -120,
`max_freq_mhz` is the frequency `start + i * step` of the first sample point
i whose reading equals that maximum; when none does, `max_freq_mhz` is 0. -/
theorem C7_sweep_records_readings (s : State) (start_freq_mhz end_freq_mhz : ℚ)
    (sample_count : Nat) (old : Cc1101SweepResult)
    (hn : 2 ≤ sample_count ∧ sample_count ≤ 128) :
    ∃ res s1,
      cc1101_manager_capture_sweep s start_freq_mhz end_freq_mhz sample_count (some old) =
        (true, some res, s1) ∧
      res.valid = true ∧ res.sample_count = sample_count ∧
      res.rssi_dbm.take sample_count = (s.radio.upcoming sample_count).map toInt16 ∧
      ((∀ x ∈ s.radio.upcoming sample_count, -32768 ≤ x ∧ x ≤ 32767) →
        res.rssi_dbm.take sample_count = s.radio.upcoming sample_count) ∧
      res.max_rssi_dbm = max (-120) (maxReading (s.radio.upcoming sample_count)) ∧
      (-120 < maxReading (s.radio.upcoming sample_count) →
        ∃ i, i < sample_count ∧
          s.radio.rssi (s.radio.reads + i) = res.max_rssi_dbm ∧
          (∀ j, j < i → s.radio.rssi (s.radio.reads + j) < res.max_rssi_dbm) ∧
          res.max_freq_mhz =
            res.start_freq_mhz +
              (res.end_freq_mhz - res.start_freq_mhz) / ((sample_count - 1 : Nat) : ℚ) *
                (i : ℚ)) ∧
      (maxReading (s.radio.upcoming sample_count) ≤ -120 → res.max_freq_mhz = 0) := by
  have hne : s.radio.upcoming sample_count ≠ [] := upcoming_ne_nil _ _ (by omega)
  have hmax : (sweep_run s start_freq_mhz end_freq_mhz sample_count).2.max_rssi_dbm =
      max (-120) (maxReading (s.radio.upcoming sample_count)) := by
    rw [sweep_run_max, foldl_max_eq _ _ hne]
  have hhead := sweep_run_header s start_freq_mhz end_freq_mhz sample_count
  have hsamples := sweep_run_samples s start_freq_mhz end_freq_mhz sample_count hn.2
  have hpeak := sweep_run_peak s start_freq_mhz end_freq_mhz sample_count
  refine ⟨{ (sweep_run s start_freq_mhz end_freq_mhz sample_count).2 with valid := true },
    { s with radio :=
        apply_scan_profile (sweep_run s start_freq_mhz end_freq_mhz sample_count).1 },
    capture_sweep_accepted s _ _ _ old hn, rfl, hhead.2.2, hsamples, ?_, hmax, ?_, ?_⟩
  · intro hfit
    show (sweep_run s start_freq_mhz end_freq_mhz sample_count).2.rssi_dbm.take sample_count = _
    rw [hsamples]
    conv_rhs => rw [← List.map_id (s.radio.upcoming sample_count)]
    apply List.map_congr_left
    intro x hx
    exact toInt16_of_fits x (hfit x hx)
  · intro hgt
    show ∃ i, i < sample_count ∧
      s.radio.rssi (s.radio.reads + i) =
        (sweep_run s start_freq_mhz end_freq_mhz sample_count).2.max_rssi_dbm ∧
      (∀ j, j < i → s.radio.rssi (s.radio.reads + j) <
        (sweep_run s start_freq_mhz end_freq_mhz sample_count).2.max_rssi_dbm) ∧
      (sweep_run s start_freq_mhz end_freq_mhz sample_count).2.max_freq_mhz =
        (sweep_run s start_freq_mhz end_freq_mhz sample_count).2.start_freq_mhz +
          ((sweep_run s start_freq_mhz end_freq_mhz sample_count).2.end_freq_mhz -
            (sweep_run s start_freq_mhz end_freq_mhz sample_count).2.start_freq_mhz) /
            ((sample_count - 1 : Nat) : ℚ) * (i : ℚ)
    rw [hhead.1, hhead.2.1]
    rcases hpeak with ⟨h1, _⟩ | ⟨i, hi, h1, _, h3, h4⟩
    · rw [hmax, max_eq_right (le_of_lt hgt)] at h1
      omega
    · exact ⟨i, hi, h1, h3, h4⟩
  · intro hle
    show (sweep_run s start_freq_mhz end_freq_mhz sample_count).2.max_freq_mhz = 0
    rcases hpeak with ⟨_, h2⟩ | ⟨i, _, _, h2, _, _⟩
    · exact h2
    · rw [hmax, max_eq_left hle] at h2
      omega

set_option maxRecDepth 100000 in
/-- C7 (witness): `capture_sweep(433.05, 434.79, 96)` over a band whose
sample 50 reads -45 dBm and whose other samples read -95 dBm: the maximum is
-45 dBm at `433.05 + 50 * (434.79 - 433.05) / 95` MHz. -/
theorem C7_sweep_records_readings_witness :
    (2 ≤ 96 ∧ 96 ≤ 128) ∧
    Option.map (fun res => (res.valid, res.sample_count, res.max_rssi_dbm, res.max_freq_mhz))
      (cc1101_manager_capture_sweep peakState (43305 / 100) (43479 / 100) 96
        (some Cc1101SweepResult.zero)).2.1 =
      some (true, 96, -45, 43305 / 100 + (43479 / 100 - 43305 / 100) / 95 * 50) ∧
    ∃ res s1,
      cc1101_manager_capture_sweep peakState (43305 / 100) (43479 / 100) 96
          (some Cc1101SweepResult.zero) = (true, some res, s1) ∧
      res.valid = true ∧ res.sample_count = 96 ∧
      res.rssi_dbm.take 96 = (peakState.radio.upcoming 96).map toInt16 ∧
      ((∀ x ∈ peakState.radio.upcoming 96, -32768 ≤ x ∧ x ≤ 32767) →
        res.rssi_dbm.take 96 = peakState.radio.upcoming 96) ∧
      res.max_rssi_dbm = max (-120) (maxReading (peakState.radio.upcoming 96)) ∧
      (-120 < maxReading (peakState.radio.upcoming 96) →
        ∃ i, i < 96 ∧
          peakState.radio.rssi (peakState.radio.reads + i) = res.max_rssi_dbm ∧
          (∀ j, j < i → peakState.radio.rssi (peakState.radio.reads + j) < res.max_rssi_dbm) ∧
          res.max_freq_mhz =
            res.start_freq_mhz +
              (res.end_freq_mhz - res.start_freq_mhz) / ((96 - 1 : Nat) : ℚ) * (i : ℚ)) ∧
      (maxReading (peakState.radio.upcoming 96) ≤ -120 → res.max_freq_mhz = 0) :=
  ⟨by decide, by decide!,
    C7_sweep_records_readings peakState (43305 / 100) (43479 / 100) 96
      Cc1101SweepResult.zero (by decide)⟩

/-- C8: every accepted sweep (`sample_count` in [2, 128]) returns true with
the radio in the normal scan profile (OOK off, RX bandwidth 650 kHz,
deviation 47.6 kHz, frequency 433.92 MHz), whatever its state before: the
last calls made on the radio are exactly those of `apply_scan_profile`. -/
theorem C8_sweep_restores_scan_profile (s : State) (start_freq_mhz end_freq_mhz : ℚ)
    (sample_count : Nat) (old : Cc1101SweepResult)
    (hn : 2 ≤ sample_count ∧ sample_count ≤ 128) :
    ∃ res s1 pre,
      cc1101_manager_capture_sweep s start_freq_mhz end_freq_mhz sample_count (some old) =
        (true, some res, s1) ∧
      s1.radio.profile =
        { ook := false, rxBandwidth := 650, deviation := 476 / 10,
          frequency := 43392 / 100 } ∧
      s1.radio.log = pre ++
        [.standby, .setOOK false, .setRxBandwidth 650, .setFrequencyDeviation (476 / 10),
         .setFrequency (43392 / 100)] :=
  ⟨_, _, (sweep_run s start_freq_mhz end_freq_mhz sample_count).1.log,
    capture_sweep_accepted s _ _ _ old hn, apply_scan_profile_profile _,
    apply_scan_profile_log _⟩

/-- C8 (witness): `capture_sweep(433.05, 434.79, 96)`. -/
theorem C8_sweep_restores_scan_profile_witness :
    (2 ≤ 96 ∧ 96 ≤ 128) ∧
    ∃ res s1 pre,
      cc1101_manager_capture_sweep peakState (43305 / 100) (43479 / 100) 96
          (some Cc1101SweepResult.zero) = (true, some res, s1) ∧
      s1.radio.profile =
        { ook := false, rxBandwidth := 650, deviation := 476 / 10,
          frequency := 43392 / 100 } ∧
      s1.radio.log = pre ++
        [.standby, .setOOK false, .setRxBandwidth 650, .setFrequencyDeviation (476 / 10),
         .setFrequency (43392 / 100)] :=
  ⟨by decide,
    C8_sweep_restores_scan_profile peakState (43305 / 100) (43479 / 100) 96
      Cc1101SweepResult.zero (by decide)⟩

/-- C9: for every start, end and every `sample_count` in [2, 128] the result
has `start_freq_mhz = clamp(start, 300, 928)`, `end_freq_mhz =
clamp(end, 300, 928)` when that is strictly greater than `start_freq_mhz`
and `start_freq_mhz + 0.1` otherwise, and in all cases
`end_freq_mhz > start_freq_mhz`. -/
theorem C9_sweep_band_limits (s : State) (start_freq_mhz end_freq_mhz : ℚ)
    (sample_count : Nat) (old : Cc1101SweepResult)
    (hn : 2 ≤ sample_count ∧ sample_count ≤ 128) :
    ∃ res s1,
      cc1101_manager_capture_sweep s start_freq_mhz end_freq_mhz sample_count (some old) =
        (true, some res, s1) ∧
      res.start_freq_mhz = max 300 (min start_freq_mhz 928) ∧
      res.end_freq_mhz =
        (if max 300 (min end_freq_mhz 928) > res.start_freq_mhz then
          max 300 (min end_freq_mhz 928)
         else res.start_freq_mhz + 1 / 10) ∧
      res.end_freq_mhz > res.start_freq_mhz := by
  have hhead := sweep_run_header s start_freq_mhz end_freq_mhz sample_count
  have hstart : sweep_start start_freq_mhz = max 300 (min start_freq_mhz 928) := by
    unfold sweep_start; exact clamp_freq_eq _
  refine ⟨{ (sweep_run s start_freq_mhz end_freq_mhz sample_count).2 with valid := true },
    { s with radio :=
        apply_scan_profile (sweep_run s start_freq_mhz end_freq_mhz sample_count).1 },
    capture_sweep_accepted s _ _ _ old hn, ?_, ?_, ?_⟩
  · show (sweep_run s start_freq_mhz end_freq_mhz sample_count).2.start_freq_mhz = _
    rw [hhead.1, hstart]
  · show (sweep_run s start_freq_mhz end_freq_mhz sample_count).2.end_freq_mhz =
      if max 300 (min end_freq_mhz 928) >
          (sweep_run s start_freq_mhz end_freq_mhz sample_count).2.start_freq_mhz then
        max 300 (min end_freq_mhz 928)
      else (sweep_run s start_freq_mhz end_freq_mhz sample_count).2.start_freq_mhz + 1 / 10
    rw [hhead.1, hhead.2.1]
    unfold sweep_end
    rw [clamp_freq_eq]
    by_cases hc : max 300 (min end_freq_mhz 928) ≤ sweep_start start_freq_mhz
    · rw [if_pos hc, if_neg (not_lt.mpr hc)]
    · rw [if_neg hc, if_pos (not_le.mp hc)]
  · show (sweep_run s start_freq_mhz end_freq_mhz sample_count).2.end_freq_mhz >
      (sweep_run s start_freq_mhz end_freq_mhz sample_count).2.start_freq_mhz
    rw [hhead.1, hhead.2.1]
    exact sweep_end_gt_start _ _

set_option maxRecDepth 100000 in
/-- C9 (witness): a request from 950 MHz to 100 MHz is clamped to start
928 MHz, and the end, clamped to 300 MHz, is moved to 928.1 MHz. -/
theorem C9_sweep_band_limits_witness :
    (2 ≤ 2 ∧ 2 ≤ 128) ∧
    Option.map (fun res => (res.start_freq_mhz, res.end_freq_mhz))
      (cc1101_manager_capture_sweep quietState 950 100 2
        (some Cc1101SweepResult.zero)).2.1 = some (928, 9281 / 10) ∧
    ∃ res s1,
      cc1101_manager_capture_sweep quietState 950 100 2 (some Cc1101SweepResult.zero) =
        (true, some res, s1) ∧
      res.start_freq_mhz = max 300 (min 950 928) ∧
      res.end_freq_mhz =
        (if max 300 (min 100 928) > res.start_freq_mhz then max 300 (min 100 928)
         else res.start_freq_mhz + 1 / 10) ∧
      res.end_freq_mhz > res.start_freq_mhz :=
  ⟨by decide, by decide!,
    C9_sweep_band_limits quietState 950 100 2 Cc1101SweepResult.zero (by decide)⟩

/-! ## Claims on `cc1101_manager_restore_scan_mode` -/

theorem probe_trace_no_reinit (rssi : Nat → Int) (settle : Nat) (fs : List Nat) :
    ∀ k, ∀ c ∈ probe_trace rssi settle k fs, c.isReinit = false := by
  induction fs with
  | nil => intro k c h; simp [probe_trace] at h
  | cons f fs ih =>
    intro k c h
    simp only [probe_trace, List.cons_append, List.nil_append, List.mem_cons] at h
    rcases h with h | h | h | h | h
    · subst h; rfl
    · subst h; rfl
    · subst h; rfl
    · subst h; rfl
    · exact ih _ c h

theorem scan_profile_trace_no_reinit : ∀ c ∈ scan_profile_trace, c.isReinit = false := by
  intro c h
  simp only [scan_profile_trace, List.mem_cons, List.mem_singleton] at h
  rcases h with h | h | h | h | h | h <;> first | (subst h; rfl) | simp at h

theorem modulation_trace_no_reinit (f : ℚ) (a b : Int) :
    ∀ c ∈ modulation_trace f a b, c.isReinit = false := by
  intro c h
  simp only [modulation_trace, List.mem_cons, List.mem_singleton] at h
  rcases h with h | h | h | h | h | h | h | h | h | h | h | h | h | h | h | h | h | h <;>
    first | (subst h; rfl) | simp at h

theorem scan_tail_no_reinit (s : State) (t : Int) : ∀ c ∈ scan_tail s t, c.isReinit = false := by
  intro c h
  unfold scan_tail at h
  split at h
  · exact probe_trace_no_reinit _ _ _ _ c h
  · simp only [List.mem_append, List.mem_singleton] at h
    rcases h with h | h | h | h
    · exact probe_trace_no_reinit _ _ _ _ c h
    · subst h; rfl
    · exact probe_trace_no_reinit _ _ _ _ c h
    · exact modulation_trace_no_reinit _ _ _ c h

/-- The complete trace of a scan that goes ahead: the calls of the pending
reinit, the scan profile, then `scan_tail`; the reinit flag is clear
afterwards. -/
theorem scan_once_ready_trace (fuel : Nat) (s : State) (t : Int) (hfuel : 31 ≤ fuel)
    (hready : scan_ready s) :
    ∃ res s1, cc1101_manager_scan_once fuel s t = some (res, s1) ∧
      s1.radio.log = s.radio.log ++ reinit_trace s ++ scan_profile_trace ++ scan_tail s t ∧
      s1.g_need_scan_reinit = false := by
  by_cases hq : (scan_coarse s).2.rssi_coarse ≤ t
  · refine ⟨_, _, scan_once_quiet fuel s t hready hq, ?_, rfl⟩
    show (scan_coarse s).1.log = _
    rw [scan_coarse_log, scan_radio_log]
    simp only [scan_tail, hq, if_true]
  · refine ⟨_, _, scan_once_detect fuel s t hfuel hready (not_le.mp hq), ?_, rfl⟩
    show (detect_modulation _ _).2.log = _
    rw [detect_modulation_log, scan_fine_log, scan_coarse_log, scan_radio_log]
    simp only [scan_tail, hq, if_false, modulation_trace, List.append_assoc]

theorem restore_scan_mode_iterate (s : State) (k : Nat) (hk : 1 ≤ k) :
    (cc1101_manager_restore_scan_mode^[k]) s = { s with g_need_scan_reinit := true } := by
  induction k with
  | zero => omega
  | succ n ih =>
    rw [Function.iterate_succ_apply']
    by_cases hn : 1 ≤ n
    · rw [ih hn]; rfl
    · have h0 : n = 0 := by omega
      subst h0; rfl

/-- C11: after one or more calls of `restore_scan_mode`, the next `scan_once`
starts with the SPI start and the radio's `begin()`, before any other call on
the radio, and makes no second reinit call; when that `begin()` succeeds the
flag is clear afterwards, and a following `scan_once` with no `restore_scan_mode`
in between starts with the five calls of the scan profile and makes no reinit
call at all. -/
theorem C11_restore_forces_one_reinit (fuel : Nat) (s : State) (k : Nat)
    (rssi_threshold : Int) (hfuel : 31 ≤ fuel) (hk : 1 ≤ k) :
    ∃ res s1 rest,
      cc1101_manager_scan_once fuel ((cc1101_manager_restore_scan_mode^[k]) s) rssi_threshold =
        some (res, s1) ∧
      s1.radio.log =
        s.radio.log ++ [.spiBegin, .begin (s.radio.beginStatus s.radio.begins)] ++ rest ∧
      (∀ c ∈ rest, c.isReinit = false) ∧
      (s.radio.beginStatus s.radio.begins = RADIOLIB_ERR_NONE →
        s1.g_need_scan_reinit = false ∧
        ∀ (fuel2 : Nat) (t2 : Int), 31 ≤ fuel2 →
          ∃ res2 s2 rest2, cc1101_manager_scan_once fuel2 s1 t2 = some (res2, s2) ∧
            s2.radio.log = s1.radio.log ++
              [.standby, .setOOK false, .setRxBandwidth 650,
               .setFrequencyDeviation (476 / 10), .setFrequency (43392 / 100)] ++ rest2 ∧
            (∀ c ∈ rest2, c.isReinit = false)) := by
  rw [restore_scan_mode_iterate s k hk]
  have htrace : reinit_trace { s with g_need_scan_reinit := true } =
      [.spiBegin, .begin (s.radio.beginStatus s.radio.begins)] := by
    simp [reinit_trace]
  by_cases hst : s.radio.beginStatus s.radio.begins = RADIOLIB_ERR_NONE
  · obtain ⟨res, s1, h1, hlog, hflag⟩ := scan_once_ready_trace fuel
      { s with g_need_scan_reinit := true } rssi_threshold hfuel (Or.inr hst)
    refine ⟨res, s1,
      scan_profile_trace ++ scan_tail { s with g_need_scan_reinit := true } rssi_threshold,
      h1, ?_, ?_, ?_⟩
    · rw [hlog, htrace]; simp only [List.append_assoc]
    · intro c hc
      rcases List.mem_append.mp hc with hc | hc
      · exact scan_profile_trace_no_reinit c hc
      · exact scan_tail_no_reinit _ _ c hc
    · intro _
      refine ⟨hflag, ?_⟩
      intro fuel2 t2 hfuel2
      obtain ⟨res2, s2, h2, hlog2, _⟩ := scan_once_ready_trace fuel2 s1 t2 hfuel2 (Or.inl hflag)
      refine ⟨res2, s2, scan_tail s1 t2, h2, ?_, scan_tail_no_reinit _ _⟩
      rw [hlog2]
      simp [reinit_trace, hflag, scan_profile_trace]
  · refine ⟨_, _, [], scan_once_reinit_failed fuel { s with g_need_scan_reinit := true }
      rssi_threshold rfl hst, ?_, ?_, ?_⟩
    · simp [Radio.begin, Radio.spiBegin, Radio.emit]
    · intro c hc; simp at hc
    · intro h; exact absurd h hst

/-- C11 (witness): two calls of `restore_scan_mode` on a quiet band whose
radio restarts without error. -/
theorem C11_restore_forces_one_reinit_witness :
    31 ≤ 31 ∧ 1 ≤ 2 ∧
    ∃ res s1 rest,
      cc1101_manager_scan_once 31 ((cc1101_manager_restore_scan_mode^[2]) quietState) (-60) =
        some (res, s1) ∧
      s1.radio.log =
        quietState.radio.log ++
          [.spiBegin, .begin (quietState.radio.beginStatus quietState.radio.begins)] ++ rest ∧
      (∀ c ∈ rest, c.isReinit = false) ∧
      (quietState.radio.beginStatus quietState.radio.begins = RADIOLIB_ERR_NONE →
        s1.g_need_scan_reinit = false ∧
        ∀ (fuel2 : Nat) (t2 : Int), 31 ≤ fuel2 →
          ∃ res2 s2 rest2, cc1101_manager_scan_once fuel2 s1 t2 = some (res2, s2) ∧
            s2.radio.log = s1.radio.log ++
              [.standby, .setOOK false, .setRxBandwidth 650,
               .setFrequencyDeviation (476 / 10), .setFrequency (43392 / 100)] ++ rest2 ∧
            (∀ c ∈ rest2, c.isReinit = false)) :=
  ⟨by decide, by decide,
    C11_restore_forces_one_reinit 31 quietState 2 (-60) (by decide) (by decide)⟩

/-! ## Lemmas on the pending-data slots -/

theorem ui_run_cons (u : UiPending) (op : UiOp) (ops : List UiOp) :
    ui_run u (op :: ops) =
      ((if op.isProcess then [(ui_manager_process_pending_update u).1] else []) ++
          (ui_run (ui_apply u op) ops).1,
        (ui_run (ui_apply u op) ops).2) := by
  cases op <;> simp [ui_run, ui_apply, UiOp.isProcess]

/-- One slot, seen through its dirty flag, its stored value and its part of a
delivery: when the consumer reports and clears it and every other operation
leaves it alone, a dirty slot is delivered by the first consume only. -/
theorem slot_delivered_once {α : Type} (dirty : UiPending → Bool) (value : UiPending → α)
    (got : UiDelivery → Option α) (isPub : UiOp → Bool)
    (hproc : ∀ u, got (ui_manager_process_pending_update u).1 =
        (if dirty u then some (value u) else none) ∧
      dirty (ui_manager_process_pending_update u).2 = false ∧
      value (ui_manager_process_pending_update u).2 = value u)
    (hother : ∀ u op, isPub op = false → op.isProcess = false →
      dirty (ui_apply u op) = dirty u ∧ value (ui_apply u op) = value u)
    (ops : List UiOp) :
    ∀ u, (∀ op ∈ ops, isPub op = false) →
      (dirty u = false →
        (∀ x ∈ (ui_run u ops).1.map got, x = none) ∧ dirty (ui_run u ops).2 = false) ∧
      (dirty u = true →
        delivered_once ((ui_run u ops).1.map got) (value u) ∧
        ((ui_run u ops).1 ≠ [] → dirty (ui_run u ops).2 = false) ∧
        ((ui_run u ops).1 = [] →
          dirty (ui_run u ops).2 = true ∧ value (ui_run u ops).2 = value u)) := by
  induction ops with
  | nil =>
    intro u _
    refine ⟨fun h => ⟨by simp [ui_run], by simpa [ui_run] using h⟩, fun h => ⟨Or.inl rfl, ?_, ?_⟩⟩
    · intro hne; exact absurd rfl hne
    · intro _; exact ⟨by simpa [ui_run] using h, rfl⟩
  | cons op ops ih =>
    intro u hops
    have hrest : ∀ op2 ∈ ops, isPub op2 = false := fun op2 h => hops op2 (List.mem_cons_of_mem _ h)
    have hop : isPub op = false := hops op (List.mem_cons_self _ _)
    rw [ui_run_cons]
    cases hp : op.isProcess
    · have ho := hother u op hop hp
      have ih1 := ih (ui_apply u op) hrest
      simp only [Bool.false_eq_true, if_false, List.nil_append]
      refine ⟨fun h => ?_, fun h => ?_⟩
      · exact ih1.1 (ho.1.trans h)
      · have := ih1.2 (ho.1.trans h)
        rw [ho.2] at this
        exact this
    · have happ : ui_apply u op = (ui_manager_process_pending_update u).2 := by
        cases op <;> simp [UiOp.isProcess] at hp
        rfl
      have hpr := hproc u
      have ih1 := ih (ui_manager_process_pending_update u).2 hrest
      simp only [if_true, happ, List.singleton_append, List.map_cons]
      refine ⟨fun h => ?_, fun h => ?_⟩
      · have hclean := ih1.1 hpr.2.1
        refine ⟨?_, hclean.2⟩
        intro x hx
        rcases List.mem_cons.mp hx with hx | hx
        · rw [hx, hpr.1, h]; rfl
        · exact hclean.1 x hx
      · have hclean := ih1.1 hpr.2.1
        refine ⟨Or.inr ⟨_, ?_, hclean.1⟩, fun _ => hclean.2, fun hnil => ?_⟩
        · rw [hpr.1, h]; rfl
        · exact absurd hnil (List.cons_ne_nil _ _)

theorem process_detection_slot (u : UiPending) :
    (ui_manager_process_pending_update u).1.ui =
      (if u.ui_needs_update then
        some (u.pending_freq, u.pending_rssi, u.pending_mod.take 32, u.pending_status.take 64)
       else none) ∧
    (ui_manager_process_pending_update u).2.ui_needs_update = false ∧
    (ui_manager_process_pending_update u).2.pending_freq = u.pending_freq ∧
    (ui_manager_process_pending_update u).2.pending_rssi = u.pending_rssi ∧
    (ui_manager_process_pending_update u).2.pending_mod = u.pending_mod ∧
    (ui_manager_process_pending_update u).2.pending_status = u.pending_status := by
  unfold ui_manager_process_pending_update strncpy_local
  cases h1 : u.ui_needs_update <;> cases h2 : u.spectrum_needs_update <;>
    cases h3 : u.battery_needs_update <;> simp [h1, h2, h3]

theorem process_spectrum_slot (u : UiPending) :
    (ui_manager_process_pending_update u).1.spectrum =
      (if u.spectrum_needs_update then some u.pending_spectrum else none) ∧
    (ui_manager_process_pending_update u).2.spectrum_needs_update = false ∧
    (ui_manager_process_pending_update u).2.pending_spectrum = u.pending_spectrum := by
  unfold ui_manager_process_pending_update
  cases h1 : u.ui_needs_update <;> cases h2 : u.spectrum_needs_update <;>
    cases h3 : u.battery_needs_update <;> simp [h1, h2, h3]

theorem process_battery_slot (u : UiPending) :
    (ui_manager_process_pending_update u).1.battery =
      (if u.battery_needs_update then
        some (u.pending_battery_state, u.pending_battery_voltage) else none) ∧
    (ui_manager_process_pending_update u).2.battery_needs_update = false ∧
    (ui_manager_process_pending_update u).2.pending_battery_state = u.pending_battery_state ∧
    (ui_manager_process_pending_update u).2.pending_battery_voltage =
      u.pending_battery_voltage := by
  unfold ui_manager_process_pending_update
  cases h1 : u.ui_needs_update <;> cases h2 : u.spectrum_needs_update <;>
    cases h3 : u.battery_needs_update <;> simp [h1, h2, h3]

theorem detection_slot_once (ops : List UiOp) (u : UiPending)
    (hops : ∀ op ∈ ops, op.isQueueUpdate = false) (hdirty : u.ui_needs_update = true) :
    delivered_once ((ui_run u ops).1.map (fun d => d.ui))
      (u.pending_freq, u.pending_rssi, u.pending_mod.take 32, u.pending_status.take 64) ∧
    ((ui_run u ops).1 ≠ [] → (ui_run u ops).2.ui_needs_update = false) := by
  have h := (slot_delivered_once (fun u => u.ui_needs_update)
    (fun u => (u.pending_freq, u.pending_rssi, u.pending_mod.take 32, u.pending_status.take 64))
    (fun d => d.ui) UiOp.isQueueUpdate
    (fun u => by
      have hp := process_detection_slot u
      refine ⟨hp.1, hp.2.1, ?_⟩
      simp only [hp.2.2.1, hp.2.2.2.1, hp.2.2.2.2.1, hp.2.2.2.2.2])
    (fun u op h1 h2 => by
      cases op with
      | queue_update f r m st => simp [UiOp.isQueueUpdate] at h1
      | queue_spectrum_update sw =>
        simp only [ui_apply, ui_manager_queue_spectrum_update]
        split <;> exact ⟨rfl, rfl⟩
      | queue_battery_update b v => exact ⟨rfl, rfl⟩
      | process_pending_update => simp [UiOp.isProcess] at h2)
    ops u hops).2 hdirty
  exact ⟨h.1, h.2.1⟩

theorem spectrum_slot_once (ops : List UiOp) (u : UiPending)
    (hops : ∀ op ∈ ops, op.isQueueSpectrum = false) (hdirty : u.spectrum_needs_update = true) :
    delivered_once ((ui_run u ops).1.map (fun d => d.spectrum)) u.pending_spectrum ∧
    ((ui_run u ops).1 ≠ [] → (ui_run u ops).2.spectrum_needs_update = false) := by
  have h := (slot_delivered_once (fun u => u.spectrum_needs_update)
    (fun u => u.pending_spectrum) (fun d => d.spectrum) UiOp.isQueueSpectrum
    (fun u => process_spectrum_slot u)
    (fun u op h1 h2 => by
      cases op with
      | queue_update f r m st =>
        simp only [ui_apply, ui_manager_queue_update]
        cases m <;> cases st <;> exact ⟨rfl, rfl⟩
      | queue_spectrum_update sw => simp [UiOp.isQueueSpectrum] at h1
      | queue_battery_update b v => exact ⟨rfl, rfl⟩
      | process_pending_update => simp [UiOp.isProcess] at h2)
    ops u hops).2 hdirty
  exact ⟨h.1, h.2.1⟩

theorem battery_slot_once (ops : List UiOp) (u : UiPending)
    (hops : ∀ op ∈ ops, op.isQueueBattery = false) (hdirty : u.battery_needs_update = true) :
    delivered_once ((ui_run u ops).1.map (fun d => d.battery))
      (u.pending_battery_state, u.pending_battery_voltage) ∧
    ((ui_run u ops).1 ≠ [] → (ui_run u ops).2.battery_needs_update = false) := by
  have h := (slot_delivered_once (fun u => u.battery_needs_update)
    (fun u => (u.pending_battery_state, u.pending_battery_voltage))
    (fun d => d.battery) UiOp.isQueueBattery
    (fun u => by
      have hp := process_battery_slot u
      refine ⟨hp.1, hp.2.1, ?_⟩
      simp only [hp.2.2.1, hp.2.2.2])
    (fun u op h1 h2 => by
      cases op with
      | queue_update f r m st =>
        simp only [ui_apply, ui_manager_queue_update]
        cases m <;> cases st <;> exact ⟨rfl, rfl⟩
      | queue_spectrum_update sw =>
        simp only [ui_apply, ui_manager_queue_spectrum_update]
        split <;> exact ⟨rfl, rfl⟩
      | queue_battery_update b v => simp [UiOp.isQueueBattery] at h1
      | process_pending_update => simp [UiOp.isProcess] at h2)
    ops u hops).2 hdirty
  exact ⟨h.1, h.2.1⟩

theorem queue_update_slot (u : UiPending) (f : ℚ) (r : Int) (m st : Option (List Nat)) :
    (ui_manager_queue_update u f r m st).ui_needs_update = true ∧
    (ui_manager_queue_update u f r m st).pending_freq = f ∧
    (ui_manager_queue_update u f r m st).pending_rssi = r ∧
    (ui_manager_queue_update u f r m st).pending_mod = stored_string u.pending_mod m 32 ∧
    (ui_manager_queue_update u f r m st).pending_status = stored_string u.pending_status st 64 := by
  cases m <;> cases st <;>
    simp [ui_manager_queue_update, stored_string, strncpy_terminated]

theorem queue_spectrum_update_slot (u : UiPending) (sweep : Cc1101SweepResult)
    (h : sweep_publishable sweep) :
    (ui_manager_queue_spectrum_update u sweep).spectrum_needs_update = true ∧
    (ui_manager_queue_spectrum_update u sweep).pending_spectrum = sweep := by
  obtain ⟨h1, h2, h3⟩ := h
  have hc : ¬ (sweep.sample_count < 2) := by omega
  have hd : ¬ (sweep.sample_count > CC1101_SWEEP_MAX_SAMPLES) := by
    simp only [CC1101_SWEEP_MAX_SAMPLES]; omega
  simp [ui_manager_queue_spectrum_update, h1, hc, hd]

/-- After a detection publish the slot is delivered once, as stored. -/
theorem detection_publish_once (u : UiPending) (ops : List UiOp) :
    ∀ (f : ℚ) (r : Int) (m st : Option (List Nat)),
      (∀ op ∈ ops, op.isQueueUpdate = false) →
      delivered_once ((ui_run (ui_manager_queue_update u f r m st) ops).1.map (fun d => d.ui))
        (f, r, delivered_string u.pending_mod m 32, delivered_string u.pending_status st 64) := by
  intro f r m st hops
  have hq := queue_update_slot u f r m st
  have h := detection_slot_once ops (ui_manager_queue_update u f r m st) hops hq.1
  rw [hq.2.1, hq.2.2.1, hq.2.2.2.1, hq.2.2.2.2] at h
  exact h.1

/-! ## Claims on the pending-data slots -/

/-- C12 (counterexample): a detection publish whose modulation string has
40 bytes is delivered by the first consume with a 31-byte modulation string:
the consume does not deliver the published value. -/
theorem C12_overlong_string_delivered_cut :
    (ui_manager_process_pending_update
        (ui_manager_queue_update UiPending.initial (43392 / 100) (-50)
          (some (List.replicate 40 65)) (some [79, 75]))).1.ui =
      some (43392 / 100, -50, List.replicate 31 65, [79, 75]) ∧
    List.replicate 31 65 ≠ List.replicate 40 65 := by
  constructor <;> decide!

/-- C12 (amended): for each of the three slots, after one publish and any
further operations that do not publish to that slot, the first consume
delivers the value the publish stored and clears the dirty flag, and every
later consume delivers nothing for the slot.  The stored value is the
published one for the spectrum slot (valid sweep) and the battery slot; for
the detection slot it is the published frequency and RSSI with each string
cut to the capacity of its buffer (31 and 63 bytes), hence the published
string when it fits, a null string leaving the string the slot held. -/
theorem C12_slots_deliver_once (u : UiPending) (ops : List UiOp) :
    (∀ (f : ℚ) (r : Int) (m st : Option (List Nat)),
      (∀ op ∈ ops, op.isQueueUpdate = false) →
      delivered_once ((ui_run (ui_manager_queue_update u f r m st) ops).1.map (fun d => d.ui))
        (f, r, delivered_string u.pending_mod m 32, delivered_string u.pending_status st 64) ∧
      ((ui_run (ui_manager_queue_update u f r m st) ops).1 ≠ [] →
        (ui_run (ui_manager_queue_update u f r m st) ops).2.ui_needs_update = false)) ∧
    (∀ (old a : List Nat), a.length ≤ 31 → delivered_string old (some a) 32 = a) ∧
    (∀ (old a : List Nat), a.length ≤ 63 → delivered_string old (some a) 64 = a) ∧
    (∀ (old a : List Nat), delivered_string old (some a) 32 = a.take 31) ∧
    (∀ (old a : List Nat), delivered_string old (some a) 64 = a.take 63) ∧
    (∀ (old : List Nat) (size : Nat), delivered_string old none size = old.take size) ∧
    (∀ sweep : Cc1101SweepResult, sweep_publishable sweep →
      (∀ op ∈ ops, op.isQueueSpectrum = false) →
      delivered_once
        ((ui_run (ui_manager_queue_spectrum_update u sweep) ops).1.map (fun d => d.spectrum))
        sweep ∧
      ((ui_run (ui_manager_queue_spectrum_update u sweep) ops).1 ≠ [] →
        (ui_run (ui_manager_queue_spectrum_update u sweep) ops).2.spectrum_needs_update =
          false)) ∧
    (∀ (b : Nat) (v : ℚ), (∀ op ∈ ops, op.isQueueBattery = false) →
      delivered_once
        ((ui_run (ui_manager_queue_battery_update u b v) ops).1.map (fun d => d.battery))
        (b, v) ∧
      ((ui_run (ui_manager_queue_battery_update u b v) ops).1 ≠ [] →
        (ui_run (ui_manager_queue_battery_update u b v) ops).2.battery_needs_update = false)) := by
  refine ⟨?_, ?_, ?_, ?_, ?_, ?_, ?_, ?_⟩
  · intro f r m st hops
    have hq := queue_update_slot u f r m st
    have h := detection_slot_once ops (ui_manager_queue_update u f r m st) hops hq.1
    rw [hq.2.1, hq.2.2.1, hq.2.2.2.1, hq.2.2.2.2] at h
    exact h
  · intro old a ha
    simp [delivered_string, stored_string, List.take_take, List.take_of_length_le ha]
    omega
  · intro old a ha
    simp [delivered_string, stored_string, List.take_take, List.take_of_length_le ha]
    omega
  · intro old a
    simp [delivered_string, stored_string, List.take_take]
  · intro old a
    simp [delivered_string, stored_string, List.take_take]
  · intro old size
    simp [delivered_string, stored_string]
  · intro sweep hsw hops
    have hq := queue_spectrum_update_slot u sweep hsw
    have h := spectrum_slot_once ops (ui_manager_queue_spectrum_update u sweep) hops hq.1
    rw [hq.2] at h
    exact h
  · intro b v hops
    exact battery_slot_once ops (ui_manager_queue_battery_update u b v) hops rfl

/-- C12 (witness): one publish to each slot of the initial pending data,
followed by a publish to another slot and three consumes. -/
theorem C12_slots_deliver_once_witness :
    (delivered_once
        ((ui_run (ui_manager_queue_update UiPending.initial (43392 / 100) (-50)
            (some [70, 83, 75]) (some [79, 75]))
          [.process_pending_update, .queue_battery_update 3 4, .process_pending_update,
           .process_pending_update]).1.map (fun d => d.ui))
        (43392 / 100, -50, delivered_string [] (some [70, 83, 75]) 32,
          delivered_string [] (some [79, 75]) 64)) ∧
    (ui_run (ui_manager_queue_update UiPending.initial (43392 / 100) (-50)
        (some [70, 83, 75]) (some [79, 75]))
      [.process_pending_update, .queue_battery_update 3 4, .process_pending_update,
       .process_pending_update]).1.map (fun d => d.ui) =
      [some (43392 / 100, -50, [70, 83, 75], [79, 75]), none, none] ∧
    sweep_publishable sampleSweep ∧
    (delivered_once
        ((ui_run (ui_manager_queue_spectrum_update UiPending.initial sampleSweep)
          [.process_pending_update, .queue_battery_update 3 4, .process_pending_update,
           .process_pending_update]).1.map (fun d => d.spectrum))
        sampleSweep) ∧
    (delivered_once
        ((ui_run (ui_manager_queue_battery_update UiPending.initial 4 (41 / 10))
          [.process_pending_update, .queue_update 0 (-90) none none, .process_pending_update,
           .process_pending_update]).1.map (fun d => d.battery))
        (4, 41 / 10)) :=
  ⟨((C12_slots_deliver_once UiPending.initial
        [.process_pending_update, .queue_battery_update 3 4, .process_pending_update,
         .process_pending_update]).1 (43392 / 100) (-50) (some [70, 83, 75]) (some [79, 75])
        (by decide)).1,
    by decide!,
    by decide,
    ((C12_slots_deliver_once UiPending.initial
        [.process_pending_update, .queue_battery_update 3 4, .process_pending_update,
         .process_pending_update]).2.2.2.2.2.2.1 sampleSweep (by decide) (by decide)).1,
    ((C12_slots_deliver_once UiPending.initial
        [.process_pending_update, .queue_update 0 (-90) none none, .process_pending_update,
         .process_pending_update]).2.2.2.2.2.2.2 4 (41 / 10) (by decide)).1⟩

/-- C13 (counterexample): a detection publish with modulation `FSK` and
status `OK`, followed by a publish with null strings, is consumed as the
second frequency and RSSI together with the strings of the first publish. -/
theorem C13_null_strings_keep_first_value :
    (ui_manager_process_pending_update
        (ui_manager_queue_update
          (ui_manager_queue_update UiPending.initial (43392 / 100) (-50)
            (some [70, 83, 75]) (some [79, 75]))
          0 (-90) none none)).1.ui =
      some (0, -90, [70, 83, 75], [79, 75]) := by
  decide!

/-- C13 (amended): for each slot, after two publishes and any further
operations that do not publish to that slot, the first consume delivers the
second value and no later consume delivers anything, so one value at most is
pending.  For the spectrum slot (valid sweeps) and the battery slot that is
the second value exactly, and so are the frequency and RSSI of the detection
slot; each string delivered is the second publish's string cut to 31 or
63 bytes when that string is not null, and otherwise the string stored by
the first publish (the first string cut likewise, or the string held before
when both are null). -/
theorem C13_second_publish_overwrites (u : UiPending) (ops : List UiOp) :
    (∀ (f1 : ℚ) (r1 : Int) (m1 st1 : Option (List Nat)) (f2 : ℚ) (r2 : Int)
        (m2 st2 : Option (List Nat)),
      (∀ op ∈ ops, op.isQueueUpdate = false) →
      delivered_once
        ((ui_run (ui_manager_queue_update (ui_manager_queue_update u f1 r1 m1 st1) f2 r2 m2 st2)
          ops).1.map (fun d => d.ui))
        (f2, r2, delivered_string (stored_string u.pending_mod m1 32) m2 32,
          delivered_string (stored_string u.pending_status st1 64) st2 64)) ∧
    (∀ (old a : List Nat), delivered_string old (some a) 32 = a.take 31) ∧
    (∀ (old a : List Nat), delivered_string old (some a) 64 = a.take 63) ∧
    (∀ (old : List Nat) (size : Nat), delivered_string old none size = old.take size) ∧
    (∀ sweep1 sweep2 : Cc1101SweepResult, sweep_publishable sweep1 → sweep_publishable sweep2 →
      (∀ op ∈ ops, op.isQueueSpectrum = false) →
      delivered_once
        ((ui_run (ui_manager_queue_spectrum_update
            (ui_manager_queue_spectrum_update u sweep1) sweep2) ops).1.map (fun d => d.spectrum))
        sweep2) ∧
    (∀ (b1 : Nat) (v1 : ℚ) (b2 : Nat) (v2 : ℚ), (∀ op ∈ ops, op.isQueueBattery = false) →
      delivered_once
        ((ui_run (ui_manager_queue_battery_update (ui_manager_queue_battery_update u b1 v1)
            b2 v2) ops).1.map (fun d => d.battery))
        (b2, v2)) := by
  refine ⟨?_, ?_, ?_, ?_, ?_, ?_⟩
  · intro f1 r1 m1 st1 f2 r2 m2 st2 hops
    have h := ((detection_publish_once (ui_manager_queue_update u f1 r1 m1 st1) ops) f2 r2 m2 st2
      hops)
    have hq := queue_update_slot u f1 r1 m1 st1
    rw [hq.2.2.2.1, hq.2.2.2.2] at h
    exact h
  · intro old a
    simp [delivered_string, stored_string, List.take_take]
  · intro old a
    simp [delivered_string, stored_string, List.take_take]
  · intro old size
    simp [delivered_string, stored_string]
  · intro sweep1 sweep2 _ hsw hops
    have hq := queue_spectrum_update_slot (ui_manager_queue_spectrum_update u sweep1) sweep2 hsw
    have h := spectrum_slot_once ops _ hops hq.1
    rw [hq.2] at h
    exact h.1
  · intro b1 v1 b2 v2 hops
    exact (battery_slot_once ops
      (ui_manager_queue_battery_update (ui_manager_queue_battery_update u b1 v1) b2 v2)
      hops rfl).1

/-- C13 (witness): two detection publishes with strings that fit, two valid
sweeps and two battery values, each followed by two consumes. -/
theorem C13_second_publish_overwrites_witness :
    (delivered_once
        ((ui_run (ui_manager_queue_update
            (ui_manager_queue_update UiPending.initial (43392 / 100) (-50)
              (some [70, 83, 75]) (some [79, 75]))
            315 (-70) (some [65, 83, 75]) (some [71, 79]))
          [.process_pending_update, .process_pending_update]).1.map (fun d => d.ui))
        (315, -70, delivered_string (stored_string [] (some [70, 83, 75]) 32)
            (some [65, 83, 75]) 32,
          delivered_string (stored_string [] (some [79, 75]) 64) (some [71, 79]) 64)) ∧
    (ui_run (ui_manager_queue_update
        (ui_manager_queue_update UiPending.initial (43392 / 100) (-50)
          (some [70, 83, 75]) (some [79, 75]))
        315 (-70) (some [65, 83, 75]) (some [71, 79]))
      [.process_pending_update, .process_pending_update]).1.map (fun d => d.ui) =
      [some (315, -70, [65, 83, 75], [71, 79]), none] ∧
    sweep_publishable sampleSweep ∧
    sweep_publishable { sampleSweep with max_rssi_dbm := -40 } ∧
    (delivered_once
        ((ui_run (ui_manager_queue_spectrum_update
            (ui_manager_queue_spectrum_update UiPending.initial sampleSweep)
            { sampleSweep with max_rssi_dbm := -40 })
          [.process_pending_update, .process_pending_update]).1.map (fun d => d.spectrum))
        { sampleSweep with max_rssi_dbm := -40 }) ∧
    (delivered_once
        ((ui_run (ui_manager_queue_battery_update
            (ui_manager_queue_battery_update UiPending.initial 4 (41 / 10)) 3 (39 / 10))
          [.process_pending_update, .process_pending_update]).1.map (fun d => d.battery))
        (3, 39 / 10)) :=
  ⟨(C13_second_publish_overwrites UiPending.initial
        [.process_pending_update, .process_pending_update]).1 (43392 / 100) (-50)
        (some [70, 83, 75]) (some [79, 75]) 315 (-70) (some [65, 83, 75]) (some [71, 79])
        (by decide),
    by decide!,
    by decide,
    by decide,
    (C13_second_publish_overwrites UiPending.initial
        [.process_pending_update, .process_pending_update]).2.2.2.2.1 sampleSweep
        { sampleSweep with max_rssi_dbm := -40 } (by decide) (by decide) (by decide),
    (C13_second_publish_overwrites UiPending.initial
        [.process_pending_update, .process_pending_update]).2.2.2.2.2 4 (41 / 10) 3 (39 / 10)
        (by decide)⟩

/-! ## Lemmas on the audio queue -/

theorem enqueue_event_items (s : AudioService) (xs : List AudioEvent) (evt : AudioEvent)
    (hq : s.g_audio_queue = some { capacity := 4, items := xs }) (hlen : xs.length ≤ 4) :
    enqueue_event s evt =
      { s with
        g_audio_queue := some
          { capacity := 4, items := (xs ++ [evt]).drop ((xs ++ [evt]).length - 4) } } := by
  unfold enqueue_event
  rw [hq]
  by_cases hlt : xs.length < 4
  · have h0 : xs.length - 3 = 0 := by omega
    simp [xQueueSend, hlt, h0]
  · have h4 : xs.length = 4 := by omega
    cases xs with
    | nil => simp at h4
    | cons x t =>
      have ht : t.length = 3 := by simpa using h4
      have h1 : (x :: t ++ [evt]).length - 4 = 1 := by simp [ht]
      simp [xQueueSend, xQueueReceive, ht, h1]

theorem last_four_snoc (es : List AudioEvent) (evt : AudioEvent) :
    (es.drop (es.length - 4) ++ [evt]).drop ((es.drop (es.length - 4) ++ [evt]).length - 4) =
      (es ++ [evt]).drop ((es ++ [evt]).length - 4) := by
  by_cases h : es.length < 4
  · have h0 : es.length - 4 = 0 := by omega
    rw [h0, List.drop_zero]
  · have h1 : (es.drop (es.length - 4) ++ [evt]).length - 4 = 1 := by
      simp only [List.length_append, List.length_drop, List.length_singleton]; omega
    have h2 : (es ++ [evt]).length - 4 = es.length - 4 + 1 := by
      simp only [List.length_append, List.length_singleton]; omega
    have e1 : (es ++ [evt]).drop (es.length - 4) = es.drop (es.length - 4) ++ [evt] :=
      List.drop_append_of_le_length (by omega)
    rw [h1, h2, ← List.drop_drop, e1]

/-- The queue after any number of `enqueue_event` calls on an empty queue of
capacity 4 holds the last four events submitted. -/
theorem enqueue_events_items (s : AudioService)
    (hq : s.g_audio_queue = some { capacity := 4, items := [] }) (es : List AudioEvent) :
    es.foldl enqueue_event s =
      { s with g_audio_queue := some { capacity := 4, items := es.drop (es.length - 4) } } := by
  induction es using List.reverseRecOn with
  | nil =>
    simp only [List.foldl_nil, List.length_nil, List.drop_nil]
    cases s
    simp only at hq
    simp [hq]
  | append_singleton es evt ih =>
    rw [List.foldl_append, List.foldl_cons, List.foldl_nil, ih]
    rw [enqueue_event_items _ (es.drop (es.length - 4)) evt rfl
      (by simp only [List.length_drop]; omega), last_four_snoc]

/-! ## Claims on the audio queue -/

/-- C14: on an initialised, empty audio queue with no consumer activity,
after `enqueue_event` has been called with `e₁..eₙ` the queue holds the last
`min(n, 4)` of them in submission order: its length is `min(n, 4)`, the last
event submitted is its last item, and after five calls it holds
`e₂, e₃, e₄, e₅`. -/
theorem C14_queue_keeps_last_four (c : Codec) (es : List AudioEvent) :
    (es.foldl enqueue_event (AudioService.ready c)).g_audio_queue =
      some { capacity := 4, items := es.drop (es.length - 4) } ∧
    (es.drop (es.length - 4)).length = min es.length 4 ∧
    (es.drop (es.length - 4)).getLast? = es.getLast? ∧
    ∀ e1 e2 e3 e4 e5 : AudioEvent,
      ([e1, e2, e3, e4, e5].foldl enqueue_event (AudioService.ready c)).g_audio_queue =
        some { capacity := 4, items := [e2, e3, e4, e5] } := by
  have hq : (AudioService.ready c).g_audio_queue = some { capacity := 4, items := [] } := rfl
  refine ⟨?_, ?_, ?_, ?_⟩
  · rw [enqueue_events_items _ hq es]
  · simp only [List.length_drop]; omega
  · rw [List.getLast?_drop]
    by_cases h : es = []
    · subst h; rfl
    · have hpos : 0 < es.length := List.length_pos.mpr h
      rw [if_neg (by omega)]
  · intro e1 e2 e3 e4 e5
    rw [enqueue_events_items _ hq]
    rfl

/-- C15: for every state of an initialised audio service,
`audio_feedback_is_idle()` is true if and only if the playing flag is false
and the pending queue holds no event. -/
theorem C15_is_idle_iff (s : AudioService) (q : Queue) (hq : s.g_audio_queue = some q) :
    audio_feedback_is_idle s = true ↔ (s.g_playing = false ∧ q.items = []) := by
  unfold audio_feedback_is_idle uxQueueMessagesWaiting
  rw [hq]
  simp [List.length_eq_zero]

/-- C15 (witness): an initialised service with the shutdown cue queued and
nothing playing is not idle. -/
theorem C15_is_idle_iff_witness :
    (audio_feedback_play_shutdown (AudioService.ready Codec.good)).g_audio_queue =
      some { capacity := 4, items := [.Shutdown] } ∧
    (audio_feedback_is_idle (audio_feedback_play_shutdown (AudioService.ready Codec.good)) =
        true ↔
      ((audio_feedback_play_shutdown (AudioService.ready Codec.good)).g_playing = false ∧
        ({ capacity := 4, items := [.Shutdown] } : Queue).items = [])) :=
  ⟨rfl, C15_is_idle_iff _ _ rfl⟩

/-! ## Lemmas on the audio consumer -/

theorem play_tone_loop_step (n : Nat) (w t : Int) (c : Codec) (h : w < t) :
    play_tone_loop (n + 1) w t c =
      if c.write_ret c.writes ≠ 0 then (c.dev_write (tone_chunk w t * 2 * 2).toNat).2
      else play_tone_loop n (w + tone_chunk w t) t
        (c.dev_write (tone_chunk w t * 2 * 2).toNat).2 := by
  rw [play_tone_loop]
  simp only [h, if_true]
  rfl

theorem play_tone_loop_done (n : Nat) (w t : Int) (c : Codec) (h : ¬ w < t) :
    play_tone_loop n w t c = c := by
  cases n with
  | zero => rfl
  | succ n => rw [play_tone_loop]; simp only [h, if_false]

/-- More fuel than frames left does not change the tone loop: it ends because
all frames are written or a write fails, not because the fuel runs out. -/
theorem play_tone_loop_enough (fuel : Nat) :
    ∀ (written total_frames : Int) (c : Codec), (total_frames - written).toNat ≤ fuel →
      play_tone_loop (fuel + 1) written total_frames c =
        play_tone_loop fuel written total_frames c := by
  induction fuel with
  | zero =>
    intro w t c h
    have hle : ¬ w < t := by omega
    rw [play_tone_loop_done _ _ _ _ hle, play_tone_loop_done _ _ _ _ hle]
  | succ n ih =>
    intro w t c h
    by_cases hlt : w < t
    · rw [play_tone_loop_step _ _ _ _ hlt, play_tone_loop_step _ _ _ _ hlt]
      by_cases hwr : c.write_ret c.writes ≠ 0
      · rw [if_pos hwr, if_pos hwr]
      · rw [if_neg hwr, if_neg hwr]
        apply ih
        unfold tone_chunk
        split <;> omega
    · rw [play_tone_loop_done _ _ _ _ hlt, play_tone_loop_done _ _ _ _ hlt]

theorem play_tone_loop_log (fuel : Nat) :
    ∀ (written total_frames : Int) (c : Codec),
      ∃ added, (play_tone_loop fuel written total_frames c).log = c.log ++ added ∧
        (∀ x ∈ added, x.isWrite = true) ∧ stops_at_failed_write added := by
  induction fuel with
  | zero =>
    intro w t c
    refine ⟨[], by simp [play_tone_loop], by simp, ?_⟩
    intro pre x post h; simp at h
  | succ n ih =>
    intro w t c
    by_cases hlt : w < t
    · rw [play_tone_loop_step _ _ _ _ hlt]
      by_cases hwr : c.write_ret c.writes ≠ 0
      · rw [if_pos hwr]
        refine ⟨[.dev_write (tone_chunk w t * 2 * 2).toNat (c.write_ret c.writes)],
          by simp [Codec.dev_write], ?_, ?_⟩
        · intro x hx; simp at hx; subst hx; rfl
        · intro pre x post h _
          cases pre with
          | nil => simp at h; exact h.2
          | cons p ps => simp at h
      · rw [if_neg hwr]
        obtain ⟨added, hlog, hw, hstop⟩ := ih (w + tone_chunk w t) t
          (c.dev_write (tone_chunk w t * 2 * 2).toNat).2
        refine ⟨.dev_write (tone_chunk w t * 2 * 2).toNat (c.write_ret c.writes) :: added,
          ?_, ?_, ?_⟩
        · rw [hlog]; simp [Codec.dev_write]
        · intro x hx
          rcases List.mem_cons.mp hx with hx | hx
          · subst hx; rfl
          · exact hw x hx
        · intro pre x post h hx
          cases pre with
          | nil =>
            simp only [List.nil_append, List.cons.injEq] at h
            rw [← h.1] at hx
            simp only [AudioCmd.isFailedWrite, decide_eq_true_eq] at hx
            exact absurd hx hwr
          | cons p ps =>
            simp only [List.cons_append, List.cons.injEq] at h
            exact hstop ps x post h.2 hx
    · rw [play_tone_loop_done _ _ _ _ hlt]
      refine ⟨[], by simp, by simp, ?_⟩
      intro pre x post h; simp at h

theorem play_tone_log (s : AudioService) (f : ℚ) (d : Int) (g : ℚ) :
    (play_tone s f d g).g_playback = s.g_playback ∧
    ∃ added, (play_tone s f d g).codec.log = s.codec.log ++ added ∧
      (∀ x ∈ added, x.isWrite = true) ∧ stops_at_failed_write added := by
  unfold play_tone
  split
  · refine ⟨rfl, [], by simp, by simp, ?_⟩
    intro pre x post h; simp at h
  · exact ⟨rfl, play_tone_loop_log _ _ _ _⟩

/-- The sound of every event is a tone, a delay and a second tone; in each
tone a failed write is the last write. -/
theorem play_event_sound_log (s : AudioService) (evt : AudioEvent) :
    ∃ tone1 gap tone2,
      (play_event_sound s evt).codec.log = s.codec.log ++ tone1 ++ [.delay gap] ++ tone2 ∧
      (∀ x ∈ tone1, x.isWrite = true) ∧ stops_at_failed_write tone1 ∧
      (∀ x ∈ tone2, x.isWrite = true) ∧ stops_at_failed_write tone2 := by
  cases evt
  · obtain ⟨_, t1, h1, hw1, hs1⟩ := play_tone_log s 660 130 (42 / 100)
    obtain ⟨_, t2, h2, hw2, hs2⟩ :=
      play_tone_log (vTaskDelay (play_tone s 660 130 (42 / 100)) 20) 990 170 (40 / 100)
    refine ⟨t1, 20, t2, ?_, hw1, hs1, hw2, hs2⟩
    show (play_tone (vTaskDelay (play_tone s 660 130 (42 / 100)) 20) 990 170
      (40 / 100)).codec.log = _
    rw [h2]; simp [vTaskDelay, Codec.emit, h1]
  · obtain ⟨_, t1, h1, hw1, hs1⟩ := play_tone_log s 880 70 (38 / 100)
    obtain ⟨_, t2, h2, hw2, hs2⟩ :=
      play_tone_log (vTaskDelay (play_tone s 880 70 (38 / 100)) 10) 520 110 (40 / 100)
    refine ⟨t1, 10, t2, ?_, hw1, hs1, hw2, hs2⟩
    show (play_tone (vTaskDelay (play_tone s 880 70 (38 / 100)) 10) 520 110
      (40 / 100)).codec.log = _
    rw [h2]; simp [vTaskDelay, Codec.emit, h1]
  · obtain ⟨_, t1, h1, hw1, hs1⟩ := play_tone_log s 1400 45 (32 / 100)
    obtain ⟨_, t2, h2, hw2, hs2⟩ :=
      play_tone_log (vTaskDelay (play_tone s 1400 45 (32 / 100)) 8) 1700 45 (30 / 100)
    refine ⟨t1, 8, t2, ?_, hw1, hs1, hw2, hs2⟩
    show (play_tone (vTaskDelay (play_tone s 1400 45 (32 / 100)) 8) 1700 45
      (30 / 100)).codec.log = _
    rw [h2]; simp [vTaskDelay, Codec.emit, h1]

theorem arm_step_of_armed (s : LoopState) (i : TickInput) (h : s.power_events_armed = true) :
    arm_step s i = s := by
  simp [arm_step, h]

theorem arm_step_frame (s : LoopState) (i : TickInput) :
    (arm_step s i).ignore_power_events_until_ms = s.ignore_power_events_until_ms ∧
    (arm_step s i).power_off_allowed_after_ms = s.power_off_allowed_after_ms ∧
    (arm_step s i).power_btn_pressed = s.power_btn_pressed ∧
    (arm_step s i).power_btn_pressed_since_ms = s.power_btn_pressed_since_ms ∧
    (arm_step s i).power_cut_pending = s.power_cut_pending ∧
    (arm_step s i).power_cut_earliest_ms = s.power_cut_earliest_ms ∧
    (arm_step s i).power_cut_deadline_ms = s.power_cut_deadline_ms ∧
    (arm_step s i).log = s.log ∧ (arm_step s i).halted = s.halted ∧
    (arm_step s i).screen_locked = s.screen_locked ∧
    (arm_step s i).boot_btn_pressed = s.boot_btn_pressed := by
  unfold arm_step
  split <;> simp

/-- What the arming block does when the sequencer is not armed yet. -/
theorem arm_step_arming (s : LoopState) (i : TickInput) (h : s.power_events_armed = false) :
    ((arm_step s i).power_events_armed = true ↔
      (i.app_scanning = true ∧ s.ignore_power_events_until_ms ≤ i.millis_check)) ∧
    ((arm_step s i).power_events_armed = true →
      (arm_step s i).power_seen_released_since_arm = false ∧
      (arm_step s i).power_idle_stable = false ∧
      (arm_step s i).power_idle_since_ms = i.millis_stamp) ∧
    ((arm_step s i).power_events_armed = false → arm_step s i = s) := by
  unfold arm_step
  by_cases hc : i.app_scanning = true ∧ s.ignore_power_events_until_ms ≤ i.millis_check
  · simp [h, hc.1, hc.2]
  · have hcond : (!s.power_events_armed && i.app_scanning &&
        decide (i.millis_check ≥ s.ignore_power_events_until_ms)) = false := by
      simp only [h, Bool.not_false, Bool.true_and, Bool.and_eq_false_iff, decide_eq_false_iff_not]
      by_cases h1 : i.app_scanning = true
      · right; intro h2; exact hc ⟨h1, h2⟩
      · left; simpa using h1
    simp [hcond, h, hc]

theorem idle_step_frame (s : LoopState) (i : TickInput) :
    (idle_step s i).ignore_power_events_until_ms = s.ignore_power_events_until_ms ∧
    (idle_step s i).power_off_allowed_after_ms = s.power_off_allowed_after_ms ∧
    (idle_step s i).power_btn_pressed = s.power_btn_pressed ∧
    (idle_step s i).power_btn_pressed_since_ms = s.power_btn_pressed_since_ms ∧
    (idle_step s i).power_cut_pending = s.power_cut_pending ∧
    (idle_step s i).power_cut_earliest_ms = s.power_cut_earliest_ms ∧
    (idle_step s i).power_cut_deadline_ms = s.power_cut_deadline_ms ∧
    (idle_step s i).log = s.log ∧ (idle_step s i).halted = s.halted ∧
    (idle_step s i).screen_locked = s.screen_locked ∧
    (idle_step s i).boot_btn_pressed = s.boot_btn_pressed ∧
    (idle_step s i).power_events_armed = s.power_events_armed := by
  unfold idle_step
  split
  · simp only []
    split
    · split <;> simp
    · simp
  · simp

theorem idle_step_pressed (s : LoopState) (i : TickInput) (h : i.sys_out_low = true) :
    (idle_step s i).power_idle_since_ms = i.now_ms ∧
    (idle_step s i).power_idle_stable = s.power_idle_stable ∧
    (idle_step s i).power_seen_released_since_arm = s.power_seen_released_since_arm := by
  simp [idle_step, h]

theorem idle_step_released (s : LoopState) (i : TickInput) (h : i.sys_out_low = false) :
    (idle_step s i).power_idle_since_ms = s.power_idle_since_ms ∧
    (idle_step s i).power_seen_released_since_arm = true ∧
    ((idle_step s i).power_idle_stable = true ↔
      (s.power_idle_stable = true ∨
        POWER_IDLE_STABLE_MS ≤ sub32 i.now_ms s.power_idle_since_ms)) := by
  unfold idle_step
  cases hst : s.power_idle_stable
  · by_cases hc : sub32 i.now_ms s.power_idle_since_ms ≥ POWER_IDLE_STABLE_MS
    · simp [h, hst, hc]
    · simp [h, hst, hc]
  · simp [h, hst]

theorem hold_step_frame (s : LoopState) (i : TickInput) :
    (hold_step s i).ignore_power_events_until_ms = s.ignore_power_events_until_ms ∧
    (hold_step s i).power_off_allowed_after_ms = s.power_off_allowed_after_ms ∧
    (hold_step s i).power_btn_pressed = s.power_btn_pressed ∧
    (hold_step s i).power_btn_pressed_since_ms = i.now_ms ∧
    (hold_step s i).power_events_armed = s.power_events_armed ∧
    (hold_step s i).power_seen_released_since_arm = s.power_seen_released_since_arm ∧
    (hold_step s i).power_idle_stable = s.power_idle_stable ∧
    (hold_step s i).power_idle_since_ms = s.power_idle_since_ms ∧
    (hold_step s i).halted = s.halted ∧
    (hold_step s i).screen_locked = s.screen_locked ∧
    (hold_step s i).boot_btn_pressed = s.boot_btn_pressed := by
  unfold hold_step power_manager_off_request LoopState.emit
  split
  · simp
  · split <;> simp

/-- Whether the hold threshold leads to a shutdown request: USB absent and
the reset guard not blocking. -/
theorem hold_step_request (s : LoopState) (i : TickInput) :
    (i.usb = true ∨
        (s.power_off_allowed_after_ms ≠ 0 ∧ i.now_ms < s.power_off_allowed_after_ms) →
      (hold_step s i).power_cut_pending = s.power_cut_pending ∧
      (hold_step s i).power_cut_earliest_ms = s.power_cut_earliest_ms ∧
      (hold_step s i).power_cut_deadline_ms = s.power_cut_deadline_ms ∧
      (hold_step s i).log = s.log) ∧
    (i.usb = false →
      ¬ (s.power_off_allowed_after_ms ≠ 0 ∧ i.now_ms < s.power_off_allowed_after_ms) →
      (hold_step s i).power_cut_pending = true ∧
      (hold_step s i).power_cut_earliest_ms = add32 i.now_ms POWER_CUT_EARLIEST_MS ∧
      (hold_step s i).power_cut_deadline_ms = add32 i.now_ms POWER_CUT_DEADLINE_MS ∧
      (hold_step s i).log = s.log ++ [.off_request, .set_upduty true, .play_shutdown]) := by
  unfold hold_step power_manager_off_request LoopState.emit
  constructor
  · intro h
    rcases h with h | h
    · simp [h]
    · cases hu : i.usb
      · simp [h.1, h.2]
      · simp
  · intro hu hg
    have hg2 : ¬ (¬ s.power_off_allowed_after_ms = 0 ∧
        i.now_ms < s.power_off_allowed_after_ms) := hg
    simp [hu, hg2]

theorem press_step_frame (s : LoopState) (i : TickInput) :
    (press_step s i).ignore_power_events_until_ms = s.ignore_power_events_until_ms ∧
    (press_step s i).power_off_allowed_after_ms = s.power_off_allowed_after_ms ∧
    (press_step s i).power_events_armed = s.power_events_armed ∧
    (press_step s i).power_seen_released_since_arm = s.power_seen_released_since_arm ∧
    (press_step s i).power_idle_stable = s.power_idle_stable ∧
    (press_step s i).power_idle_since_ms = s.power_idle_since_ms ∧
    (press_step s i).halted = s.halted ∧
    (press_step s i).screen_locked = s.screen_locked ∧
    (press_step s i).boot_btn_pressed = s.boot_btn_pressed := by
  have hh := hold_step_frame s i
  unfold press_step
  split
  · split
    · simp
    · split
      · exact ⟨hh.1, hh.2.1, hh.2.2.2.2.1, hh.2.2.2.2.2.1, hh.2.2.2.2.2.2.1,
          hh.2.2.2.2.2.2.2.1, hh.2.2.2.2.2.2.2.2.1, hh.2.2.2.2.2.2.2.2.2.1,
          hh.2.2.2.2.2.2.2.2.2.2⟩
      · simp
  · split <;> simp

theorem press_step_outside (s : LoopState) (i : TickInput) (h : press_window s i = false) :
    press_step s i = if s.power_btn_pressed then { s with power_btn_pressed := false } else s := by
  unfold press_window at h
  unfold press_step
  rw [if_neg (by simp [h])]

theorem press_step_accept (s : LoopState) (i : TickInput) (h : press_window s i = true)
    (hb : s.power_btn_pressed = false) :
    press_step s i =
      { s with power_btn_pressed := true, power_btn_pressed_since_ms := i.now_ms } := by
  unfold press_window at h
  unfold press_step
  rw [if_pos h]
  simp [hb]

theorem press_step_hold (s : LoopState) (i : TickInput) (h : press_window s i = true)
    (hb : s.power_btn_pressed = true)
    (hh : POWER_HOLD_MS ≤ sub32 i.now_ms s.power_btn_pressed_since_ms) :
    press_step s i = hold_step s i := by
  unfold press_window at h
  unfold press_step
  rw [if_pos h]
  simp [hb, hh]

theorem press_step_wait (s : LoopState) (i : TickInput) (h : press_window s i = true)
    (hb : s.power_btn_pressed = true)
    (hh : ¬ POWER_HOLD_MS ≤ sub32 i.now_ms s.power_btn_pressed_since_ms) :
    press_step s i = s := by
  unfold press_window at h
  unfold press_step
  rw [if_pos h]
  simp [hb, hh]

theorem boot_step_frame (s : LoopState) (i : TickInput) :
    (boot_step s i).power = s.power ∧ (boot_step s i).halted = s.halted ∧
    ∃ added, (boot_step s i).log = s.log ++ added ∧
      ∀ e ∈ added, e = .delay BOOT_DEBOUNCE_MS ∨ ∃ b, e = .set_upduty b := by
  unfold boot_step
  split
  · simp only [set_screen_locked, LoopState.emit]
    split
    · refine ⟨rfl, rfl, [.delay BOOT_DEBOUNCE_MS], rfl, ?_⟩
      intro e he; simp at he; exact Or.inl he
    · refine ⟨rfl, rfl, [.delay BOOT_DEBOUNCE_MS, .set_upduty (!s.screen_locked)], by simp, ?_⟩
      intro e he
      simp only [List.mem_cons, List.mem_singleton, List.not_mem_nil, or_false] at he
      rcases he with he | he
      · exact Or.inl he
      · exact Or.inr ⟨_, he⟩
  · split
    · exact ⟨rfl, rfl, [], by simp, by simp⟩
    · exact ⟨rfl, rfl, [], by simp, by simp⟩

/-- One pass, seen through its phases. -/
theorem loop_tick_eq (s : LoopState) (i : TickInput) (hh : s.halted = false) :
    loop_tick s i =
      if reads_button s i then
        if cut_due (press_step (before_press s i) i) i then
          { (press_step (before_press s i) i).emit .commit_power_off with halted := true }
        else
          (boot_step (press_step (before_press s i) i) i).emit (.delay LOOP_DELAY_MS)
      else
        (arm_step (s.emit .process_ui) i).emit (.delay LOOP_DELAY_MS) := by
  unfold loop_tick reads_button before_press
  simp [hh]

/-- The power sequencer fields after a pass are those of `power_core`. -/
theorem loop_tick_power (s : LoopState) (i : TickInput) :
    (loop_tick s i).power = (power_core s i).power := by
  unfold power_core
  cases hh : s.halted
  · rw [loop_tick_eq s i hh]
    simp only [Bool.false_eq_true, if_false]
    cases hr : reads_button s i
    · simp only [Bool.false_eq_true, if_false]
      rfl
    · simp only [if_true]
      cases hc : cut_due (press_step (before_press s i) i) i
      · simp only [Bool.false_eq_true, if_false]
        have hb := (boot_step_frame (press_step (before_press s i) i) i).1
        rw [← hb]
        rfl
      · simp only [if_true]
        rfl
  · simp [loop_tick, hh]

theorem power_fields {s t : LoopState} (h : s.power = t.power) :
    s.ignore_power_events_until_ms = t.ignore_power_events_until_ms ∧
    s.power_events_armed = t.power_events_armed ∧
    s.power_off_allowed_after_ms = t.power_off_allowed_after_ms ∧
    s.power_btn_pressed = t.power_btn_pressed ∧
    s.power_btn_pressed_since_ms = t.power_btn_pressed_since_ms ∧
    s.power_seen_released_since_arm = t.power_seen_released_since_arm ∧
    s.power_idle_stable = t.power_idle_stable ∧
    s.power_idle_since_ms = t.power_idle_since_ms ∧
    s.power_cut_pending = t.power_cut_pending ∧
    s.power_cut_earliest_ms = t.power_cut_earliest_ms ∧
    s.power_cut_deadline_ms = t.power_cut_deadline_ms := by
  simp only [LoopState.power, PowerFields.mk.injEq] at h
  exact h

theorem loop_tick_halted (s : LoopState) (i : TickInput) (h : s.halted = true) :
    loop_tick s i = s := by
  simp [loop_tick, h]

theorem reads_button_not_halted {s : LoopState} {i : TickInput}
    (h : reads_button s i = true) : s.halted = false := by
  unfold reads_button at h
  cases hh : s.halted
  · rfl
  · simp [hh] at h

theorem reads_button_of_armed {s : LoopState} {i : TickInput} (hh : s.halted = false)
    (ha : s.power_events_armed = true) : reads_button s i = true := by
  unfold reads_button
  have e : arm_step (s.emit .process_ui) i = s.emit .process_ui :=
    arm_step_of_armed _ i ha
  rw [e]
  simp [hh, LoopState.emit, ha]

/-- A pass that does not read the button leaves the sequencer as it was. -/
theorem loop_tick_unread (s : LoopState) (i : TickInput) (hh : s.halted = false)
    (hr : reads_button s i = false) :
    (loop_tick s i).power = s.power ∧ s.power_events_armed = false ∧
    (loop_tick s i).halted = false ∧
    (loop_tick s i).log = s.log ++ [.process_ui, .delay LOOP_DELAY_MS] := by
  have ha : s.power_events_armed = false := by
    cases h : s.power_events_armed
    · rfl
    · rw [reads_button_of_armed hh h] at hr
      exact absurd hr (by simp)
  have hr2 : (arm_step (s.emit .process_ui) i).power_events_armed = false := by
    unfold reads_button at hr
    simpa [hh] using hr
  have e : arm_step (s.emit .process_ui) i = s.emit .process_ui :=
    (arm_step_arming (s.emit .process_ui) i ha).2.2 hr2
  rw [loop_tick_eq s i hh, hr]
  simp only [Bool.false_eq_true, if_false, e]
  refine ⟨rfl, ha, hh, ?_⟩
  simp [LoopState.emit]

/-- A pass that reads the button leaves the sequencer as the long-press
tracking left it. -/
theorem loop_tick_read (s : LoopState) (i : TickInput) (hr : reads_button s i = true) :
    (loop_tick s i).power = (press_step (before_press s i) i).power := by
  rw [loop_tick_power]
  unfold power_core
  rw [reads_button_not_halted hr, hr]
  simp

theorem before_press_frame (s : LoopState) (i : TickInput) :
    (before_press s i).ignore_power_events_until_ms = s.ignore_power_events_until_ms ∧
    (before_press s i).power_off_allowed_after_ms = s.power_off_allowed_after_ms ∧
    (before_press s i).power_btn_pressed = s.power_btn_pressed ∧
    (before_press s i).power_btn_pressed_since_ms = s.power_btn_pressed_since_ms ∧
    (before_press s i).power_cut_pending = s.power_cut_pending ∧
    (before_press s i).power_cut_earliest_ms = s.power_cut_earliest_ms ∧
    (before_press s i).power_cut_deadline_ms = s.power_cut_deadline_ms ∧
    (before_press s i).log = s.log ++ [.process_ui] ∧
    (before_press s i).halted = s.halted := by
  have h1 := idle_step_frame (arm_step (s.emit .process_ui) i) i
  have h2 := arm_step_frame (s.emit .process_ui) i
  unfold before_press
  refine ⟨h1.1.trans h2.1, h1.2.1.trans h2.2.1, h1.2.2.1.trans h2.2.2.1,
    h1.2.2.2.1.trans h2.2.2.2.1, h1.2.2.2.2.1.trans h2.2.2.2.2.1,
    h1.2.2.2.2.2.1.trans h2.2.2.2.2.2.1, h1.2.2.2.2.2.2.1.trans h2.2.2.2.2.2.2.1,
    h1.2.2.2.2.2.2.2.1.trans h2.2.2.2.2.2.2.2.1,
    h1.2.2.2.2.2.2.2.2.1.trans h2.2.2.2.2.2.2.2.2.1⟩

theorem hold_reached_iff (s : LoopState) (i : TickInput) :
    hold_reached s i = true ↔
      reads_button s i = true ∧ press_window (before_press s i) i = true ∧
      (before_press s i).power_btn_pressed = true ∧
      POWER_HOLD_MS ≤ sub32 i.now_ms (before_press s i).power_btn_pressed_since_ms := by
  unfold hold_reached press_window
  simp only [Bool.and_eq_true, decide_eq_true_eq, ge_iff_le, and_assoc]

/-- What the long-press tracking does to the shutdown request: it is made
exactly when the hold threshold is reached with USB absent and the reset
guard not blocking; otherwise the request state and the trace are kept. -/
theorem press_step_request (s : LoopState) (i : TickInput) :
    (press_window s i = true ∧ s.power_btn_pressed = true ∧
        POWER_HOLD_MS ≤ sub32 i.now_ms s.power_btn_pressed_since_ms ∧ i.usb = false ∧
        ¬ (s.power_off_allowed_after_ms ≠ 0 ∧ i.now_ms < s.power_off_allowed_after_ms) →
      (press_step s i).power_cut_pending = true ∧
      (press_step s i).power_cut_earliest_ms = add32 i.now_ms POWER_CUT_EARLIEST_MS ∧
      (press_step s i).power_cut_deadline_ms = add32 i.now_ms POWER_CUT_DEADLINE_MS ∧
      (press_step s i).log = s.log ++ [.off_request, .set_upduty true, .play_shutdown]) ∧
    (¬ (press_window s i = true ∧ s.power_btn_pressed = true ∧
        POWER_HOLD_MS ≤ sub32 i.now_ms s.power_btn_pressed_since_ms ∧ i.usb = false ∧
        ¬ (s.power_off_allowed_after_ms ≠ 0 ∧ i.now_ms < s.power_off_allowed_after_ms)) →
      (press_step s i).power_cut_pending = s.power_cut_pending ∧
      (press_step s i).power_cut_earliest_ms = s.power_cut_earliest_ms ∧
      (press_step s i).power_cut_deadline_ms = s.power_cut_deadline_ms ∧
      (press_step s i).log = s.log) := by
  constructor
  · rintro ⟨hw, hb, hh, hu, hg⟩
    rw [press_step_hold s i hw hb hh]
    exact (hold_step_request s i).2 hu hg
  · intro hn
    cases hw : press_window s i
    · rw [press_step_outside s i hw]
      split <;> simp
    · cases hb : s.power_btn_pressed
      · rw [press_step_accept s i hw hb]
        simp
      · by_cases hh : POWER_HOLD_MS ≤ sub32 i.now_ms s.power_btn_pressed_since_ms
        · rw [press_step_hold s i hw hb hh]
          apply (hold_step_request s i).1
          cases hu : i.usb
          · right
            by_contra hg
            exact hn ⟨hw, hb, hh, hu, hg⟩
          · left; rfl
        · rw [press_step_wait s i hw hb hh]
          simp

/-- A pass requests the shutdown exactly when it finds the hold threshold
reached with USB absent and the reset guard not blocking. -/
theorem requests_shutdown_iff (s : LoopState) (i : TickInput) :
    requests_shutdown s i ↔
      (hold_reached s i = true ∧ i.usb = false ∧
        ¬ (s.power_off_allowed_after_ms ≠ 0 ∧ i.now_ms < s.power_off_allowed_after_ms)) := by
  have hb := before_press_frame s i
  have hp := press_step_request (before_press s i) i
  rw [hb.2.1] at hp
  unfold requests_shutdown
  constructor
  · rintro ⟨h0, h1⟩
    cases hh : s.halted
    · cases hr : reads_button s i
      · have := (power_fields (loop_tick_unread s i hh hr).1).2.2.2.2.2.2.2.2.1
        rw [this, h0] at h1
        exact absurd h1 (by simp)
      · have e := (power_fields (loop_tick_read s i hr)).2.2.2.2.2.2.2.2.1
        rw [e] at h1
        by_contra hn
        have hk := hp.2 (by
          intro hc
          exact hn ⟨(hold_reached_iff s i).2 ⟨hr, hc.1, hc.2.1, hc.2.2.1⟩, hc.2.2.2.1,
            hc.2.2.2.2⟩)
        rw [hk.1, hb.2.2.2.2.1, h0] at h1
        exact absurd h1 (by simp)
    · rw [loop_tick_halted s i hh, h0] at h1
      exact absurd h1 (by simp)
  · rintro ⟨hh, hu, hg⟩
    have hr := (hold_reached_iff s i).1 hh
    have e := (power_fields (loop_tick_read s i hr.1)).2.2.2.2.2.2.2.2.1
    have hk := hp.1 ⟨hr.2.1, hr.2.2.1, hr.2.2.2, hu, hg⟩
    refine ⟨?_, by rw [e]; exact hk.1⟩
    have hw := hr.2.1
    unfold press_window at hw
    simp only [Bool.and_eq_true, Bool.not_eq_true', hb.2.2.2.2.1] at hw
    exact hw.2

/-- The trace of a pass that does not request the shutdown holds neither the
off request nor the shutdown cue. -/
theorem loop_tick_quiet_log (s : LoopState) (i : TickInput)
    (hn : ¬ (hold_reached s i = true ∧ i.usb = false ∧
        ¬ (s.power_off_allowed_after_ms ≠ 0 ∧ i.now_ms < s.power_off_allowed_after_ms))) :
    (loop_tick s i).power_cut_pending = s.power_cut_pending ∧
    (loop_tick s i).power_cut_earliest_ms = s.power_cut_earliest_ms ∧
    (loop_tick s i).power_cut_deadline_ms = s.power_cut_deadline_ms ∧
    ∃ added, (loop_tick s i).log = s.log ++ added ∧
      LoopEvent.off_request ∉ added ∧ LoopEvent.play_shutdown ∉ added := by
  have hb := before_press_frame s i
  have hp := press_step_request (before_press s i) i
  rw [hb.2.1] at hp
  cases hh : s.halted
  · cases hr : reads_button s i
    · have h := loop_tick_unread s i hh hr
      have f := power_fields h.1
      exact ⟨f.2.2.2.2.2.2.2.2.1, f.2.2.2.2.2.2.2.2.2.1, f.2.2.2.2.2.2.2.2.2.2,
        _, h.2.2.2, by simp, by simp⟩
    · have f := power_fields (loop_tick_read s i hr)
      have hk := hp.2 (by
        intro hc
        exact hn ⟨(hold_reached_iff s i).2 ⟨hr, hc.1, hc.2.1, hc.2.2.1⟩, hc.2.2.2.1,
          hc.2.2.2.2⟩)
      refine ⟨by rw [f.2.2.2.2.2.2.2.2.1, hk.1, hb.2.2.2.2.1],
        by rw [f.2.2.2.2.2.2.2.2.2.1, hk.2.1, hb.2.2.2.2.2.1],
        by rw [f.2.2.2.2.2.2.2.2.2.2, hk.2.2.1, hb.2.2.2.2.2.2.1], ?_⟩
      rw [loop_tick_eq s i hh, hr]
      simp only [if_true]
      split
      · refine ⟨[.process_ui, .commit_power_off], ?_, by simp, by simp⟩
        simp [LoopState.emit, hk.2.2.2, hb.2.2.2.2.2.2.2.1]
      · obtain ⟨_, _, added, hlog, hadd⟩ := boot_step_frame (press_step (before_press s i) i) i
        refine ⟨[.process_ui] ++ added ++ [.delay LOOP_DELAY_MS], ?_, ?_, ?_⟩
        · simp [LoopState.emit, hlog, hk.2.2.2, hb.2.2.2.2.2.2.2.1]
        · intro hmem
          simp only [List.mem_append, List.mem_singleton, List.mem_cons, List.not_mem_nil,
            or_false] at hmem
          rcases hmem with (hmem | hmem) | hmem
          · exact absurd hmem (by simp)
          · rcases hadd _ hmem with h1 | ⟨b, h1⟩
            · exact absurd h1 (by simp)
            · exact absurd h1 (by simp)
          · exact absurd hmem (by simp)
        · intro hmem
          simp only [List.mem_append, List.mem_singleton, List.mem_cons, List.not_mem_nil,
            or_false] at hmem
          rcases hmem with (hmem | hmem) | hmem
          · exact absurd hmem (by simp)
          · rcases hadd _ hmem with h1 | ⟨b, h1⟩
            · exact absurd h1 (by simp)
            · exact absurd h1 (by simp)
          · exact absurd hmem (by simp)
  · rw [loop_tick_halted s i hh]
    exact ⟨rfl, rfl, rfl, [], by simp, by simp, by simp⟩

theorem loop_tick_consts (s : LoopState) (i : TickInput) :
    (loop_tick s i).ignore_power_events_until_ms = s.ignore_power_events_until_ms ∧
    (loop_tick s i).power_off_allowed_after_ms = s.power_off_allowed_after_ms := by
  cases hh : s.halted
  · cases hr : reads_button s i
    · have f := power_fields (loop_tick_unread s i hh hr).1
      exact ⟨f.1, f.2.2.1⟩
    · have f := power_fields (loop_tick_read s i hr)
      have h1 := press_step_frame (before_press s i) i
      have h2 := before_press_frame s i
      exact ⟨f.1.trans (h1.1.trans h2.1), f.2.2.1.trans (h1.2.1.trans h2.2.1)⟩
  · rw [loop_tick_halted s i hh]
    exact ⟨rfl, rfl⟩

theorem run_ticks_nil (s : LoopState) : run_ticks s [] = s := rfl

theorem run_ticks_cons (s : LoopState) (i : TickInput) (l : List TickInput) :
    run_ticks s (i :: l) = run_ticks (loop_tick s i) l := rfl

theorem run_ticks_snoc (s : LoopState) (l : List TickInput) (i : TickInput) :
    run_ticks s (l ++ [i]) = loop_tick (run_ticks s l) i := by
  simp [run_ticks, List.foldl_append]

theorem run_ticks_consts (l : List TickInput) :
    ∀ s : LoopState,
      (run_ticks s l).ignore_power_events_until_ms = s.ignore_power_events_until_ms ∧
      (run_ticks s l).power_off_allowed_after_ms = s.power_off_allowed_after_ms := by
  induction l with
  | nil => intro s; exact ⟨rfl, rfl⟩
  | cons i l ih =>
    intro s
    rw [run_ticks_cons]
    have h1 := ih (loop_tick s i)
    have h2 := loop_tick_consts s i
    exact ⟨h1.1.trans h2.1, h1.2.trans h2.2⟩

theorem setup_fields (ext_reset usb : Bool) (millis_arm millis_guard : Nat) :
    (setup ext_reset usb millis_arm millis_guard).ignore_power_events_until_ms =
      add32 millis_arm
        (if ext_reset then POWER_EVENTS_ARM_DELAY_EXT_RESET_MS else POWER_EVENTS_ARM_DELAY_MS) ∧
    (setup ext_reset usb millis_arm millis_guard).power_off_allowed_after_ms =
      (if ext_reset && !usb then add32 millis_guard POWER_OFF_GUARD_EXT_RESET_BATTERY_MS
        else 0) ∧
    (setup ext_reset usb millis_arm millis_guard).power_events_armed = false ∧
    (setup ext_reset usb millis_arm millis_guard).power_btn_pressed = false ∧
    (setup ext_reset usb millis_arm millis_guard).power_btn_pressed_since_ms = 0 ∧
    (setup ext_reset usb millis_arm millis_guard).power_seen_released_since_arm = false ∧
    (setup ext_reset usb millis_arm millis_guard).power_idle_stable = false ∧
    (setup ext_reset usb millis_arm millis_guard).power_idle_since_ms = 0 ∧
    (setup ext_reset usb millis_arm millis_guard).power_cut_pending = false ∧
    (setup ext_reset usb millis_arm millis_guard).halted = false ∧
    (setup ext_reset usb millis_arm millis_guard).log = [] := by
  cases ext_reset <;> cases usb <;> exact ⟨rfl, rfl, rfl, rfl, rfl, rfl, rfl, rfl, rfl, rfl, rfl⟩

/-! ## Claims on the power sequencer -/

/-- C17: after any sequence of passes of `loop()` that follows `setup()`, a
pass on which `usb_connected()` reads present does not request the shutdown:
`power_cut_pending` and the two cut times stay as they were, and the calls
the pass adds to the trace hold neither `power_manager_off_request` nor
`audio_feedback_play_shutdown`, whatever the press timer says. -/
theorem C17_usb_present_requests_nothing (ext_reset usb0 : Bool)
    (millis_arm millis_guard : Nat) (pre : List TickInput) (i : TickInput)
    (husb : i.usb = true) :
    ¬ requests_shutdown (run_ticks (setup ext_reset usb0 millis_arm millis_guard) pre) i ∧
    (loop_tick (run_ticks (setup ext_reset usb0 millis_arm millis_guard) pre) i).power_cut_pending =
      (run_ticks (setup ext_reset usb0 millis_arm millis_guard) pre).power_cut_pending ∧
    (loop_tick (run_ticks (setup ext_reset usb0 millis_arm millis_guard) pre) i).power_cut_earliest_ms =
      (run_ticks (setup ext_reset usb0 millis_arm millis_guard) pre).power_cut_earliest_ms ∧
    (loop_tick (run_ticks (setup ext_reset usb0 millis_arm millis_guard) pre) i).power_cut_deadline_ms =
      (run_ticks (setup ext_reset usb0 millis_arm millis_guard) pre).power_cut_deadline_ms ∧
    ∃ added,
      (loop_tick (run_ticks (setup ext_reset usb0 millis_arm millis_guard) pre) i).log =
        (run_ticks (setup ext_reset usb0 millis_arm millis_guard) pre).log ++ added ∧
      LoopEvent.off_request ∉ added ∧ LoopEvent.play_shutdown ∉ added := by
  have hn : ¬ (hold_reached (run_ticks (setup ext_reset usb0 millis_arm millis_guard) pre) i = true ∧
      i.usb = false ∧
      ¬ ((run_ticks (setup ext_reset usb0 millis_arm millis_guard) pre).power_off_allowed_after_ms ≠ 0 ∧
        i.now_ms <
          (run_ticks (setup ext_reset usb0 millis_arm millis_guard) pre).power_off_allowed_after_ms)) := by
    intro hc
    rw [husb] at hc
    exact absurd hc.2.1 (by simp)
  refine ⟨?_, loop_tick_quiet_log _ i hn⟩
  intro hreq
  exact hn ((requests_shutdown_iff _ i).1 hreq)

set_option maxRecDepth 100000 in
/-- C17 at a concrete run: booted on battery at 50 ms, the button is released
until 4400 ms and then pressed from 4500 ms on; the pass at 5000 ms finds the
hold threshold reached with USB present. -/
theorem C17_usb_present_requests_nothing_witness :
    hold_reached
      (run_ticks (setup false false 50 50)
        [tickAt 3100 false false, tickAt 4400 false false, tickAt 4500 true false])
      (tickAt 5000 true true) = true ∧
    ¬ requests_shutdown
      (run_ticks (setup false false 50 50)
        [tickAt 3100 false false, tickAt 4400 false false, tickAt 4500 true false])
      (tickAt 5000 true true) :=
  ⟨by decide!,
   (C17_usb_present_requests_nothing false false 50 50
      [tickAt 3100 false false, tickAt 4400 false false, tickAt 4500 true false]
      (tickAt 5000 true true) rfl).1⟩

/-- C20: after `setup()` found an external reset with USB absent (the guard
read of `millis()` plus 30000 ms fitting a `uint32_t`), no pass of `loop()`
requests the shutdown at a time before that read plus 30000 ms, whatever the
passes read; after any other boot the guard is 0 in every reached state and
every pass that finds the hold threshold reached with USB absent requests the
shutdown. -/
theorem C20_reset_guard (ext_reset usb0 : Bool) (millis_arm millis_guard : Nat)
    (pre : List TickInput) (i : TickInput) :
    (ext_reset = true ∧ usb0 = false →
      millis_guard + POWER_OFF_GUARD_EXT_RESET_BATTERY_MS < 2 ^ 32 →
      requests_shutdown (run_ticks (setup ext_reset usb0 millis_arm millis_guard) pre) i →
      millis_guard + POWER_OFF_GUARD_EXT_RESET_BATTERY_MS ≤ i.now_ms) ∧
    (¬ (ext_reset = true ∧ usb0 = false) →
      (run_ticks (setup ext_reset usb0 millis_arm millis_guard) pre).power_off_allowed_after_ms = 0 ∧
      (hold_reached (run_ticks (setup ext_reset usb0 millis_arm millis_guard) pre) i = true →
        i.usb = false →
        requests_shutdown (run_ticks (setup ext_reset usb0 millis_arm millis_guard) pre) i)) := by
  have hc := (run_ticks_consts pre (setup ext_reset usb0 millis_arm millis_guard)).2
  rw [(setup_fields ext_reset usb0 millis_arm millis_guard).2.1] at hc
  constructor
  · rintro ⟨he, hu⟩ hfit hreq
    have hg := ((requests_shutdown_iff _ i).1 hreq).2.2
    rw [hc] at hg
    have hval : (if ext_reset && !usb0 then
        add32 millis_guard POWER_OFF_GUARD_EXT_RESET_BATTERY_MS else 0) =
        millis_guard + POWER_OFF_GUARD_EXT_RESET_BATTERY_MS := by
      rw [he, hu]
      simp only [Bool.not_false, Bool.and_self, if_true, add32]
      exact Nat.mod_eq_of_lt hfit
    rw [hval] at hg
    by_contra hlt
    apply hg
    constructor
    · simp [POWER_OFF_GUARD_EXT_RESET_BATTERY_MS]
    · omega
  · intro hne
    have hval : (if ext_reset && !usb0 then
        add32 millis_guard POWER_OFF_GUARD_EXT_RESET_BATTERY_MS else 0) = 0 := by
      cases ext_reset <;> cases usb0 <;> simp at hne ⊢
    rw [hval] at hc
    refine ⟨hc, ?_⟩
    intro hh hu
    apply (requests_shutdown_iff _ i).2
    refine ⟨hh, hu, ?_⟩
    rw [hc]
    simp

set_option maxRecDepth 100000 in
/-- C20 at two concrete runs.  After an external reset on battery with the
guard set at 60 ms, a press held from 9500 ms is refused at 10000 ms and at
30000 ms and leads to the request at 30500 ms; after a power-on boot the same
press leads to the request at 10000 ms. -/
theorem C20_reset_guard_witness :
    (requests_shutdown
        (run_ticks (setup true false 50 60)
          [tickAt 8100 false false, tickAt 9400 false false, tickAt 9500 true false,
            tickAt 10000 true false, tickAt 30000 true false])
        (tickAt 30500 true false) ∧
      60 + POWER_OFF_GUARD_EXT_RESET_BATTERY_MS ≤ (tickAt 30500 true false).now_ms) ∧
    requests_shutdown
      (run_ticks (setup false false 50 60)
        [tickAt 8100 false false, tickAt 9400 false false, tickAt 9500 true false])
      (tickAt 10000 true false) :=
  ⟨⟨by decide!,
    (C20_reset_guard true false 50 60
      [tickAt 8100 false false, tickAt 9400 false false, tickAt 9500 true false,
        tickAt 10000 true false, tickAt 30000 true false]
      (tickAt 30500 true false)).1 ⟨rfl, rfl⟩ (by decide) (by decide!)⟩,
   ((C20_reset_guard false false 50 60
      [tickAt 8100 false false, tickAt 9400 false false, tickAt 9500 true false]
      (tickAt 10000 true false)).2 (by decide)).2 (by decide!) rfl⟩

/-! ## History of the power sequencer -/

theorem sub32_of_le (a b : Nat) (h : b ≤ a) (h2 : a < 2 ^ 32) : sub32 a b = a - b := by
  unfold sub32
  omega

theorem snoc_split {α : Type} (pre a b : List α) (i k : α) (h : pre ++ [i] = a ++ k :: b) :
    (∃ b1, b = b1 ++ [i] ∧ pre = a ++ k :: b1) ∨ (a = pre ∧ k = i ∧ b = []) := by
  rcases List.eq_nil_or_concat b with hb | ⟨b1, z, hb⟩
  · right
    subst hb
    have h2 : pre ++ [i] = a ++ [k] := h
    have h3 := List.append_inj' h2 rfl
    simp at h3
    exact ⟨h3.1.symm, h3.2.symm, rfl⟩
  · left
    subst hb
    have h2 : pre ++ [i] = (a ++ k :: b1) ++ [z] := by simpa using h
    have h3 := List.append_inj' h2 rfl
    simp at h3
    refine ⟨b1, ?_, h3.1⟩
    rw [h3.2]
    simp

/-- What a clock that never goes back gives for the last pass of a run. -/
theorem clock_ok_snoc (pre : List TickInput) (i : TickInput) (h : clock_ok (pre ++ [i])) :
    clock_ok pre ∧ i.millis_check ≤ i.millis_stamp ∧ i.millis_stamp ≤ i.now_ms ∧
    i.now_ms < 2 ^ 32 ∧
    ∀ y ∈ pre, y.millis_stamp ≤ i.millis_check ∧ y.now_ms ≤ i.millis_check := by
  unfold clock_ok at h ⊢
  obtain ⟨hp, hb⟩ := h
  rw [List.flatMap_append, List.pairwise_append] at hp
  obtain ⟨hp1, hp2, hp3⟩ := hp
  have hi : [i].flatMap tick_times = [i.millis_check, i.millis_stamp, i.now_ms] := by
    simp [List.flatMap, tick_times]
  rw [hi] at hp2 hp3
  refine ⟨⟨hp1, ?_⟩, ?_, ?_, ?_, ?_⟩
  · intro t ht
    apply hb
    rw [List.flatMap_append]
    exact List.mem_append_left _ ht
  · exact (List.pairwise_cons.1 hp2).1 _ (by simp)
  · exact (List.pairwise_cons.1 (List.pairwise_cons.1 hp2).2).1 _ (by simp)
  · apply hb
    rw [List.flatMap_append, hi]
    simp
  · intro y hy
    constructor
    · exact hp3 y.millis_stamp (List.mem_flatMap.2 ⟨y, hy, by simp [tick_times]⟩)
        i.millis_check (by simp)
    · exact hp3 y.now_ms (List.mem_flatMap.2 ⟨y, hy, by simp [tick_times]⟩)
        i.millis_check (by simp)

/-- The state the arming block leaves in a pass that reads the button: the
sequencer was armed and is untouched, or it is armed by this pass. -/
theorem arm_on_read (s : LoopState) (i : TickInput) (hr : reads_button s i = true) :
    (s.power_events_armed = true ∧ arm_step (s.emit .process_ui) i = s.emit .process_ui) ∨
    (s.power_events_armed = false ∧
      s.ignore_power_events_until_ms ≤ i.millis_check ∧
      (arm_step (s.emit .process_ui) i).power_events_armed = true ∧
      (arm_step (s.emit .process_ui) i).power_seen_released_since_arm = false ∧
      (arm_step (s.emit .process_ui) i).power_idle_stable = false ∧
      (arm_step (s.emit .process_ui) i).power_idle_since_ms = i.millis_stamp) := by
  have hh := reads_button_not_halted hr
  have hr2 : (arm_step (s.emit .process_ui) i).power_events_armed = true := by
    unfold reads_button at hr
    simpa [hh] using hr
  cases ha : s.power_events_armed
  · right
    have h := arm_step_arming (s.emit .process_ui) i ha
    have h1 := h.1.1 hr2
    have h2 := h.2.1 hr2
    exact ⟨rfl, h1.2, hr2, h2.1, h2.2.1, h2.2.2⟩
  · left
    exact ⟨rfl, arm_step_of_armed _ i ha⟩

/-- The fields that the idle tracking owns, after a pass that reads the
button. -/
theorem loop_tick_read_idle (s : LoopState) (i : TickInput) (hr : reads_button s i = true) :
    (loop_tick s i).power_events_armed = true ∧
    (loop_tick s i).power_seen_released_since_arm =
      (before_press s i).power_seen_released_since_arm ∧
    (loop_tick s i).power_idle_stable = (before_press s i).power_idle_stable ∧
    (loop_tick s i).power_idle_since_ms = (before_press s i).power_idle_since_ms := by
  have f := power_fields (loop_tick_read s i hr)
  have h1 := press_step_frame (before_press s i) i
  have hh := reads_button_not_halted hr
  have hr2 : (arm_step (s.emit .process_ui) i).power_events_armed = true := by
    unfold reads_button at hr
    simpa [hh] using hr
  have h2 := (idle_step_frame (arm_step (s.emit .process_ui) i) i).2.2.2.2.2.2.2.2.2.2.2
  refine ⟨?_, f.2.2.2.2.2.1.trans h1.2.2.2.1, f.2.2.2.2.2.2.1.trans h1.2.2.2.2.1,
    f.2.2.2.2.2.2.2.1.trans h1.2.2.2.2.2.1⟩
  rw [f.2.1, h1.2.2.1]
  unfold before_press
  rw [h2, hr2]

/-- The press timer after a pass: kept, or restarted at the time of the pass
by a pass that reads the button pressed. -/
theorem loop_tick_press (s : LoopState) (i : TickInput)
    (hk : s.power_btn_pressed = true → s.power_events_armed = true) :
    ((loop_tick s i).power_btn_pressed_since_ms = s.power_btn_pressed_since_ms ∨
      (loop_tick s i).power_btn_pressed_since_ms = i.now_ms) ∧
    (s.halted = false → (loop_tick s i).power_btn_pressed = true →
      reads_button s i = true ∧ i.sys_out_low = true ∧
      press_window (before_press s i) i = true ∧
      (s.power_btn_pressed = false → (loop_tick s i).power_btn_pressed_since_ms = i.now_ms)) ∧
    (hold_reached s i = true → (loop_tick s i).power_btn_pressed_since_ms = i.now_ms) ∧
    ((loop_tick s i).power_btn_pressed = true → (loop_tick s i).power_events_armed = true) := by
  have hb := before_press_frame s i
  cases hh : s.halted
  · cases hr : reads_button s i
    · have h := loop_tick_unread s i hh hr
      have f := power_fields h.1
      have hnb : s.power_btn_pressed = false := by
        cases hbt : s.power_btn_pressed
        · rfl
        · rw [hk hbt] at h
          exact absurd h.2.1 (by simp)
      refine ⟨Or.inl f.2.2.2.2.1, ?_, ?_, ?_⟩
      · intro _ hbtn
        rw [f.2.2.2.1, hnb] at hbtn
        exact absurd hbtn (by simp)
      · intro hc
        rw [((hold_reached_iff s i).1 hc).1] at hr
        exact absurd hr (by simp)
      · intro hbtn
        rw [f.2.2.2.1, hnb] at hbtn
        exact absurd hbtn (by simp)
    · have f := power_fields (loop_tick_read s i hr)
      have harm := (loop_tick_read_idle s i hr).1
      rw [f.2.2.2.1, f.2.2.2.2.1]
      cases hw : press_window (before_press s i) i
      · rw [press_step_outside _ i hw]
        refine ⟨?_, ?_, ?_, fun _ => harm⟩
        · left
          rw [← hb.2.2.2.1]
          split <;> rfl
        · intro _ hbtn
          exfalso
          revert hbtn
          split
          · simp
          · rename_i hnb
            intro hbtn
            exact hnb hbtn
        · intro hc
          rw [((hold_reached_iff s i).1 hc).2.1] at hw
          exact absurd hw (by simp)
      · have hlow : i.sys_out_low = true := by
          unfold press_window at hw
          simp only [Bool.and_eq_true] at hw
          exact hw.1.1.1
        cases hbt : (before_press s i).power_btn_pressed
        · rw [press_step_accept _ i hw hbt]
          refine ⟨Or.inr rfl, fun _ _ => ⟨rfl, hlow, rfl, fun _ => rfl⟩, fun _ => rfl,
            fun _ => harm⟩
        · by_cases hhold :
              POWER_HOLD_MS ≤ sub32 i.now_ms (before_press s i).power_btn_pressed_since_ms
          · rw [press_step_hold _ i hw hbt hhold]
            have hf := (hold_step_frame (before_press s i) i).2.2.2.1
            refine ⟨Or.inr hf, fun _ _ => ⟨rfl, hlow, rfl, fun _ => hf⟩, fun _ => hf,
              fun _ => harm⟩
          · rw [press_step_wait _ i hw hbt hhold]
            refine ⟨Or.inl hb.2.2.2.1, ?_, ?_, fun _ => harm⟩
            · intro _ _
              refine ⟨rfl, hlow, rfl, ?_⟩
              intro hn
              rw [hb.2.2.1, hn] at hbt
              exact absurd hbt (by simp)
            · intro hc
              exact absurd ((hold_reached_iff s i).1 hc).2.2.2 hhold
  · rw [loop_tick_halted s i hh]
    refine ⟨Or.inl rfl, ?_, ?_, hk⟩
    · intro h1; exact absurd h1 (by simp)
    · intro hc
      have := reads_button_not_halted ((hold_reached_iff s i).1 hc).1
      rw [hh] at this
      exact absurd this (by simp)

/-- What every run of passes keeps true of the press timer: a running timer
belongs to an armed sequencer, was started at the time of a pass, is not
older than a pass from which the button has read pressed ever since, and is
not older than any pass that found the hold threshold reached. -/
theorem press_history (s0 : LoopState) (hb0 : s0.power_btn_pressed = false)
    (ht0 : s0.power_btn_pressed_since_ms = 0) :
    ∀ pre : List TickInput, clock_ok pre →
      ((run_ticks s0 pre).power_btn_pressed = true →
        (run_ticks s0 pre).power_events_armed = true) ∧
      ((run_ticks s0 pre).power_btn_pressed_since_ms = 0 ∨
        ∃ y ∈ pre, (run_ticks s0 pre).power_btn_pressed_since_ms = y.now_ms) ∧
      ((run_ticks s0 pre).halted = false → (run_ticks s0 pre).power_btn_pressed = true →
        ∃ a x mid, pre = a ++ x :: mid ∧ reads_button (run_ticks s0 a) x = true ∧
          x.sys_out_low = true ∧ (∀ k ∈ mid, k.sys_out_low = true) ∧
          x.now_ms ≤ (run_ticks s0 pre).power_btn_pressed_since_ms) ∧
      (∀ a u b, pre = a ++ u :: b → hold_reached (run_ticks s0 a) u = true →
        u.now_ms ≤ (run_ticks s0 pre).power_btn_pressed_since_ms) := by
  intro pre
  induction pre using List.reverseRecOn with
  | nil =>
    intro _
    refine ⟨?_, Or.inl ht0, ?_, ?_⟩
    · intro h
      rw [run_ticks_nil, hb0] at h
      exact absurd h (by simp)
    · intro _ h
      rw [run_ticks_nil, hb0] at h
      exact absurd h (by simp)
    · intro a u b h
      exact absurd h (by simp)
  | append_singleton pre i ih =>
    intro hclk
    obtain ⟨hpre, hcs, hsn, hnow, hy⟩ := clock_ok_snoc pre i hclk
    obtain ⟨k1, k2, k3, k4⟩ := ih hpre
    have hp := loop_tick_press (run_ticks s0 pre) i k1
    have hle : (run_ticks s0 pre).power_btn_pressed_since_ms ≤ i.now_ms := by
      rcases k2 with h | ⟨y, hy1, hy2⟩
      · rw [h]; exact Nat.zero_le _
      · rw [hy2]
        have := (hy y hy1).2
        omega
    have hmono : (run_ticks s0 pre).power_btn_pressed_since_ms ≤
        (loop_tick (run_ticks s0 pre) i).power_btn_pressed_since_ms := by
      rcases hp.1 with h | h
      · rw [h]
      · rw [h]; exact hle
    rw [run_ticks_snoc]
    refine ⟨hp.2.2.2, ?_, ?_, ?_⟩
    · rcases hp.1 with h | h
      · rcases k2 with h2 | ⟨y, hy1, hy2⟩
        · left; rw [h, h2]
        · right
          exact ⟨y, List.mem_append_left _ hy1, by rw [h, hy2]⟩
      · right
        exact ⟨i, by simp, h⟩
    · intro hh hbtn
      have hh0 : (run_ticks s0 pre).halted = false := by
        cases hc : (run_ticks s0 pre).halted
        · rfl
        · rw [loop_tick_halted _ i hc, hc] at hh
          exact absurd hh (by simp)
      obtain ⟨hr, hlow, _, hnew⟩ := hp.2.1 hh0 hbtn
      cases hbt : (run_ticks s0 pre).power_btn_pressed
      · refine ⟨pre, i, [], rfl, hr, hlow, by simp, ?_⟩
        rw [hnew hbt]
      · obtain ⟨a, x, mid, hsplit, hxr, hx, hmid, hxle⟩ := k3 hh0 hbt
        refine ⟨a, x, mid ++ [i], by rw [hsplit]; simp, hxr, hx, ?_, hxle.trans hmono⟩
        intro k hk
        rcases List.mem_append.1 hk with h | h
        · exact hmid k h
        · rw [List.mem_singleton.1 h]; exact hlow
    · intro a u b hsplit hhold
      rcases snoc_split pre a b i u hsplit with ⟨b1, _, hpre2⟩ | ⟨ha, hu, _⟩
      · exact (k4 a u b1 hpre2 hhold).trans hmono
      · subst ha
        subst hu
        rw [hp.2.2.1 hhold]

/-- A running press timer is kept by a pass that does not find the hold
threshold reached. -/
theorem loop_tick_press_kept (s : LoopState) (i : TickInput)
    (hbtn : s.power_btn_pressed = true) (hn : hold_reached s i = false) :
    (loop_tick s i).power_btn_pressed_since_ms = s.power_btn_pressed_since_ms := by
  have hb := before_press_frame s i
  cases hh : s.halted
  · cases hr : reads_button s i
    · exact (power_fields (loop_tick_unread s i hh hr).1).2.2.2.2.1
    · have f := power_fields (loop_tick_read s i hr)
      rw [f.2.2.2.2.1]
      cases hw : press_window (before_press s i) i
      · rw [press_step_outside _ i hw, ← hb.2.2.2.1]
        split <;> rfl
      · have hbt : (before_press s i).power_btn_pressed = true := by rw [hb.2.2.1, hbtn]
        by_cases hhold :
            POWER_HOLD_MS ≤ sub32 i.now_ms (before_press s i).power_btn_pressed_since_ms
        · rw [(hold_reached_iff s i).2 ⟨hr, hw, hbt, hhold⟩] at hn
          exact absurd hn (by simp)
        · rw [press_step_wait _ i hw hbt hhold]
          exact hb.2.2.2.1
  · rw [loop_tick_halted s i hh]

/-- Where a running press timer comes from, whatever the clock reads: while
`power_btn_pressed` is set in a running loop, the timer holds the time of an
earlier pass that read the button pressed, every pass since read it pressed,
and none of them found the hold threshold reached. -/
theorem press_timer_origin (s0 : LoopState) (hb0 : s0.power_btn_pressed = false) :
    ∀ pre : List TickInput,
      ((run_ticks s0 pre).power_btn_pressed = true →
        (run_ticks s0 pre).power_events_armed = true) ∧
      ((run_ticks s0 pre).halted = false → (run_ticks s0 pre).power_btn_pressed = true →
        ∃ a x mid, pre = a ++ x :: mid ∧ reads_button (run_ticks s0 a) x = true ∧
          x.sys_out_low = true ∧ (∀ k ∈ mid, k.sys_out_low = true) ∧
          (run_ticks s0 pre).power_btn_pressed_since_ms = x.now_ms ∧
          ∀ a2 u b2, mid = a2 ++ u :: b2 →
            hold_reached (run_ticks s0 (a ++ x :: a2)) u = false) := by
  intro pre
  induction pre using List.reverseRecOn with
  | nil =>
    refine ⟨?_, ?_⟩
    · intro h
      rw [run_ticks_nil, hb0] at h
      exact absurd h (by simp)
    · intro _ h
      rw [run_ticks_nil, hb0] at h
      exact absurd h (by simp)
  | append_singleton pre i ih =>
    obtain ⟨k1, k3⟩ := ih
    have hp := loop_tick_press (run_ticks s0 pre) i k1
    rw [run_ticks_snoc]
    refine ⟨hp.2.2.2, ?_⟩
    intro hh hbtn
    have hh0 : (run_ticks s0 pre).halted = false := by
      cases hc : (run_ticks s0 pre).halted
      · rfl
      · rw [loop_tick_halted _ i hc, hc] at hh
        exact absurd hh (by simp)
    obtain ⟨hr, hlow, _, hnew⟩ := hp.2.1 hh0 hbtn
    cases hbt : (run_ticks s0 pre).power_btn_pressed
    · exact ⟨pre, i, [], rfl, hr, hlow, by simp, hnew hbt, by simp⟩
    · cases hhold : hold_reached (run_ticks s0 pre) i
      · obtain ⟨a, x, mid, hsplit, hxr, hx, hmid, hxt, hno⟩ := k3 hh0 hbt
        refine ⟨a, x, mid ++ [i], by rw [hsplit]; simp, hxr, hx, ?_, ?_, ?_⟩
        · intro k hk
          rcases List.mem_append.1 hk with h | h
          · exact hmid k h
          · rw [List.mem_singleton.1 h]; exact hlow
        · rw [loop_tick_press_kept _ i hbt hhold, hxt]
        · intro a2 u b2 hsp
          rcases snoc_split mid a2 b2 i u hsp with ⟨b3, _, hmid2⟩ | ⟨ha, hu, _⟩
          · exact hno a2 u b3 hmid2
          · subst ha
            subst hu
            rw [← hsplit]
            exact hhold
      · exact ⟨pre, i, [], rfl, hr, hlow, by simp, hp.2.2.1 hhold, by simp⟩

/-- C19: a pass of `loop()` at time `t` requests the shutdown only if an
earlier pass at a time `s` read the button pressed, the button read pressed
at every pass after it and at `t`, and `t - s` (as `uint32_t`) is at least
500 ms; no pass between the two found the hold threshold reached, so a hold
ignored because USB was present, which restarts the press timer, is not
after `s`.  With clock reads that never go back and stay below `2^32`,
`s + 500 ≤ t`, and every earlier pass that found the hold threshold reached
with USB present lies at least 500 ms before `t`. -/
theorem C19_request_needs_continuous_hold (ext_reset usb0 : Bool)
    (millis_arm millis_guard : Nat) (pre : List TickInput) (t : TickInput)
    (hreq : requests_shutdown (run_ticks (setup ext_reset usb0 millis_arm millis_guard) pre) t) :
    ∃ a x mid, pre = a ++ x :: mid ∧
      reads_button (run_ticks (setup ext_reset usb0 millis_arm millis_guard) a) x = true ∧
      x.sys_out_low = true ∧ (∀ k ∈ mid, k.sys_out_low = true) ∧ t.sys_out_low = true ∧
      POWER_HOLD_MS ≤ sub32 t.now_ms x.now_ms ∧
      (∀ a2 u b2, mid = a2 ++ u :: b2 →
        hold_reached
          (run_ticks (setup ext_reset usb0 millis_arm millis_guard) (a ++ x :: a2)) u = false) ∧
      (clock_ok (pre ++ [t]) →
        x.now_ms + POWER_HOLD_MS ≤ t.now_ms ∧
        ∀ a3 u b3, pre = a3 ++ u :: b3 →
          hold_reached (run_ticks (setup ext_reset usb0 millis_arm millis_guard) a3) u = true →
          u.usb = true → u.now_ms + POWER_HOLD_MS ≤ t.now_ms) := by
  have hs := setup_fields ext_reset usb0 millis_arm millis_guard
  have hh := (hold_reached_iff _ t).1 ((requests_shutdown_iff _ t).1 hreq).1
  have hb := before_press_frame (run_ticks (setup ext_reset usb0 millis_arm millis_guard) pre) t
  obtain ⟨hr, hw, hbtn, hhold⟩ := hh
  rw [hb.2.2.1] at hbtn
  rw [hb.2.2.2.1] at hhold
  have hlow : t.sys_out_low = true := by
    unfold press_window at hw
    simp only [Bool.and_eq_true] at hw
    exact hw.1.1.1
  obtain ⟨a, x, mid, hsplit, hxr, hx, hmid, hxt, hno⟩ :=
    (press_timer_origin (setup ext_reset usb0 millis_arm millis_guard) hs.2.2.2.1 pre).2
      (reads_button_not_halted hr) hbtn
  rw [hxt] at hhold
  refine ⟨a, x, mid, hsplit, hxr, hx, hmid, hlow, hhold, hno, ?_⟩
  intro hclk
  obtain ⟨hpre, hcs, hsn, hnow, hy⟩ := clock_ok_snoc pre t hclk
  obtain ⟨_, _, _, k4⟩ :=
    press_history (setup ext_reset usb0 millis_arm millis_guard) hs.2.2.2.1 hs.2.2.2.2.1 pre hpre
  have hle : x.now_ms ≤ t.now_ms := by
    have := (hy x (by rw [hsplit]; simp)).2
    omega
  rw [sub32_of_le _ _ hle hnow] at hhold
  constructor
  · omega
  · intro a3 u b3 hsp hu _
    have := k4 a3 u b3 hsp hu
    rw [hxt] at this
    omega

set_option maxRecDepth 100000 in
/-- C19 at a concrete run: booted on battery at 50 ms, the button is pressed
from 4500 ms on; the hold found at 5000 ms is ignored because USB is present,
the pass at 5300 ms finds only 300 ms on the restarted timer, and the pass at
5500 ms requests the shutdown, 500 ms after the ignored hold. -/
theorem C19_request_needs_continuous_hold_witness :
    requests_shutdown
      (run_ticks (setup false false 50 50)
        [tickAt 3100 false false, tickAt 4400 false false, tickAt 4500 true false,
          tickAt 5000 true true, tickAt 5300 true false])
      (tickAt 5500 true false) ∧
    clock_ok
      ([tickAt 3100 false false, tickAt 4400 false false, tickAt 4500 true false,
          tickAt 5000 true true, tickAt 5300 true false] ++ [tickAt 5500 true false]) ∧
    ¬ requests_shutdown
      (run_ticks (setup false false 50 50)
        [tickAt 3100 false false, tickAt 4400 false false, tickAt 4500 true false,
          tickAt 5000 true true])
      (tickAt 5300 true false) ∧
    ∃ a x mid,
      [tickAt 3100 false false, tickAt 4400 false false, tickAt 4500 true false,
          tickAt 5000 true true, tickAt 5300 true false] = a ++ x :: mid ∧
      x.sys_out_low = true ∧ (∀ k ∈ mid, k.sys_out_low = true) ∧
      x.now_ms + POWER_HOLD_MS ≤ (tickAt 5500 true false).now_ms :=
  ⟨by decide!, by decide!, by decide!,
   match C19_request_needs_continuous_hold false false 50 50
      [tickAt 3100 false false, tickAt 4400 false false, tickAt 4500 true false,
        tickAt 5000 true true, tickAt 5300 true false]
      (tickAt 5500 true false) (by decide!) with
   | ⟨a, x, mid, h1, _, h3, h4, _, _, _, h8⟩ =>
     ⟨a, x, mid, h1, h3, h4, (h8 (by decide!)).1⟩⟩

/-- The idle tracking of a pass that reads the button, by the level read. -/
theorem loop_tick_read_level (s : LoopState) (i : TickInput) (hr : reads_button s i = true) :
    (i.sys_out_low = true →
      (loop_tick s i).power_idle_since_ms = i.now_ms ∧
      (loop_tick s i).power_idle_stable =
        (arm_step (s.emit .process_ui) i).power_idle_stable) ∧
    (i.sys_out_low = false →
      (loop_tick s i).power_idle_since_ms =
        (arm_step (s.emit .process_ui) i).power_idle_since_ms ∧
      ((loop_tick s i).power_idle_stable = true ↔
        ((arm_step (s.emit .process_ui) i).power_idle_stable = true ∨
          POWER_IDLE_STABLE_MS ≤
            sub32 i.now_ms (arm_step (s.emit .process_ui) i).power_idle_since_ms))) := by
  have h := loop_tick_read_idle s i hr
  rw [h.2.2.1, h.2.2.2]
  unfold before_press
  constructor
  · intro hl
    have h2 := idle_step_pressed (arm_step (s.emit .process_ui) i) i hl
    exact ⟨h2.1, h2.2.1⟩
  · intro hl
    have h2 := idle_step_released (arm_step (s.emit .process_ui) i) i hl
    exact ⟨h2.1, h2.2.2⟩

/-- An armed sequencer stays armed. -/
theorem loop_tick_armed (s : LoopState) (i : TickInput) (ha : s.power_events_armed = true) :
    (loop_tick s i).power_events_armed = true := by
  cases hh : s.halted
  · exact (loop_tick_read_idle s i (reads_button_of_armed hh ha)).1
  · rw [loop_tick_halted s i hh]; exact ha

/-- What every run of passes keeps true of the idle tracking, `D` being the
arm deadline: the idle timer of an armed sequencer was started at a clock
read of a pass, not before `D` and not before any pass that read the button
pressed; idle stability was reached by a pass that read the button released
at least 1200 ms after `D` and after every pressed reading. -/
theorem idle_history (s0 : LoopState) (ha0 : s0.power_events_armed = false)
    (hs0 : s0.power_idle_stable = false) :
    ∀ pre : List TickInput, clock_ok pre →
      ((run_ticks s0 pre).power_events_armed = true →
        s0.ignore_power_events_until_ms ≤ (run_ticks s0 pre).power_idle_since_ms ∧
        ∃ y ∈ pre, (run_ticks s0 pre).power_idle_since_ms = y.millis_stamp ∨
          (run_ticks s0 pre).power_idle_since_ms = y.now_ms) ∧
      ((run_ticks s0 pre).power_idle_stable = true →
        ∃ a j b, pre = a ++ j :: b ∧ reads_button (run_ticks s0 a) j = true ∧
          j.sys_out_low = false ∧
          s0.ignore_power_events_until_ms + POWER_IDLE_STABLE_MS ≤ j.now_ms ∧
          ∀ a1 k b1, a = a1 ++ k :: b1 → reads_button (run_ticks s0 a1) k = true →
            k.sys_out_low = true → k.now_ms + POWER_IDLE_STABLE_MS ≤ j.now_ms) ∧
      (∀ a1 k b1, pre = a1 ++ k :: b1 → reads_button (run_ticks s0 a1) k = true →
        (run_ticks s0 pre).power_events_armed = true ∧
        (k.sys_out_low = true → k.now_ms ≤ (run_ticks s0 pre).power_idle_since_ms)) := by
  intro pre
  induction pre using List.reverseRecOn with
  | nil =>
    intro _
    refine ⟨?_, ?_, ?_⟩
    · intro h
      rw [run_ticks_nil, ha0] at h
      exact absurd h (by simp)
    · intro h
      rw [run_ticks_nil, hs0] at h
      exact absurd h (by simp)
    · intro a u b h
      exact absurd h (by simp)
  | append_singleton pre i ih =>
    intro hclk
    obtain ⟨hpre, hcs, hsn, hnow, hy⟩ := clock_ok_snoc pre i hclk
    obtain ⟨j2, j3, j4⟩ := ih hpre
    have hconst := (run_ticks_consts pre s0).1
    -- the idle timer of an armed sequencer is not ahead of this pass
    have hle : (run_ticks s0 pre).power_events_armed = true →
        (run_ticks s0 pre).power_idle_since_ms ≤ i.millis_check := by
      intro ha
      obtain ⟨_, y, hy1, hy2⟩ := j2 ha
      rcases hy2 with h | h
      · rw [h]; exact (hy y hy1).1
      · rw [h]; exact (hy y hy1).2
    rw [run_ticks_snoc]
    cases hh : (run_ticks s0 pre).halted
    · cases hr : reads_button (run_ticks s0 pre) i
      · -- the pass does not read the button
        have hu := loop_tick_unread (run_ticks s0 pre) i hh hr
        have f := power_fields hu.1
        refine ⟨?_, ?_, ?_⟩
        · intro ha
          rw [f.2.1, hu.2.1] at ha
          exact absurd ha (by simp)
        · intro hst
          rw [f.2.2.2.2.2.2.1] at hst
          obtain ⟨a, j, b, hsplit, h1, h2, h3, h4⟩ := j3 hst
          exact ⟨a, j, b ++ [i], by rw [hsplit]; simp, h1, h2, h3, h4⟩
        · intro a1 k b1 hsplit hk
          rcases snoc_split pre a1 b1 i k hsplit with ⟨b2, _, hpre2⟩ | ⟨ha, hk2, _⟩
          · have := (j4 a1 k b2 hpre2 hk).1
            rw [hu.2.1] at this
            exact absurd this (by simp)
          · subst ha
            subst hk2
            rw [hr] at hk
            exact absurd hk (by simp)
      · -- the pass reads the button
        have hid := loop_tick_read_idle (run_ticks s0 pre) i hr
        have hlv := loop_tick_read_level (run_ticks s0 pre) i hr
        have harm := arm_on_read (run_ticks s0 pre) i hr
        rw [hconst] at harm
        -- the idle timer after the pass, against the one before it
        have hkeep : (run_ticks s0 pre).power_events_armed = true →
            (run_ticks s0 pre).power_idle_since_ms ≤
              (loop_tick (run_ticks s0 pre) i).power_idle_since_ms := by
          intro ha
          rcases harm with ⟨_, he⟩ | ⟨hna, _⟩
          · cases hl : i.sys_out_low
            · rw [(hlv.2 hl).1, he]
              exact Nat.le_refl _
            · rw [(hlv.1 hl).1]
              have := hle ha
              omega
          · rw [hna] at ha
            exact absurd ha (by simp)
        refine ⟨?_, ?_, ?_⟩
        · intro _
          rcases harm with ⟨ha, he⟩ | ⟨hna, hD, _, _, _, hstamp⟩
          · obtain ⟨hD, y, hy1, hy2⟩ := j2 ha
            cases hl : i.sys_out_low
            · rw [(hlv.2 hl).1, he]
              exact ⟨hD, y, List.mem_append_left _ hy1, hy2⟩
            · rw [(hlv.1 hl).1]
              have := hle ha
              exact ⟨by omega, i, by simp, Or.inr rfl⟩
          · cases hl : i.sys_out_low
            · rw [(hlv.2 hl).1, hstamp]
              exact ⟨by omega, i, by simp, Or.inl rfl⟩
            · rw [(hlv.1 hl).1]
              exact ⟨by omega, i, by simp, Or.inr rfl⟩
        · intro hst
          cases hst0 : (run_ticks s0 pre).power_idle_stable
          · -- idle stability is reached by this pass
            cases hl : i.sys_out_low
            · have hiff := (hlv.2 hl).2.1 hst
              rcases harm with ⟨ha, he⟩ | ⟨hna, hD, _, _, hnst, hstamp⟩
              · rw [he] at hiff
                have hiff2 : POWER_IDLE_STABLE_MS ≤
                    sub32 i.now_ms (run_ticks s0 pre).power_idle_since_ms := by
                  rcases hiff with h | h
                  · have h2 : (run_ticks s0 pre).power_idle_stable = true := h
                    rw [hst0] at h2
                    exact absurd h2 (by simp)
                  · exact h
                have hle2 := hle ha
                rw [sub32_of_le _ _ (by omega) hnow] at hiff2
                obtain ⟨hD, _⟩ := j2 ha
                refine ⟨pre, i, [], rfl, hr, hl, by omega, ?_⟩
                intro a1 k b1 hsplit hk hkl
                have := (j4 a1 k b1 hsplit hk).2 hkl
                omega
              · rw [hnst, hstamp] at hiff
                have hiff2 : POWER_IDLE_STABLE_MS ≤ sub32 i.now_ms i.millis_stamp := by
                  rcases hiff with h | h
                  · exact absurd h (by simp)
                  · exact h
                rw [sub32_of_le _ _ hsn hnow] at hiff2
                refine ⟨pre, i, [], rfl, hr, hl, by omega, ?_⟩
                intro a1 k b1 hsplit hk _
                have := (j4 a1 k b1 hsplit hk).1
                rw [hna] at this
                exact absurd this (by simp)
            · exfalso
              rw [(hlv.1 hl).2] at hst
              rcases harm with ⟨_, he⟩ | ⟨_, _, _, _, hnst, _⟩
              · rw [he] at hst
                have h2 : (run_ticks s0 pre).power_idle_stable = true := hst
                rw [hst0] at h2
                exact absurd h2 (by simp)
              · rw [hnst] at hst
                exact absurd hst (by simp)
          · obtain ⟨a, j, b, hsplit, h1, h2, h3, h4⟩ := j3 hst0
            exact ⟨a, j, b ++ [i], by rw [hsplit]; simp, h1, h2, h3, h4⟩
        · intro a1 k b1 hsplit hk
          refine ⟨hid.1, ?_⟩
          intro hkl
          rcases snoc_split pre a1 b1 i k hsplit with ⟨b2, _, hpre2⟩ | ⟨ha, hk2, _⟩
          · have h := j4 a1 k b2 hpre2 hk
            exact (h.2 hkl).trans (hkeep h.1)
          · subst ha
            subst hk2
            rw [(hlv.1 hkl).1]
    · -- the loop has stopped
      rw [loop_tick_halted _ i hh]
      refine ⟨?_, ?_, ?_⟩
      · intro ha
        obtain ⟨hD, y, hy1, hy2⟩ := j2 ha
        exact ⟨hD, y, List.mem_append_left _ hy1, hy2⟩
      · intro hst
        obtain ⟨a, j, b, hsplit, h1, h2, h3, h4⟩ := j3 hst
        exact ⟨a, j, b ++ [i], by rw [hsplit]; simp, h1, h2, h3, h4⟩
      · intro a1 k b1 hsplit hk
        rcases snoc_split pre a1 b1 i k hsplit with ⟨b2, _, hpre2⟩ | ⟨ha, hk2, _⟩
        · exact j4 a1 k b2 hpre2 hk
        · subst ha
          subst hk2
          have := reads_button_not_halted hk
          rw [hh] at this
          exact absurd this (by simp)

/-- C18: over passes of `loop()` whose clock reads never go back and stay
below `2^32` (the arm deadline, the setup read of `millis()` plus 3000 ms or
plus 8000 ms after an external reset, fitting a `uint32_t`), a pass that
starts the press timer lies at least 1200 ms after the arm deadline, and an
earlier pass read the button released with the sequencer armed, every
pressed reading before that pass being at least 1200 ms older. -/
theorem C18_press_accepted_after_arm_and_idle (ext_reset usb0 : Bool)
    (millis_arm millis_guard : Nat) (pre : List TickInput) (i : TickInput)
    (hfit : millis_arm +
      (if ext_reset then POWER_EVENTS_ARM_DELAY_EXT_RESET_MS else POWER_EVENTS_ARM_DELAY_MS) <
        2 ^ 32)
    (hclk : clock_ok (pre ++ [i]))
    (hacc : accepts_press (run_ticks (setup ext_reset usb0 millis_arm millis_guard) pre) i) :
    millis_arm +
        (if ext_reset then POWER_EVENTS_ARM_DELAY_EXT_RESET_MS else POWER_EVENTS_ARM_DELAY_MS) +
        POWER_IDLE_STABLE_MS ≤ i.now_ms ∧
    ∃ a j b, pre = a ++ j :: b ∧
      reads_button (run_ticks (setup ext_reset usb0 millis_arm millis_guard) a) j = true ∧
      j.sys_out_low = false ∧
      ∀ a1 k b1, a = a1 ++ k :: b1 →
        reads_button (run_ticks (setup ext_reset usb0 millis_arm millis_guard) a1) k = true →
        k.sys_out_low = true → k.now_ms + POWER_IDLE_STABLE_MS ≤ j.now_ms := by
  have hs := setup_fields ext_reset usb0 millis_arm millis_guard
  obtain ⟨hpre, hcs, hsn, hnow, hy⟩ := clock_ok_snoc pre i hclk
  obtain ⟨j2, j3, j4⟩ :=
    idle_history (setup ext_reset usb0 millis_arm millis_guard) hs.2.2.1 hs.2.2.2.2.2.2.1 pre hpre
  have hD : (setup ext_reset usb0 millis_arm millis_guard).ignore_power_events_until_ms =
      millis_arm +
        (if ext_reset then POWER_EVENTS_ARM_DELAY_EXT_RESET_MS else POWER_EVENTS_ARM_DELAY_MS) := by
    rw [hs.1]
    unfold add32
    exact Nat.mod_eq_of_lt hfit
  rw [hD] at j3
  obtain ⟨hb0, hb1⟩ := hacc
  have hh : (run_ticks (setup ext_reset usb0 millis_arm millis_guard) pre).halted = false := by
    cases hc : (run_ticks (setup ext_reset usb0 millis_arm millis_guard) pre).halted
    · rfl
    · rw [loop_tick_halted _ i hc, hb0] at hb1
      exact absurd hb1 (by simp)
  have hp := loop_tick_press (run_ticks (setup ext_reset usb0 millis_arm millis_guard) pre) i
    (by intro h; rw [hb0] at h; exact absurd h (by simp))
  obtain ⟨hr, hlow, hw, _⟩ := hp.2.1 hh hb1
  have hst : (before_press (run_ticks (setup ext_reset usb0 millis_arm millis_guard) pre) i).power_idle_stable =
      true := by
    unfold press_window at hw
    simp only [Bool.and_eq_true] at hw
    exact hw.1.2
  have hst2 : (run_ticks (setup ext_reset usb0 millis_arm millis_guard) pre).power_idle_stable =
      true := by
    unfold before_press at hst
    rw [(idle_step_pressed _ i hlow).2.1] at hst
    rcases arm_on_read _ i hr with ⟨_, he⟩ | ⟨_, _, _, _, hnst, _⟩
    · rw [he] at hst
      exact hst
    · rw [hnst] at hst
      exact absurd hst (by simp)
  obtain ⟨a, j, b, hsplit, h1, h2, h3, h4⟩ := j3 hst2
  have hj : j.now_ms ≤ i.millis_check := by
    apply (hy j _).2
    rw [hsplit]
    simp
  exact ⟨by omega, a, j, b, hsplit, h1, h2, h4⟩

set_option maxRecDepth 100000 in
/-- C18 at a concrete run: booted on battery at 50 ms (arm deadline 3050 ms),
the button reads released at 3100 ms and at 4400 ms and pressed at 4500 ms,
where the press timer starts. -/
theorem C18_press_accepted_after_arm_and_idle_witness :
    accepts_press
      (run_ticks (setup false false 50 50) [tickAt 3100 false false, tickAt 4400 false false])
      (tickAt 4500 true false) ∧
    50 + POWER_EVENTS_ARM_DELAY_MS + POWER_IDLE_STABLE_MS ≤ (tickAt 4500 true false).now_ms :=
  ⟨by decide!,
   (C18_press_accepted_after_arm_and_idle false false 50 50
      [tickAt 3100 false false, tickAt 4400 false false] (tickAt 4500 true false)
      (by decide) (by decide!) (by decide!)).1⟩

/-! ## The calls of one pass -/

theorem hold_reached_of_pending (s : LoopState) (i : TickInput)
    (hp : s.power_cut_pending = true) : hold_reached s i = false := by
  cases h : hold_reached s i
  · rfl
  · have hw := ((hold_reached_iff s i).1 h).2.1
    unfold press_window at hw
    simp only [Bool.and_eq_true, Bool.not_eq_true', (before_press_frame s i).2.2.2.2.1, hp] at hw
    exact absurd hw.2 (by simp)

theorem before_press_boot (s : LoopState) (i : TickInput) :
    (before_press s i).screen_locked = s.screen_locked ∧
    (before_press s i).boot_btn_pressed = s.boot_btn_pressed := by
  have h1 := idle_step_frame (arm_step (s.emit .process_ui) i) i
  have h2 := arm_step_frame (s.emit .process_ui) i
  unfold before_press
  exact ⟨h1.2.2.2.2.2.2.2.2.2.1.trans h2.2.2.2.2.2.2.2.2.2.1,
    h1.2.2.2.2.2.2.2.2.2.2.1.trans h2.2.2.2.2.2.2.2.2.2.2⟩

/-- The BOOT button block: a press edge sets the pressed flag, waits the
debounce delay and toggles the lock; a release clears the pressed flag. -/
theorem boot_step_exact (s : LoopState) (i : TickInput) :
    (boot_step s i).log = s.log ++ boot_calls s i ∧
    (boot_step s i).boot_btn_pressed = i.boot_low ∧
    (boot_step s i).screen_locked =
      (if i.boot_low && !s.boot_btn_pressed then !s.screen_locked else s.screen_locked) := by
  unfold boot_step boot_calls set_screen_locked LoopState.emit
  cases hl : i.boot_low <;> cases hb : s.boot_btn_pressed <;> cases hs : s.screen_locked <;>
    simp [hs, hb]

theorem power_calls_eq (s : LoopState) (i : TickInput) :
    power_calls s i =
      if hold_reached s i = true ∧ i.usb = false ∧
          ¬ (s.power_off_allowed_after_ms ≠ 0 ∧ i.now_ms < s.power_off_allowed_after_ms) then
        [.off_request, .set_upduty true, .play_shutdown]
      else [] := by
  unfold power_calls
  cases h1 : hold_reached s i <;> cases h2 : i.usb <;>
    by_cases h3 : s.power_off_allowed_after_ms = 0 <;>
    by_cases h4 : i.now_ms < s.power_off_allowed_after_ms <;> simp [h3, h4]

/-- The trace of a pass, by its three outcomes: the button is not read; the
power cut is committed; the pass runs to its closing delay. -/
theorem loop_tick_log (s : LoopState) (i : TickInput) (hh : s.halted = false) :
    (reads_button s i = false →
      (loop_tick s i).log = s.log ++ [.process_ui, .delay LOOP_DELAY_MS] ∧
      (loop_tick s i).halted = false ∧
      (loop_tick s i).boot_btn_pressed = s.boot_btn_pressed ∧
      (loop_tick s i).screen_locked = s.screen_locked) ∧
    (reads_button s i = true → cut_due (press_step (before_press s i) i) i = true →
      (loop_tick s i).log = s.log ++ [.process_ui] ++ power_calls s i ++ [.commit_power_off] ∧
      (loop_tick s i).halted = true ∧
      (loop_tick s i).boot_btn_pressed = s.boot_btn_pressed ∧
      (loop_tick s i).screen_locked = s.screen_locked) ∧
    (reads_button s i = true → cut_due (press_step (before_press s i) i) i = false →
      (loop_tick s i).log =
        s.log ++ [.process_ui] ++ power_calls s i ++ boot_calls s i ++ [.delay LOOP_DELAY_MS] ∧
      (loop_tick s i).halted = false ∧
      (loop_tick s i).boot_btn_pressed = i.boot_low ∧
      (loop_tick s i).screen_locked =
        (if i.boot_low && !s.boot_btn_pressed then !s.screen_locked else s.screen_locked)) := by
  have hb := before_press_frame s i
  have hbb := before_press_boot s i
  have hpf := press_step_frame (before_press s i) i
  have hp := press_step_request (before_press s i) i
  rw [hb.2.1] at hp
  -- the trace of the long-press tracking
  have hlog : reads_button s i = true →
      (press_step (before_press s i) i).log = s.log ++ [.process_ui] ++ power_calls s i := by
    intro hr
    rw [power_calls_eq]
    by_cases hc : hold_reached s i = true ∧ i.usb = false ∧
        ¬ (s.power_off_allowed_after_ms ≠ 0 ∧ i.now_ms < s.power_off_allowed_after_ms)
    · have hq := (hold_reached_iff s i).1 hc.1
      rw [(hp.1 ⟨hq.2.1, hq.2.2.1, hq.2.2.2, hc.2.1, hc.2.2⟩).2.2.2, hb.2.2.2.2.2.2.2.1,
        if_pos hc]
    · have hk := hp.2 (by
        intro hq
        exact hc ⟨(hold_reached_iff s i).2 ⟨hr, hq.1, hq.2.1, hq.2.2.1⟩, hq.2.2.2.1,
          hq.2.2.2.2⟩)
      rw [hk.2.2.2, hb.2.2.2.2.2.2.2.1, if_neg hc]
      simp
  refine ⟨?_, ?_, ?_⟩
  · intro hr
    have h := loop_tick_unread s i hh hr
    refine ⟨h.2.2.2, h.2.2.1, ?_, ?_⟩
    · rw [loop_tick_eq s i hh, hr]
      simp only [Bool.false_eq_true, if_false]
      exact (arm_step_frame (s.emit .process_ui) i).2.2.2.2.2.2.2.2.2.2
    · rw [loop_tick_eq s i hh, hr]
      simp only [Bool.false_eq_true, if_false]
      exact (arm_step_frame (s.emit .process_ui) i).2.2.2.2.2.2.2.2.2.1
  · intro hr hc
    rw [loop_tick_eq s i hh, hr, hc, if_pos rfl, if_pos rfl]
    refine ⟨?_, rfl, hpf.2.2.2.2.2.2.2.2.trans hbb.2, hpf.2.2.2.2.2.2.2.1.trans hbb.1⟩
    simp [LoopState.emit, hlog hr]
  · intro hr hc
    rw [loop_tick_eq s i hh, hr, hc, if_pos rfl, if_neg (by simp)]
    have hbs := boot_step_exact (press_step (before_press s i) i) i
    have e1 : (press_step (before_press s i) i).boot_btn_pressed = s.boot_btn_pressed :=
      hpf.2.2.2.2.2.2.2.2.trans hbb.2
    have e2 : (press_step (before_press s i) i).screen_locked = s.screen_locked :=
      hpf.2.2.2.2.2.2.2.1.trans hbb.1
    have e3 : boot_calls (press_step (before_press s i) i) i = boot_calls s i := by
      unfold boot_calls
      rw [e1, e2]
    refine ⟨?_, ?_, hbs.2.1, ?_⟩
    · simp [LoopState.emit, hbs.1, hlog hr, e3]
    · have := (boot_step_frame (press_step (before_press s i) i) i).2.1
      simp only [LoopState.emit]
      rw [this, hpf.2.2.2.2.2.2.1, hb.2.2.2.2.2.2.2.2, hh]
    · simp only [LoopState.emit]
      rw [hbs.2.2, e1, e2]

/-! ## The pending power cut -/

theorem cut_due_iff (s : LoopState) (k : TickInput) (hp : s.power_cut_pending = true) :
    cut_due s k = true ↔
      (s.power_cut_deadline_ms ≤ k.now_ms ∨
        (k.audio_idle = true ∧ s.power_cut_earliest_ms ≤ k.now_ms)) := by
  unfold cut_due
  simp [hp]

theorem cut_due_congr (s s2 : LoopState) (k : TickInput)
    (hp : s.power_cut_pending = s2.power_cut_pending)
    (he : s.power_cut_earliest_ms = s2.power_cut_earliest_ms)
    (hd : s.power_cut_deadline_ms = s2.power_cut_deadline_ms) :
    cut_due s k = cut_due s2 k := by
  unfold cut_due
  rw [hp, he, hd]

/-- A pass with the cut pending: the request state and the two cut times are
kept, and the pass commits the cut exactly when the cut test holds. -/
theorem loop_tick_pending (s : LoopState) (i : TickInput) (hh : s.halted = false)
    (ha : s.power_events_armed = true) (hp : s.power_cut_pending = true) :
    (loop_tick s i).halted = cut_due s i ∧
    (loop_tick s i).power_events_armed = true ∧
    (loop_tick s i).power_cut_pending = true ∧
    (loop_tick s i).power_cut_earliest_ms = s.power_cut_earliest_ms ∧
    (loop_tick s i).power_cut_deadline_ms = s.power_cut_deadline_ms ∧
    (cut_due s i = true →
      (loop_tick s i).log = s.log ++ [.process_ui, .commit_power_off]) ∧
    (cut_due s i = false →
      (loop_tick s i).log = s.log ++ [.process_ui] ++ boot_calls s i ++ [.delay LOOP_DELAY_MS]) := by
  have hr := reads_button_of_armed (i := i) hh ha
  have hq := loop_tick_quiet_log s i (by
    intro hc
    rw [hold_reached_of_pending s i hp] at hc
    exact absurd hc.1 (by simp))
  have hb := before_press_frame s i
  have hpr := press_step_request (before_press s i) i
  have hk := hpr.2 (by
    intro hc
    have hw := hc.1
    unfold press_window at hw
    simp only [Bool.and_eq_true, Bool.not_eq_true', hb.2.2.2.2.1, hp] at hw
    exact absurd hw.2 (by simp))
  have hcd : cut_due (press_step (before_press s i) i) i = cut_due s i :=
    cut_due_congr _ _ i (hk.1.trans hb.2.2.2.2.1) (hk.2.1.trans hb.2.2.2.2.2.1)
      (hk.2.2.1.trans hb.2.2.2.2.2.2.1)
  have hl := loop_tick_log s i hh
  have hpc : power_calls s i = [] := by
    rw [power_calls_eq, if_neg]
    intro hc
    rw [hold_reached_of_pending s i hp] at hc
    exact absurd hc.1 (by simp)
  refine ⟨?_, (loop_tick_read_idle s i hr).1, by rw [hq.1, hp], hq.2.1, hq.2.2.1, ?_, ?_⟩
  · cases hc : cut_due s i
    · exact (hl.2.2 hr (by rw [hcd, hc])).2.1
    · exact (hl.2.1 hr (by rw [hcd, hc])).2.1
  · intro hc
    have := (hl.2.1 hr (by rw [hcd, hc])).1
    rw [this, hpc]
    simp
  · intro hc
    have := (hl.2.2 hr (by rw [hcd, hc])).1
    rw [this, hpc]
    simp

/-- A run of passes with the cut pending: the loop is still running exactly
when no pass so far passed the cut test, and then the request state and the
cut times are those of the start. -/
theorem pending_run (s1 : LoopState) (h1 : s1.halted = false)
    (ha : s1.power_events_armed = true) (hp : s1.power_cut_pending = true) :
    ∀ post : List TickInput,
      ((run_ticks s1 post).halted = false ↔ ∀ k ∈ post, cut_due s1 k = false) ∧
      ((run_ticks s1 post).halted = false →
        (run_ticks s1 post).power_events_armed = true ∧
        (run_ticks s1 post).power_cut_pending = true ∧
        (run_ticks s1 post).power_cut_earliest_ms = s1.power_cut_earliest_ms ∧
        (run_ticks s1 post).power_cut_deadline_ms = s1.power_cut_deadline_ms) := by
  intro post
  induction post using List.reverseRecOn with
  | nil =>
    refine ⟨?_, ?_⟩
    · rw [run_ticks_nil]
      simp [h1]
    · intro _
      rw [run_ticks_nil]
      exact ⟨ha, hp, rfl, rfl⟩
  | append_singleton post k ih =>
    rw [run_ticks_snoc]
    cases hh : (run_ticks s1 post).halted
    · obtain ⟨ha2, hp2, he2, hd2⟩ := ih.2 hh
      have ht := loop_tick_pending (run_ticks s1 post) k hh ha2 hp2
      have hcd : cut_due (run_ticks s1 post) k = cut_due s1 k :=
        cut_due_congr _ _ k (hp2.trans hp.symm) he2 hd2
      refine ⟨?_, ?_⟩
      · rw [ht.1, hcd]
        constructor
        · intro hc j hj
          rcases List.mem_append.1 hj with h | h
          · exact (ih.1.1 hh) j h
          · rw [List.mem_singleton.1 h]; exact hc
        · intro hall
          exact hall k (by simp)
      · intro _
        exact ⟨ht.2.1, ht.2.2.1, ht.2.2.2.1.trans he2, ht.2.2.2.2.1.trans hd2⟩
    · rw [loop_tick_halted _ k hh]
      refine ⟨?_, ?_⟩
      · constructor
        · intro hc
          rw [hh] at hc
          exact absurd hc (by simp)
        · intro hall
          have := ih.1.2 (fun j hj => hall j (List.mem_append_left _ hj))
          rw [hh] at this
          exact absurd this (by simp)
      · intro hc
        rw [hh] at hc
        exact absurd hc (by simp)

/-- The state a pass that requests the shutdown leaves, the deadline computed
at the request not wrapping around: the loop goes on with the cut pending,
the earliest cut 100 ms and the deadline 320 ms after the pass. -/
theorem request_state (S : LoopState) (t : TickInput) (hreq : requests_shutdown S t)
    (hfit : t.now_ms + POWER_CUT_DEADLINE_MS < 2 ^ 32) :
    (loop_tick S t).halted = false ∧ (loop_tick S t).power_events_armed = true ∧
    (loop_tick S t).power_cut_pending = true ∧
    (loop_tick S t).power_cut_earliest_ms = t.now_ms + POWER_CUT_EARLIEST_MS ∧
    (loop_tick S t).power_cut_deadline_ms = t.now_ms + POWER_CUT_DEADLINE_MS := by
  have hc := (requests_shutdown_iff S t).1 hreq
  have hq := (hold_reached_iff S t).1 hc.1
  have hb := before_press_frame S t
  have hpr := press_step_request (before_press S t) t
  rw [hb.2.1] at hpr
  have hk := hpr.1 ⟨hq.2.1, hq.2.2.1, hq.2.2.2, hc.2.1, hc.2.2⟩
  have f := power_fields (loop_tick_read S t hq.1)
  have he : add32 t.now_ms POWER_CUT_EARLIEST_MS = t.now_ms + POWER_CUT_EARLIEST_MS := by
    unfold add32
    apply Nat.mod_eq_of_lt
    have : POWER_CUT_EARLIEST_MS ≤ POWER_CUT_DEADLINE_MS := by decide
    omega
  have hd : add32 t.now_ms POWER_CUT_DEADLINE_MS = t.now_ms + POWER_CUT_DEADLINE_MS := by
    unfold add32
    exact Nat.mod_eq_of_lt hfit
  have hcut : cut_due (press_step (before_press S t) t) t = false := by
    cases hcd : cut_due (press_step (before_press S t) t) t
    · rfl
    · have := (cut_due_iff _ t hk.1).1 hcd
      rw [hk.2.1, hk.2.2.1, he, hd] at this
      have h1 : 0 < POWER_CUT_EARLIEST_MS := by decide
      have h2 : 0 < POWER_CUT_DEADLINE_MS := by decide
      omega
  refine ⟨((loop_tick_log S t (reads_button_not_halted hq.1)).2.2 hq.1 hcut).2.1,
    (loop_tick_read_idle S t hq.1).1, by rw [f.2.2.2.2.2.2.2.2.1, hk.1],
    by rw [f.2.2.2.2.2.2.2.2.2.1, hk.2.1, he], by rw [f.2.2.2.2.2.2.2.2.2.2, hk.2.2.1, hd]⟩

/-- C21: after a pass at time `t` has requested the shutdown (`t + 320` not
wrapping around), the loop goes on with the earliest cut at `t + 100` and the
deadline at `t + 320`; the loop is still running after later passes exactly
when none of them found `now ≥ t + 320` or audio idle with `now ≥ t + 100`;
and a pass of the running loop commits the power cut (and stops the loop)
exactly when it finds `now ≥ t + 320` or audio idle with `now ≥ t + 100`,
its calls being then the UI update and `power_manager_commit_power_off`. -/
theorem C21_cut_committed_iff (S : LoopState) (t : TickInput) (post : List TickInput)
    (i : TickInput) (hreq : requests_shutdown S t)
    (hfit : t.now_ms + POWER_CUT_DEADLINE_MS < 2 ^ 32) :
    (loop_tick S t).halted = false ∧
    (loop_tick S t).power_cut_earliest_ms = t.now_ms + POWER_CUT_EARLIEST_MS ∧
    (loop_tick S t).power_cut_deadline_ms = t.now_ms + POWER_CUT_DEADLINE_MS ∧
    ((run_ticks (loop_tick S t) post).halted = false ↔
      ∀ k ∈ post, ¬ (t.now_ms + POWER_CUT_DEADLINE_MS ≤ k.now_ms ∨
        (k.audio_idle = true ∧ t.now_ms + POWER_CUT_EARLIEST_MS ≤ k.now_ms))) ∧
    ((run_ticks (loop_tick S t) post).halted = false →
      ((loop_tick (run_ticks (loop_tick S t) post) i).halted = true ↔
        (t.now_ms + POWER_CUT_DEADLINE_MS ≤ i.now_ms ∨
          (i.audio_idle = true ∧ t.now_ms + POWER_CUT_EARLIEST_MS ≤ i.now_ms))) ∧
      ((loop_tick (run_ticks (loop_tick S t) post) i).halted = true →
        (loop_tick (run_ticks (loop_tick S t) post) i).log =
          (run_ticks (loop_tick S t) post).log ++ [.process_ui, .commit_power_off]) ∧
      ((loop_tick (run_ticks (loop_tick S t) post) i).halted = false →
        ∃ added, (loop_tick (run_ticks (loop_tick S t) post) i).log =
            (run_ticks (loop_tick S t) post).log ++ added ∧
          LoopEvent.commit_power_off ∉ added)) := by
  obtain ⟨h1, ha, hp, he, hd⟩ := request_state S t hreq hfit
  have hrun := pending_run (loop_tick S t) h1 ha hp post
  have hiff : ∀ k : TickInput, cut_due (loop_tick S t) k = true ↔
      (t.now_ms + POWER_CUT_DEADLINE_MS ≤ k.now_ms ∨
        (k.audio_idle = true ∧ t.now_ms + POWER_CUT_EARLIEST_MS ≤ k.now_ms)) := by
    intro k
    rw [cut_due_iff _ k hp, he, hd]
  refine ⟨h1, he, hd, ?_, ?_⟩
  · rw [hrun.1]
    constructor
    · intro hall k hk hc
      have := hall k hk
      rw [(hiff k).2 hc] at this
      exact absurd this (by simp)
    · intro hall k hk
      cases hc : cut_due (loop_tick S t) k
      · rfl
      · exact absurd ((hiff k).1 hc) (hall k hk)
  · intro hh
    obtain ⟨ha2, hp2, he2, hd2⟩ := hrun.2 hh
    have ht := loop_tick_pending (run_ticks (loop_tick S t) post) i hh ha2 hp2
    have hcd : cut_due (run_ticks (loop_tick S t) post) i = cut_due (loop_tick S t) i :=
      cut_due_congr _ _ i (hp2.trans hp.symm) he2 hd2
    refine ⟨?_, ?_, ?_⟩
    · rw [ht.1, hcd]
      exact hiff i
    · intro hc
      rw [ht.1] at hc
      exact ht.2.2.2.2.2.1 hc
    · intro hc
      rw [ht.1] at hc
      refine ⟨_, (by rw [ht.2.2.2.2.2.2 hc, List.append_assoc, List.append_assoc]), ?_⟩
      unfold boot_calls
      split <;> simp

set_option maxRecDepth 100000 in
/-- C21 at a concrete run: the shutdown is requested at 5000 ms; the passes
at 5050 ms (audio idle, before the earliest cut), 5100 ms and 5200 ms (audio
busy) leave the loop running, and the pass at 5250 ms, the first to find
audio idle after 5100 ms, commits the cut. -/
theorem C21_cut_committed_iff_witness :
    requests_shutdown
      (run_ticks (setup false false 50 50)
        [tickAt 3100 false false, tickAt 4400 false false, tickAt 4500 true false])
      (tickAt 5000 true false) ∧
    (run_ticks
      (loop_tick
        (run_ticks (setup false false 50 50)
          [tickAt 3100 false false, tickAt 4400 false false, tickAt 4500 true false])
        (tickAt 5000 true false))
      [tickWith 5050 false false true false, tickWith 5100 false false false false,
        tickWith 5200 false false false false]).halted = false ∧
    (loop_tick
      (run_ticks
        (loop_tick
          (run_ticks (setup false false 50 50)
            [tickAt 3100 false false, tickAt 4400 false false, tickAt 4500 true false])
          (tickAt 5000 true false))
        [tickWith 5050 false false true false, tickWith 5100 false false false false,
          tickWith 5200 false false false false])
      (tickWith 5250 false false true false)).halted = true :=
  ⟨by decide!, by decide!,
   ((C21_cut_committed_iff
      (run_ticks (setup false false 50 50)
        [tickAt 3100 false false, tickAt 4400 false false, tickAt 4500 true false])
      (tickAt 5000 true false)
      [tickWith 5050 false false true false, tickWith 5100 false false false false,
        tickWith 5200 false false false false]
      (tickWith 5250 false false true false) (by decide!) (by decide)).2.2.2.2
      (by decide!)).1.2 (Or.inr ⟨rfl, by decide⟩)⟩

/-- C26: once `power_cut_pending` is set, no run of later passes changes it
or the two cut times, whatever the passes read; the calls they add to the
trace hold neither `power_manager_off_request` nor
`audio_feedback_play_shutdown`, and no pass after them requests the shutdown
again. -/
theorem C26_pending_cut_is_frozen (s : LoopState) (post : List TickInput)
    (hp : s.power_cut_pending = true) :
    (run_ticks s post).power_cut_pending = true ∧
    (run_ticks s post).power_cut_earliest_ms = s.power_cut_earliest_ms ∧
    (run_ticks s post).power_cut_deadline_ms = s.power_cut_deadline_ms ∧
    (∃ added, (run_ticks s post).log = s.log ++ added ∧
      LoopEvent.off_request ∉ added ∧ LoopEvent.play_shutdown ∉ added) ∧
    ∀ i : TickInput, ¬ requests_shutdown (run_ticks s post) i := by
  have key : (run_ticks s post).power_cut_pending = true ∧
      (run_ticks s post).power_cut_earliest_ms = s.power_cut_earliest_ms ∧
      (run_ticks s post).power_cut_deadline_ms = s.power_cut_deadline_ms ∧
      (∃ added, (run_ticks s post).log = s.log ++ added ∧
        LoopEvent.off_request ∉ added ∧ LoopEvent.play_shutdown ∉ added) := by
    induction post using List.reverseRecOn with
    | nil =>
      rw [run_ticks_nil]
      exact ⟨hp, rfl, rfl, [], by simp, by simp, by simp⟩
    | append_singleton post k ih =>
      obtain ⟨h1, h2, h3, added, h4, h5, h6⟩ := ih
      rw [run_ticks_snoc]
      obtain ⟨q1, q2, q3, more, q4, q5, q6⟩ := loop_tick_quiet_log (run_ticks s post) k (by
        intro hc
        rw [hold_reached_of_pending _ k h1] at hc
        exact absurd hc.1 (by simp))
      refine ⟨q1.trans h1, q2.trans h2, q3.trans h3, added ++ more, ?_, ?_, ?_⟩
      · rw [q4, h4, List.append_assoc]
      · intro hm
        rcases List.mem_append.1 hm with h | h
        · exact h5 h
        · exact q5 h
      · intro hm
        rcases List.mem_append.1 hm with h | h
        · exact h6 h
        · exact q6 h
  refine ⟨key.1, key.2.1, key.2.2.1, key.2.2.2, ?_⟩
  intro i hreq
  have h0 : (run_ticks s post).power_cut_pending = false := hreq.1
  rw [key.1] at h0
  exact absurd h0 (by simp)

set_option maxRecDepth 100000 in
/-- C26 at a concrete run: the shutdown is requested at 5000 ms and the
button stays pressed with USB absent for two more passes, 600 ms long. -/
theorem C26_pending_cut_is_frozen_witness :
    (loop_tick
      (run_ticks (setup false false 50 50)
        [tickAt 3100 false false, tickAt 4400 false false, tickAt 4500 true false])
      (tickAt 5000 true false)).power_cut_pending = true ∧
    (run_ticks
      (loop_tick
        (run_ticks (setup false false 50 50)
          [tickAt 3100 false false, tickAt 4400 false false, tickAt 4500 true false])
        (tickAt 5000 true false))
      [tickAt 5010 true false, tickAt 5020 true false]).power_cut_deadline_ms = 5320 :=
  ⟨by decide!,
   (C26_pending_cut_is_frozen
      (loop_tick
        (run_ticks (setup false false 50 50)
          [tickAt 3100 false false, tickAt 4400 false false, tickAt 4500 true false])
        (tickAt 5000 true false))
      [tickAt 5010 true false, tickAt 5020 true false] (by decide!)).2.2.1.trans (by decide!)⟩

/-! ## Arming, the BOOT button and the delays of a pass -/

theorem drop_after {α : Type} (l : List α) (a : α) (rest : List α) :
    (l ++ a :: rest).drop (l.length + 1) = rest := by
  induction l with
  | nil => rfl
  | cons x l _ => simp

/-- The calls a pass adds after the UI update, by its three outcomes. -/
theorem tick_added_eq (s : LoopState) (i : TickInput) (hh : s.halted = false) :
    (loop_tick s i).log = s.log ++ .process_ui :: tick_added s i ∧
    (reads_button s i = false → tick_added s i = [.delay LOOP_DELAY_MS]) ∧
    (reads_button s i = true → (loop_tick s i).halted = true →
      tick_added s i = power_calls s i ++ [.commit_power_off]) ∧
    (reads_button s i = true → (loop_tick s i).halted = false →
      tick_added s i = power_calls s i ++ boot_calls s i ++ [.delay LOOP_DELAY_MS]) := by
  have hl := loop_tick_log s i hh
  unfold tick_added
  cases hr : reads_button s i
  · have h := (hl.1 hr).1
    have e : (loop_tick s i).log = s.log ++ .process_ui :: [.delay LOOP_DELAY_MS] := by
      rw [h]
    rw [e, drop_after]
    exact ⟨rfl, fun _ => rfl, fun h2 => absurd h2 (by simp), fun h2 => absurd h2 (by simp)⟩
  · cases hc : cut_due (press_step (before_press s i) i) i
    · have h := hl.2.2 hr hc
      have e : (loop_tick s i).log =
          s.log ++ .process_ui :: (power_calls s i ++ boot_calls s i ++ [.delay LOOP_DELAY_MS]) := by
        rw [h.1]
        simp
      rw [e, drop_after]
      refine ⟨rfl, fun h2 => absurd h2 (by simp), ?_, fun _ _ => rfl⟩
      intro _ h3
      rw [h.2.1] at h3
      exact absurd h3 (by simp)
    · have h := hl.2.1 hr hc
      have e : (loop_tick s i).log =
          s.log ++ .process_ui :: (power_calls s i ++ [.commit_power_off]) := by
        rw [h.1]
        simp
      rw [e, drop_after]
      refine ⟨rfl, fun h2 => absurd h2 (by simp), fun _ _ => rfl, ?_⟩
      intro _ h3
      rw [h.2.1] at h3
      exact absurd h3 (by simp)

/-- The calls of the long-press tracking are those of a shutdown request:
made in full by a pass that requests the shutdown, none in any other pass. -/
theorem power_calls_request (s : LoopState) (i : TickInput) :
    (requests_shutdown s i →
      power_calls s i = [.off_request, .set_upduty true, .play_shutdown]) ∧
    (¬ requests_shutdown s i → power_calls s i = []) := by
  rw [power_calls_eq, requests_shutdown_iff]
  constructor
  · intro h
    rw [if_pos h]
  · intro h
    rw [if_neg h]

/-- A stopped loop was armed: the power cut is only committed by a pass that
reads the button. -/
theorem run_halted_armed (s0 : LoopState) (h0 : s0.halted = false) :
    ∀ pre : List TickInput,
      (run_ticks s0 pre).halted = true → (run_ticks s0 pre).power_events_armed = true := by
  intro pre
  induction pre using List.reverseRecOn with
  | nil =>
    intro h
    rw [run_ticks_nil, h0] at h
    exact absurd h (by simp)
  | append_singleton pre k ih =>
    rw [run_ticks_snoc]
    intro h
    cases hh : (run_ticks s0 pre).halted
    · cases hr : reads_button (run_ticks s0 pre) k
      · rw [(loop_tick_unread _ k hh hr).2.2.1] at h
        exact absurd h (by simp)
      · exact (loop_tick_read_idle _ k hr).1
    · rw [loop_tick_halted _ k hh]
      exact ih hh

set_option maxRecDepth 100000 in
/-- C22 (counterexample): booted at 50 ms, a pass at 3100 ms, after the arm
delay, with the application not yet scanning leaves the sequencer unarmed;
and with the application scanning and the button released the pass ends
armed with the seen-release flag set, not cleared. -/
theorem C22_arm_delay_alone_does_not_arm :
    50 + POWER_EVENTS_ARM_DELAY_MS ≤ 3100 ∧
    (loop_tick (setup false false 50 50)
      { tickAt 3100 false false with app_scanning := false }).power_events_armed = false ∧
    (loop_tick (setup false false 50 50) (tickAt 3100 false false)).power_events_armed = true ∧
    (loop_tick (setup false false 50 50)
      (tickAt 3100 false false)).power_seen_released_since_arm = true := by
  decide!

/-- C22 (amended): the arm deadline being the setup read of `millis()` plus
3000 ms (8000 ms after an external reset), fitting a `uint32_t`: an armed
sequencer stays armed; an unarmed one is armed at the end of a pass exactly
when the pass finds the application scanning and `millis()` at or past the
arm deadline.  The arming block then leaves the seen-release and idle-stable
flags cleared and the idle timer at its second read of `millis()`, and the
power block of the same pass goes on from there: at the end of the pass the
seen-release flag tells whether the button read released, the idle timer is
the time of the pass if it read pressed, and idle stability is only reached
if it read released 1200 ms after the arming. -/
theorem C22_armed_once_scanning (ext_reset usb0 : Bool) (millis_arm millis_guard : Nat)
    (pre : List TickInput) (i : TickInput)
    (hfit : millis_arm +
      (if ext_reset then POWER_EVENTS_ARM_DELAY_EXT_RESET_MS else POWER_EVENTS_ARM_DELAY_MS) <
        2 ^ 32) :
    ((run_ticks (setup ext_reset usb0 millis_arm millis_guard) pre).power_events_armed = true →
      (loop_tick (run_ticks (setup ext_reset usb0 millis_arm millis_guard) pre) i).power_events_armed =
        true) ∧
    ((run_ticks (setup ext_reset usb0 millis_arm millis_guard) pre).power_events_armed = false →
      ((loop_tick (run_ticks (setup ext_reset usb0 millis_arm millis_guard) pre) i).power_events_armed =
          true ↔
        (i.app_scanning = true ∧
          millis_arm +
            (if ext_reset then POWER_EVENTS_ARM_DELAY_EXT_RESET_MS
              else POWER_EVENTS_ARM_DELAY_MS) ≤ i.millis_check)) ∧
      (i.app_scanning = true →
        millis_arm +
          (if ext_reset then POWER_EVENTS_ARM_DELAY_EXT_RESET_MS
            else POWER_EVENTS_ARM_DELAY_MS) ≤ i.millis_check →
        (arm_step ((run_ticks (setup ext_reset usb0 millis_arm millis_guard) pre).emit .process_ui)
          i).power_seen_released_since_arm = false ∧
        (arm_step ((run_ticks (setup ext_reset usb0 millis_arm millis_guard) pre).emit .process_ui)
          i).power_idle_stable = false ∧
        (arm_step ((run_ticks (setup ext_reset usb0 millis_arm millis_guard) pre).emit .process_ui)
          i).power_idle_since_ms = i.millis_stamp ∧
        (loop_tick (run_ticks (setup ext_reset usb0 millis_arm millis_guard) pre)
          i).power_seen_released_since_arm = !i.sys_out_low ∧
        (loop_tick (run_ticks (setup ext_reset usb0 millis_arm millis_guard) pre)
          i).power_idle_since_ms = (if i.sys_out_low then i.now_ms else i.millis_stamp) ∧
        ((loop_tick (run_ticks (setup ext_reset usb0 millis_arm millis_guard) pre)
            i).power_idle_stable = true ↔
          (i.sys_out_low = false ∧
            POWER_IDLE_STABLE_MS ≤ sub32 i.now_ms i.millis_stamp)))) := by
  have hs := setup_fields ext_reset usb0 millis_arm millis_guard
  have hconst := (run_ticks_consts pre (setup ext_reset usb0 millis_arm millis_guard)).1
  have hD : (run_ticks (setup ext_reset usb0 millis_arm millis_guard) pre).ignore_power_events_until_ms =
      millis_arm +
        (if ext_reset then POWER_EVENTS_ARM_DELAY_EXT_RESET_MS else POWER_EVENTS_ARM_DELAY_MS) := by
    rw [hconst, hs.1]
    unfold add32
    exact Nat.mod_eq_of_lt hfit
  refine ⟨loop_tick_armed _ i, ?_⟩
  intro hna
  have hh : (run_ticks (setup ext_reset usb0 millis_arm millis_guard) pre).halted = false := by
    cases hc : (run_ticks (setup ext_reset usb0 millis_arm millis_guard) pre).halted
    · rfl
    · have := run_halted_armed _ hs.2.2.2.2.2.2.2.2.2.1 pre hc
      rw [hna] at this
      exact absurd this (by simp)
  have harm := arm_step_arming
    ((run_ticks (setup ext_reset usb0 millis_arm millis_guard) pre).emit .process_ui) i hna
  have hig : ((run_ticks (setup ext_reset usb0 millis_arm millis_guard) pre).emit
      .process_ui).ignore_power_events_until_ms =
      millis_arm +
        (if ext_reset then POWER_EVENTS_ARM_DELAY_EXT_RESET_MS else POWER_EVENTS_ARM_DELAY_MS) := hD
  rw [hig] at harm
  have hreads : reads_button (run_ticks (setup ext_reset usb0 millis_arm millis_guard) pre) i =
      (arm_step ((run_ticks (setup ext_reset usb0 millis_arm millis_guard) pre).emit .process_ui)
        i).power_events_armed := by
    unfold reads_button
    rw [hh]
    simp
  constructor
  · rw [← harm.1]
    constructor
    · intro h
      cases hr : reads_button (run_ticks (setup ext_reset usb0 millis_arm millis_guard) pre) i
      · have f := power_fields (loop_tick_unread _ i hh hr).1
        rw [f.2.1, hna] at h
        exact absurd h (by simp)
      · rw [← hreads, hr]
    · intro h
      rw [← hreads] at h
      exact (loop_tick_read_idle _ i h).1
  · intro hsc hdl
    have ha := harm.1.2 ⟨hsc, hdl⟩
    have hr : reads_button (run_ticks (setup ext_reset usb0 millis_arm millis_guard) pre) i =
        true := by rw [hreads, ha]
    obtain ⟨h1, h2, h3⟩ := harm.2.1 ha
    have hid := loop_tick_read_idle _ i hr
    have hlv := loop_tick_read_level _ i hr
    refine ⟨h1, h2, h3, ?_, ?_, ?_⟩
    · rw [hid.2.1]
      unfold before_press
      cases hl : i.sys_out_low
      · rw [(idle_step_released _ i hl).2.1]
        rfl
      · rw [(idle_step_pressed _ i hl).2.2, h1]
        rfl
    · cases hl : i.sys_out_low
      · rw [(hlv.2 hl).1, h3]
        simp
      · rw [(hlv.1 hl).1]
        simp
    · cases hl : i.sys_out_low
      · rw [(hlv.2 hl).2, h2, h3]
        simp
      · rw [(hlv.1 hl).2, h2]
        simp

set_option maxRecDepth 100000 in
/-- C22 at a concrete run: booted at 50 ms, the first pass at 3100 ms with
the application scanning and the button pressed arms the sequencer. -/
theorem C22_armed_once_scanning_witness :
    (run_ticks (setup false false 50 50) []).power_events_armed = false ∧
    (loop_tick (run_ticks (setup false false 50 50) [])
      (tickAt 3100 true false)).power_events_armed = true ∧
    (loop_tick (run_ticks (setup false false 50 50) [])
      (tickAt 3100 true false)).power_seen_released_since_arm = !(tickAt 3100 true false).sys_out_low :=
  ⟨by decide,
   (((C22_armed_once_scanning false false 50 50 [] (tickAt 3100 true false) (by decide)).2
      (by decide)).1).2 ⟨rfl, by decide⟩,
   (((C22_armed_once_scanning false false 50 50 [] (tickAt 3100 true false) (by decide)).2
      (by decide)).2 rfl (by decide)).2.2.2.1⟩

set_option maxRecDepth 100000 in
/-- C23 (counterexample): a pass at 100 ms, before the sequencer is armed,
reads nothing of the BOOT button: with the button pressed and the pressed
flag clear, the flag stays clear, the lock is not toggled and the backlight
is not touched. -/
theorem C23_boot_button_ignored_before_arming :
    (tickWith 100 false false false true).boot_low = true ∧
    (setup false false 50 50).boot_btn_pressed = false ∧
    (loop_tick (setup false false 50 50)
      (tickWith 100 false false false true)).boot_btn_pressed = false ∧
    (loop_tick (setup false false 50 50)
      (tickWith 100 false false false true)).screen_locked = false ∧
    (loop_tick (setup false false 50 50) (tickWith 100 false false false true)).log =
      [.process_ui, .delay LOOP_DELAY_MS] := by
  decide!

/-- C23 (amended): the BOOT button block runs in the passes that read the
power button (sequencer armed, loop running) and do not commit the power cut.
In such a pass the pressed flag becomes the level read.  A press read with
the flag clear toggles the lock, and the calls of the pass after the UI
update are those of the long-press tracking, then the debounce delay of
500 ms, then one backlight call for the new lock state, then the closing
delay.  A press read with the flag set and a release leave the lock alone,
and the pass makes no call for the BOOT button.  In every other pass the
pressed flag and the lock are left as they were and no call is made for the
BOOT button.  The calls of the long-press tracking are the off request, the
backlight call of its body and the shutdown cue in a pass that requests the
shutdown, and none otherwise. -/
theorem C23_boot_button_block (s : LoopState) (i : TickInput) :
    (requests_shutdown s i →
      power_calls s i = [.off_request, .set_upduty true, .play_shutdown]) ∧
    (¬ requests_shutdown s i → power_calls s i = []) ∧
    (reads_button s i = true → (loop_tick s i).halted = false →
      (loop_tick s i).boot_btn_pressed = i.boot_low ∧
      (i.boot_low = true → s.boot_btn_pressed = false →
        (loop_tick s i).screen_locked = (!s.screen_locked) ∧
        tick_added s i =
          power_calls s i ++
            [.delay BOOT_DEBOUNCE_MS, .set_upduty (!s.screen_locked), .delay LOOP_DELAY_MS]) ∧
      (i.boot_low = true → s.boot_btn_pressed = true →
        (loop_tick s i).screen_locked = s.screen_locked ∧
        tick_added s i = power_calls s i ++ [.delay LOOP_DELAY_MS]) ∧
      (i.boot_low = false →
        (loop_tick s i).screen_locked = s.screen_locked ∧
        tick_added s i = power_calls s i ++ [.delay LOOP_DELAY_MS])) ∧
    ((reads_button s i = false ∨ (loop_tick s i).halted = true) →
      (loop_tick s i).boot_btn_pressed = s.boot_btn_pressed ∧
      (loop_tick s i).screen_locked = s.screen_locked ∧
      (tick_added s i = [] ∨ tick_added s i = [.delay LOOP_DELAY_MS] ∨
        tick_added s i = power_calls s i ++ [.commit_power_off])) := by
  refine ⟨(power_calls_request s i).1, (power_calls_request s i).2, ?_, ?_⟩
  · intro hr hnh
    have hh := reads_button_not_halted hr
    have hl := loop_tick_log s i hh
    have hc : cut_due (press_step (before_press s i) i) i = false := by
      cases hcd : cut_due (press_step (before_press s i) i) i
      · rfl
      · rw [(hl.2.1 hr hcd).2.1] at hnh
        exact absurd hnh (by simp)
    have h := hl.2.2 hr hc
    have ha := (tick_added_eq s i hh).2.2.2 hr hnh
    refine ⟨h.2.2.1, ?_, ?_, ?_⟩
    · intro hlow hb
      rw [h.2.2.2, ha]
      simp [boot_calls, hlow, hb]
    · intro hlow hb
      rw [h.2.2.2, ha]
      simp [boot_calls, hlow, hb]
    · intro hlow
      rw [h.2.2.2, ha]
      simp [boot_calls, hlow]
  · intro hcase
    cases hh : s.halted
    · have hl := loop_tick_log s i hh
      have hta := tick_added_eq s i hh
      cases hr : reads_button s i
      · have h := hl.1 hr
        exact ⟨h.2.2.1, h.2.2.2, Or.inr (Or.inl (hta.2.1 hr))⟩
      · have hhalt : (loop_tick s i).halted = true := by
          rcases hcase with h | h
          · rw [hr] at h
            exact absurd h (by simp)
          · exact h
        have hc : cut_due (press_step (before_press s i) i) i = true := by
          cases hcd : cut_due (press_step (before_press s i) i) i
          · rw [(hl.2.2 hr hcd).2.1] at hhalt
            exact absurd hhalt (by simp)
          · rfl
        have h := hl.2.1 hr hc
        exact ⟨h.2.2.1, h.2.2.2, Or.inr (Or.inr (hta.2.2.1 hr hhalt))⟩
    · unfold tick_added
      rw [loop_tick_halted s i hh]
      refine ⟨rfl, rfl, Or.inl ?_⟩
      rw [List.drop_of_length_le (by omega)]

set_option maxRecDepth 100000 in
/-- C23 at a concrete run: the pass at 5000 ms requests the shutdown and
reads the BOOT button pressed for the first time.  It sets the pressed flag
and locks the screen; its calls are the off request with its backlight call,
the shutdown cue, the debounce delay, the backlight call of the lock and the
closing delay. -/
theorem C23_boot_button_block_witness :
    reads_button
      (run_ticks (setup false false 50 50)
        [tickAt 3100 false false, tickAt 4400 false false, tickAt 4500 true false])
      (tickWith 5000 true false false true) = true ∧
    (loop_tick
      (run_ticks (setup false false 50 50)
        [tickAt 3100 false false, tickAt 4400 false false, tickAt 4500 true false])
      (tickWith 5000 true false false true)).boot_btn_pressed = true ∧
    (loop_tick
      (run_ticks (setup false false 50 50)
        [tickAt 3100 false false, tickAt 4400 false false, tickAt 4500 true false])
      (tickWith 5000 true false false true)).screen_locked = true ∧
    tick_added
      (run_ticks (setup false false 50 50)
        [tickAt 3100 false false, tickAt 4400 false false, tickAt 4500 true false])
      (tickWith 5000 true false false true) =
      [.off_request, .set_upduty true, .play_shutdown, .delay BOOT_DEBOUNCE_MS,
        .set_upduty true, .delay LOOP_DELAY_MS] :=
  ⟨by decide!,
   ((C23_boot_button_block
      (run_ticks (setup false false 50 50)
        [tickAt 3100 false false, tickAt 4400 false false, tickAt 4500 true false])
      (tickWith 5000 true false false true)).2.2.1 (by decide!) (by decide!)).1,
   ((((C23_boot_button_block
      (run_ticks (setup false false 50 50)
        [tickAt 3100 false false, tickAt 4400 false false, tickAt 4500 true false])
      (tickWith 5000 true false false true)).2.2.1 (by decide!) (by decide!)).2.1 rfl
      (by decide!)).1).trans (by decide!),
   ((((C23_boot_button_block
      (run_ticks (setup false false 50 50)
        [tickAt 3100 false false, tickAt 4400 false false, tickAt 4500 true false])
      (tickWith 5000 true false false true)).2.2.1 (by decide!) (by decide!)).2.1 rfl
      (by decide!)).2).trans (by decide!)⟩

theorem track_step_untracked (st : SweepTrack × Bool) (c : RfCall)
    (h : c.isTracked = false) : track_step st c = st := by
  cases c <;> simp_all [RfCall.isTracked, track_step]

theorem foldl_untracked (l : List RfCall) :
    ∀ st : SweepTrack × Bool, (∀ c ∈ l, c.isTracked = false) → l.foldl track_step st = st := by
  induction l with
  | nil => intro st _; rfl
  | cons c l ih =>
    intro st h
    rw [List.foldl_cons, track_step_untracked st c (h c (by simp))]
    exact ih st (fun d hd => h d (List.mem_cons_of_mem _ hd))

theorem track_bad (l : List RfCall) :
    ∀ tr : SweepTrack, (l.foldl track_step (tr, false)).2 = false := by
  induction l with
  | nil => intro tr; rfl
  | cons c l ih =>
    intro tr
    rw [List.foldl_cons]
    have h : track_step (tr, false) c = ((track_step (tr, false) c).1, false) := by
      cases c <;> simp [track_step]
    rw [h]
    exact ih _

/-- Reading calls that are neither a sweep nor a scan, after a sweep: the
standing stays off `clear`, and reaches `restored` only through a restore. -/
theorem foldl_between (mid : List RfCall) (h : ∀ c ∈ mid, c.isRadioOp = false) :
    ∀ (tr : SweepTrack) (g : Bool), tr ≠ .clear →
      (mid.foldl track_step (tr, g)).2 = g ∧
      (mid.foldl track_step (tr, g)).1 ≠ .clear ∧
      ((mid.foldl track_step (tr, g)).1 = .restored →
        tr = .restored ∨ RfCall.restore_scan_mode ∈ mid) := by
  induction mid with
  | nil =>
    intro tr g hne
    exact ⟨rfl, hne, fun h2 => Or.inl h2⟩
  | cons c mid ih =>
    intro tr g hne
    have hc := h c (by simp)
    have hrest : ∀ d ∈ mid, d.isRadioOp = false := fun d hd => h d (List.mem_cons_of_mem _ hd)
    rw [List.foldl_cons]
    by_cases hr : c = .restore_scan_mode
    · subst hr
      have e : track_step (tr, g) .restore_scan_mode = (.restored, g) := by
        cases tr <;> simp_all [track_step]
      rw [e]
      obtain ⟨h1, h2, _⟩ := ih hrest .restored g (by simp)
      exact ⟨h1, h2, fun _ => Or.inr (by simp)⟩
    · have hu : c.isTracked = false := by
        cases c <;> simp_all [RfCall.isTracked, RfCall.isRadioOp]
      rw [track_step_untracked _ c hu]
      obtain ⟨h1, h2, h3⟩ := ih hrest tr g hne
      refine ⟨h1, h2, ?_⟩
      intro h4
      rcases h3 h4 with h5 | h5
      · exact Or.inl h5
      · exact Or.inr (List.mem_cons_of_mem _ h5)

/-- A trace read without fault has a restore between every sweep and the
scan that follows it, and that scan found the flag set. -/
theorem track_good_split (calls : List RfCall) (st : SweepTrack × Bool)
    (hgood : (calls.foldl track_step st).2 = true)
    (a : List RfCall) (ok : Bool) (mid : List RfCall) (flag : Bool) (b : List RfCall)
    (hsplit : calls = a ++ .capture_sweep ok :: (mid ++ .scan_once flag :: b))
    (hmid : ∀ c ∈ mid, c.isRadioOp = false) :
    RfCall.restore_scan_mode ∈ mid ∧ flag = true := by
  subst hsplit
  rw [List.foldl_append, List.foldl_cons, List.foldl_append, List.foldl_cons] at hgood
  have hsw : track_step (List.foldl track_step st a) (.capture_sweep ok) =
      (.swept, (List.foldl track_step st a).2) := rfl
  rw [hsw] at hgood
  obtain ⟨h1, h2, h3⟩ := foldl_between mid hmid .swept (List.foldl track_step st a).2 (by simp)
  generalize hm : List.foldl track_step (SweepTrack.swept, (List.foldl track_step st a).2) mid = m
    at hgood h1 h2 h3
  obtain ⟨tr, g⟩ := m
  cases hg : (g && decide (tr ≠ .swept) && (decide (tr ≠ .restored) || flag))
  · have e : track_step (tr, g) (.scan_once flag) = (.clear, false) := by
      simp only [track_step]
      rw [hg]
    rw [e, track_bad] at hgood
    exact absurd hgood (by simp)
  · simp only [Bool.and_eq_true, Bool.or_eq_true, decide_eq_true_eq] at hg
    have htr : tr = .restored := by
      cases tr
      · exact absurd rfl h2
      · exact absurd rfl hg.1.2
      · rfl
    constructor
    · rcases h3 htr with h | h
      · exact absurd h (by simp)
      · exact h
    · rcases hg.2 with h | h
      · exact absurd htr h
      · exact h

theorem track_append (calls extra : List RfCall) :
    track (calls ++ extra) = extra.foldl track_step (track calls) := by
  unfold track
  rw [List.foldl_append]

theorem rf_restore_facts (t : RfTask) :
    (rf_restore t).calls = t.calls ++ [.restore_scan_mode] ∧
    (rf_restore t).mgr.g_need_scan_reinit = true ∧
    (rf_restore t).was_spectrum_mode = t.was_spectrum_mode := ⟨rfl, rfl, rfl⟩

theorem rf_sweep_facts (t : RfTask) :
    (rf_sweep t).was_spectrum_mode = t.was_spectrum_mode ∧
    ∃ ok extra, (rf_sweep t).calls = t.calls ++ .capture_sweep ok :: extra ∧
      ∀ c ∈ extra, c.isTracked = false := by
  unfold rf_sweep
  generalize cc1101_manager_capture_sweep t.mgr SWEEP_START_MHZ SWEEP_END_MHZ
    SWEEP_SAMPLE_COUNT (some Cc1101SweepResult.zero) = out
  obtain ⟨ok, res, st⟩ := out
  cases ok
  · exact ⟨rfl, false, [], rfl, by simp⟩
  · cases res with
    | none => exact ⟨rfl, true, [], rfl, by simp⟩
    | some sweep =>
      exact ⟨rfl, true, [.queue_spectrum_update sweep], by simp [rf_publish, RfTask.call],
        by simp [RfCall.isTracked]⟩

theorem rf_after_scan_facts (t : RfTask) (i : RfInput) (result : Cc1101ScanResult) :
    (rf_after_scan t i result).was_spectrum_mode = t.was_spectrum_mode ∧
    (rf_after_scan t i result).mgr = t.mgr ∧
    ∃ extra, (rf_after_scan t i result).calls = t.calls ++ extra ∧
      ∀ c ∈ extra, c.isTracked = false := by
  unfold rf_after_scan
  split
  · simp only []
    split
    · exact ⟨rfl, rfl,
        [.set_last_signal result.detected_freq_mhz result.detected_rssi_dbm result.is_fsk,
          .queue_detection result.detected_freq_mhz result.detected_rssi_dbm result.is_fsk,
          .play_detect],
        by simp [RfTask.call], by simp [RfCall.isTracked]⟩
    · exact ⟨rfl, rfl,
        [.set_last_signal result.detected_freq_mhz result.detected_rssi_dbm result.is_fsk,
          .queue_detection result.detected_freq_mhz result.detected_rssi_dbm result.is_fsk],
        by simp [RfTask.call], by simp [RfCall.isTracked]⟩
  · split
    · exact ⟨rfl, rfl, [.queue_waiting result.best_rssi_dbm result.scan_count],
        by simp [RfTask.call], by simp [RfCall.isTracked]⟩
    · exact ⟨rfl, rfl, [], by simp, by simp⟩

theorem rf_scan_facts (fuel : Nat) (t : RfTask) (i : RfInput) (hfuel : 31 ≤ fuel) :
    ∃ t2, rf_scan fuel t i = some t2 ∧
      t2.was_spectrum_mode = t.was_spectrum_mode ∧
      ∃ extra, t2.calls = t.calls ++ .scan_once t.mgr.g_need_scan_reinit :: extra ∧
        ∀ c ∈ extra, c.isTracked = false := by
  obtain ⟨res, s1, h, _⟩ := scan_once_returns fuel t.mgr i.rssi_threshold hfuel
  unfold rf_scan
  rw [h]
  simp only []
  obtain ⟨h1, _, extra, h3, h4⟩ := rf_after_scan_facts
    { t.call (.scan_once t.mgr.g_need_scan_reinit) with mgr := s1 } i res
  refine ⟨_, rfl, h1, extra, ?_, h4⟩
  rw [h3]
  simp [RfTask.call]

theorem rf_inv_delay (t : RfTask) (h : rf_inv t) (p : Bool) :
    rf_inv ({ t with prev_signal_detected := p }.call (.delay SCAN_DELAY_MS)) := by
  unfold rf_inv at h ⊢
  have e : track (({ t with prev_signal_detected := p } : RfTask).call
      (.delay SCAN_DELAY_MS)).calls = track t.calls := by
    show track (t.calls ++ [.delay SCAN_DELAY_MS]) = track t.calls
    rw [track_append]
    rfl
  rw [e]
  exact h

theorem rf_task_iteration_inv (fuel : Nat) (t : RfTask) (i : RfInput) (hfuel : 31 ≤ fuel)
    (h : rf_inv t) : ∃ t2, rf_task_iteration fuel t i = some t2 ∧ rf_inv t2 := by
  obtain ⟨hg, hsw, hre⟩ := h
  unfold rf_task_iteration
  cases happ : i.app_scanning
  · exact ⟨_, rfl, by
      have := rf_inv_delay t ⟨hg, hsw, hre⟩ t.prev_signal_detected
      exact this⟩
  · cases hsub : i.subghz_active
    · -- no sub-GHz screen
      simp only [Bool.not_false, if_true]
      refine ⟨_, rfl, ?_⟩
      cases hwas : t.was_spectrum_mode
      · simp only [Bool.false_eq_true, if_false]
        exact rf_inv_delay t ⟨hg, hsw, hre⟩ false
      · simp only [if_true]
        refine rf_inv_delay { rf_restore t with was_spectrum_mode := false } ?_ false
        unfold rf_inv
        have e : track ({ rf_restore t with was_spectrum_mode := false } : RfTask).calls =
            track_step (track t.calls) .restore_scan_mode := by
          show track (t.calls ++ [.restore_scan_mode]) = _
          rw [track_append]
          rfl
        rw [e]
        generalize track t.calls = st at hg
        obtain ⟨tr, g⟩ := st
        cases tr <;> simp_all [track_step, rf_restore, cc1101_manager_restore_scan_mode]
    · simp only [Bool.not_true, Bool.false_eq_true, if_false, if_true]
      cases hspec : i.spectrum_active
      · -- detection screen
        simp only [Bool.not_false, Bool.and_true, Bool.false_eq_true, if_false]
        cases hwas : t.was_spectrum_mode
        · simp only [Bool.false_eq_true, if_false]
          obtain ⟨t2, h2, _, extra, hc, hu⟩ :=
            rf_scan_facts fuel { t with was_spectrum_mode := false } i hfuel
          rw [h2]
          refine ⟨_, rfl, ?_⟩
          unfold rf_inv
          have e : track (t2.call (.delay SCAN_DELAY_MS)).calls =
              track_step (track t.calls) (.scan_once t.mgr.g_need_scan_reinit) := by
            show track (t2.calls ++ [.delay SCAN_DELAY_MS]) = _
            rw [hc]
            have e2 : t.calls ++ .scan_once t.mgr.g_need_scan_reinit :: extra ++
                [.delay SCAN_DELAY_MS] =
                t.calls ++ ([.scan_once t.mgr.g_need_scan_reinit] ++
                  (extra ++ [.delay SCAN_DELAY_MS])) := by simp
            show track (t.calls ++ .scan_once t.mgr.g_need_scan_reinit :: extra ++
                [.delay SCAN_DELAY_MS]) = _
            rw [e2, track_append, List.foldl_append, foldl_untracked]
            · rfl
            · intro c hcm
              rcases List.mem_append.1 hcm with h3 | h3
              · exact hu c h3
              · rw [List.mem_singleton.1 h3]; rfl
          rw [e]
          generalize track t.calls = st at hg hsw hre
          obtain ⟨tr, g⟩ := st
          cases tr
          · simp_all [track_step]
          · have := hsw rfl
            rw [hwas] at this
            exact absurd this (by simp)
          · have := hre rfl
            simp_all [track_step]
        · simp only [if_true]
          obtain ⟨t2, h2, _, extra, hc, hu⟩ :=
            rf_scan_facts fuel { rf_restore t with was_spectrum_mode := false } i hfuel
          rw [h2]
          refine ⟨_, rfl, ?_⟩
          unfold rf_inv
          have e : track (t2.call (.delay SCAN_DELAY_MS)).calls =
              track_step (track_step (track t.calls) .restore_scan_mode) (.scan_once true) := by
            show track (t2.calls ++ [.delay SCAN_DELAY_MS]) = _
            rw [hc]
            have e2 : ({ rf_restore t with was_spectrum_mode := false } : RfTask).calls ++
                .scan_once
                  ({ rf_restore t with was_spectrum_mode := false } : RfTask).mgr.g_need_scan_reinit ::
                  extra ++ [.delay SCAN_DELAY_MS] =
                t.calls ++ ([.restore_scan_mode, .scan_once true] ++
                  (extra ++ [.delay SCAN_DELAY_MS])) := by
              simp [rf_restore, RfTask.call, cc1101_manager_restore_scan_mode]
            rw [e2, track_append, List.foldl_append, foldl_untracked]
            · rfl
            · intro c hcm
              rcases List.mem_append.1 hcm with h3 | h3
              · exact hu c h3
              · rw [List.mem_singleton.1 h3]; rfl
          rw [e]
          generalize track t.calls = st at hg hsw hre
          obtain ⟨tr, g⟩ := st
          cases tr <;> simp_all [track_step]
      · -- spectrum screen
        simp only [Bool.not_true, Bool.and_false, Bool.false_eq_true, if_false, if_true]
        refine ⟨_, rfl, ?_⟩
        obtain ⟨hw, ok, extra, hc, hu⟩ := rf_sweep_facts { t with was_spectrum_mode := true }
        unfold rf_inv
        have e : track ((rf_sweep { t with was_spectrum_mode := true }).call
            (.delay SCAN_DELAY_MS)).calls = (.swept, (track t.calls).2) := by
          show track ((rf_sweep { t with was_spectrum_mode := true }).calls ++
            [.delay SCAN_DELAY_MS]) = _
          rw [hc]
          have e2 : ({ t with was_spectrum_mode := true } : RfTask).calls ++
              .capture_sweep ok :: extra ++ [.delay SCAN_DELAY_MS] =
              t.calls ++ ([.capture_sweep ok] ++ (extra ++ [.delay SCAN_DELAY_MS])) := by simp
          rw [e2, track_append, List.foldl_append, foldl_untracked]
          · rfl
          · intro c hcm
            rcases List.mem_append.1 hcm with h3 | h3
            · exact hu c h3
            · rw [List.mem_singleton.1 h3]; rfl
        rw [e]
        refine ⟨hg, fun _ => hw, fun h3 => absurd h3 (by simp)⟩

theorem rf_task_run_inv (fuel : Nat) (hfuel : 31 ≤ fuel) (inputs : List RfInput) :
    ∀ t : RfTask, rf_inv t → ∃ t2, rf_task_run fuel t inputs = some t2 ∧ rf_inv t2 := by
  induction inputs with
  | nil => intro t h; exact ⟨t, rfl, h⟩
  | cons i rest ih =>
    intro t h
    obtain ⟨t2, h2, hinv⟩ := rf_task_iteration_inv fuel t i hfuel h
    obtain ⟨t3, h3, hinv3⟩ := ih t2 hinv
    refine ⟨t3, ?_, hinv3⟩
    unfold rf_task_run
    rw [h2]
    exact h3

/-- C25: for every sequence of iterations of the RF task (the fine loop of
the scan given its 31 steps), the task runs through, and in its trace every
`scan_once` whose latest radio operation before it was a `capture_sweep`
comes after a `restore_scan_mode` called in between and found
`g_need_scan_reinit` set on entry. -/
theorem C25_scan_after_sweep_is_restored (fuel : Nat) (mgr : State) (inputs : List RfInput)
    (hfuel : 31 ≤ fuel) :
    ∃ final, rf_task_run fuel (RfTask.start mgr) inputs = some final ∧
      ∀ (a : List RfCall) (ok : Bool) (mid : List RfCall) (flag : Bool) (b : List RfCall),
        final.calls = a ++ .capture_sweep ok :: (mid ++ .scan_once flag :: b) →
        (∀ c ∈ mid, c.isRadioOp = false) →
        RfCall.restore_scan_mode ∈ mid ∧ flag = true := by
  have h0 : rf_inv (RfTask.start mgr) :=
    ⟨rfl, fun h => absurd h (by simp [track, RfTask.start]),
      fun h => absurd h (by simp [track, RfTask.start])⟩
  obtain ⟨final, hrun, hinv⟩ := rf_task_run_inv fuel hfuel inputs (RfTask.start mgr) h0
  refine ⟨final, hrun, ?_⟩
  intro a ok mid flag b hsplit hmid
  exact track_good_split final.calls (.clear, true) hinv.1 a ok mid flag b hsplit hmid

set_option maxRecDepth 1000000 in
/-- C25 at a concrete run on a quiet band: one iteration on the spectrum
screen, then one on a detection screen; the calls are the sweep, its
publication, the delay, the restore, the scan with the flag set, and the
delay. -/
theorem C25_scan_after_sweep_is_restored_witness :
    (rf_task_run 31 (RfTask.start quietState) [rfOn true true, rfOn true false]).map
        (fun t => t.calls.map (fun c => (c.isRadioOp, decide (c = .restore_scan_mode),
          decide (c = .scan_once true)))) =
      some [(true, false, false), (false, false, false), (false, false, false),
        (false, true, false), (true, false, true), (false, false, false)] ∧
    ∃ final,
      rf_task_run 31 (RfTask.start quietState) [rfOn true true, rfOn true false] = some final ∧
      ∀ (a : List RfCall) (ok : Bool) (mid : List RfCall) (flag : Bool) (b : List RfCall),
        final.calls = a ++ .capture_sweep ok :: (mid ++ .scan_once flag :: b) →
        (∀ c ∈ mid, c.isRadioOp = false) →
        RfCall.restore_scan_mode ∈ mid ∧ flag = true :=
  ⟨by decide!,
   C25_scan_after_sweep_is_restored 31 quietState [rfOn true true, rfOn true false]
     (by decide)⟩

/-! ## Claims on the frequencies the radio is tuned to -/

theorem probe_trace_freqs (rssi : Nat → Int) (settle : Nat) (fs : List Nat) :
    ∀ (k : Nat) (f : ℚ), RadioCmd.setFrequency f ∈ probe_trace rssi settle k fs →
      ∃ x ∈ fs, f = (x : ℚ) / 1000000 := by
  induction fs with
  | nil => intro k f h; simp [probe_trace] at h
  | cons y fs ih =>
    intro k f h
    simp only [probe_trace, List.cons_append, List.nil_append, List.mem_cons] at h
    rcases h with h | h | h | h | h
    · refine ⟨y, by simp, ?_⟩
      injection h
    · exact absurd h (by simp)
    · exact absurd h (by simp)
    · exact absurd h (by simp)
    · obtain ⟨x, hx, hf⟩ := ih (k + 1) f h
      exact ⟨x, List.mem_cons_of_mem _ hx, hf⟩

theorem mhz_bounds (x lo hi : Nat) (h1 : lo ≤ x) (h2 : x ≤ hi) :
    (lo : ℚ) / 1000000 ≤ (x : ℚ) / 1000000 ∧ (x : ℚ) / 1000000 ≤ (hi : ℚ) / 1000000 := by
  have a : (lo : ℚ) ≤ (x : ℚ) := by exact_mod_cast h1
  have b : (x : ℚ) ≤ (hi : ℚ) := by exact_mod_cast h2
  constructor
  · exact div_le_div_of_nonneg_right a (by norm_num)
  · exact div_le_div_of_nonneg_right b (by norm_num)

/-- The frequencies of the coarse loop lie in the band. -/
theorem coarse_trace_in_band (rssi : Nat → Int) (k : Nat) (f : ℚ)
    (h : RadioCmd.setFrequency f ∈ probe_trace rssi 3000 k kSubGHzFrequencyList) :
    300 ≤ f ∧ f ≤ 928 := by
  obtain ⟨x, hx, hf⟩ := probe_trace_freqs rssi 3000 kSubGHzFrequencyList k f h
  have hr := table_range x hx
  have hb := mhz_bounds x 300000000 928000000 hr.1 hr.2
  rw [hf]
  constructor
  · have e : ((300000000 : Nat) : ℚ) / 1000000 = 300 := by norm_num
    rw [← e]; exact hb.1
  · have e : ((928000000 : Nat) : ℚ) / 1000000 = 928 := by norm_num
    rw [← e]; exact hb.2

/-- The points of the fine loop around a table frequency lie within 300 kHz
of it. -/
theorem fine_grid_bounds (fc : Nat) (hfc : 300000000 ≤ fc ∧ fc ≤ 928000000) (x : Nat)
    (hx : x ∈ gridFrom (fc - 300000) 31) :
    fc - 300000 ≤ x ∧ x ≤ fc + 300000 ∧
    (2997 : ℚ) / 10 ≤ (x : ℚ) / 1000000 ∧ (x : ℚ) / 1000000 ≤ 9283 / 10 := by
  obtain ⟨k, hk, hxk⟩ := mem_gridFrom 31 _ _ hx
  have h1 : 299700000 ≤ x := by omega
  have h2 : x ≤ 928300000 := by omega
  have hb := mhz_bounds x 299700000 928300000 h1 h2
  refine ⟨by omega, by omega, ?_, ?_⟩
  · have e : ((299700000 : Nat) : ℚ) / 1000000 = 2997 / 10 := by norm_num
    rw [← e]; exact hb.1
  · have e : ((928300000 : Nat) : ℚ) / 1000000 = 9283 / 10 := by norm_num
    rw [← e]; exact hb.2

set_option maxRecDepth 1000000 in
/-- C28 (counterexample): with a signal of -50 dBm on the first channel of
the table, 300 MHz, and threshold -60 dBm, the fine loop of `scan_once`
starts 300 kHz below the hit: the radio is tuned to 299.7 MHz, below the
band. -/
theorem C28_fine_scan_leaves_band :
    Option.map (fun out => decide (RadioCmd.setFrequency (2997 / 10) ∈ out.2.radio.log))
      (cc1101_manager_scan_once 31 bandEdgeState (-60)) = some true ∧
    (2997 : ℚ) / 10 < 300 := by
  constructor <;> decide!

/-- The grid of the fine loop, point by point. -/
theorem gridFrom_eq_map (m : Nat) :
    ∀ f, gridFrom f m = (List.range m).map (fun k => f + 20000 * k) := by
  induction m with
  | zero => intro f; rfl
  | succ m ih =>
    intro f
    rw [gridFrom, ih, List.range_succ_eq_map, List.map_cons, List.map_map]
    refine congrArg₂ List.cons (by simp) (List.map_congr_left ?_)
    intro k _
    simp only [Function.comp]
    omega

/-- C28 (amended): for every threshold and every sequence of readings, in a
scan that goes ahead the coarse loop tunes the radio to table frequencies,
all within 300..928 MHz.  When a signal is detected and some coarse reading
is above -100 dBm (always so when the threshold is at least -100 dBm), the
coarse hit `fc` is a table frequency, the fine loop tunes the radio to the 31
frequencies `fc - 300000 + 20000 k` Hz (`k = 0..30`), its variable never
wrapping around, and these lie within 299.7..928.3 MHz; the modulation
measurement tunes the radio to the detected frequency, which is one of those
31 frequencies whenever the detected level is not the initial -100 dBm. -/
theorem C28_scan_frequencies (fuel : Nat) (s : State) (rssi_threshold : Int)
    (hfuel : 31 ≤ fuel) (hready : scan_ready s) :
    ∃ res s1, cc1101_manager_scan_once fuel s rssi_threshold = some (res, s1) ∧
      s1.radio.log = s.radio.log ++ reinit_trace s ++ scan_profile_trace ++
        scan_tail s rssi_threshold ∧
      (∀ f, RadioCmd.setFrequency f ∈
          probe_trace s.radio.rssi 3000 s.radio.reads kSubGHzFrequencyList →
        300 ≤ f ∧ f ≤ 928) ∧
      (res.signal_detected = false →
        scan_tail s rssi_threshold =
          probe_trace s.radio.rssi 3000 s.radio.reads kSubGHzFrequencyList) ∧
      (-100 ≤ rssi_threshold → res.signal_detected = true →
        -100 < maxReading (s.radio.upcoming 57)) ∧
      (res.signal_detected = true → -100 < maxReading (s.radio.upcoming 57) →
        ∃ fc ∈ kSubGHzFrequencyList, ∃ rssi_ask rssi_fsk,
          scan_tail s rssi_threshold =
            probe_trace s.radio.rssi 3000 s.radio.reads kSubGHzFrequencyList ++
              ([.setRxBandwidth 58] ++
                (probe_trace s.radio.rssi 3000 (s.radio.reads + 57)
                    (gridFrom (fc - 300000) 31) ++
                  modulation_trace res.detected_freq_mhz rssi_ask rssi_fsk)) ∧
          gridFrom (fc - 300000) 31 =
            (List.range 31).map (fun k => fc - 300000 + 20000 * k) ∧
          300000 ≤ fc ∧ fc + 300000 + 20000 < 2 ^ 32 ∧
          (∀ x ∈ gridFrom (fc - 300000) 31, fc - 300000 ≤ x ∧ x ≤ fc + 300000) ∧
          (∀ f, RadioCmd.setFrequency f ∈
              probe_trace s.radio.rssi 3000 (s.radio.reads + 57) (gridFrom (fc - 300000) 31) →
            2997 / 10 ≤ f ∧ f ≤ 9283 / 10) ∧
          (res.detected_rssi_dbm ≠ -100 →
            (∃ k, k ≤ 30 ∧
              res.detected_freq_mhz = ((fc - 300000 + 20000 * k : Nat) : ℚ) / 1000000) ∧
            2997 / 10 ≤ res.detected_freq_mhz ∧ res.detected_freq_mhz ≤ 9283 / 10)) := by
  obtain ⟨res, s1, heq, hlog, _⟩ := scan_once_ready_trace fuel s rssi_threshold hfuel hready
  refine ⟨res, s1, heq, hlog, fun f hf => coarse_trace_in_band _ _ f hf, ?_, ?_, ?_⟩
  · intro hnd
    by_cases hq : (scan_coarse s).2.rssi_coarse ≤ rssi_threshold
    · unfold scan_tail
      rw [if_pos hq]
    · have h2 := scan_once_detect fuel s rssi_threshold hfuel hready (not_le.mp hq)
      rw [heq] at h2
      injection h2 with h3
      injection h3 with h4 _
      rw [h4] at hnd
      exact absurd hnd (by simp)
  · intro hT hd
    by_cases hq : (scan_coarse s).2.rssi_coarse ≤ rssi_threshold
    · have h2 := scan_once_quiet fuel s rssi_threshold hready hq
      rw [heq] at h2
      injection h2 with h3
      injection h3 with h4 _
      rw [h4] at hd
      exact absurd hd (by simp [Cc1101ScanResult.zero])
    · rw [scan_coarse_max] at hq
      have hlt : rssi_threshold < max (-100) (maxReading (s.radio.upcoming 57)) := not_le.mp hq
      rcases lt_max_iff.1 hlt with h | h
      · omega
      · omega
  · intro hd hmax
    by_cases hq : (scan_coarse s).2.rssi_coarse ≤ rssi_threshold
    · have h2 := scan_once_quiet fuel s rssi_threshold hready hq
      rw [heq] at h2
      injection h2 with h3
      injection h3 with h4 _
      rw [h4] at hd
      exact absurd hd (by simp [Cc1101ScanResult.zero])
    · have h2 := scan_once_detect fuel s rssi_threshold hfuel hready (not_le.mp hq)
      rw [heq] at h2
      injection h2 with h3
      injection h3 with h4 _
      have hfreq : res.detected_freq_mhz = ((scan_fine s).2.frequency_fine : ℚ) / 1000000 := by
        rw [h4]
      have hlev : res.detected_rssi_dbm = (scan_fine s).2.rssi_fine := by
        rw [h4]
      -- the coarse hit is a table frequency
      have hfc : (scan_coarse s).2.frequency_coarse ∈ kSubGHzFrequencyList := by
        have hcase : (scan_coarse s).2.frequency_coarse ∈ kSubGHzFrequencyList ∨
            (scan_coarse s).2.rssi_coarse = -100 := by
          unfold scan_coarse coarse_scan
          rcases coarse_fold_freq kSubGHzFrequencyList (scan_radio s, freq_rssi_init) with h | h
          · exact Or.inl h
          · exact Or.inr h.2
        rcases hcase with h | h
        · exact h
        · rw [scan_coarse_max, max_eq_right (le_of_lt hmax)] at h
          rw [h] at hmax
          exact absurd hmax (by decide)
      have hr := table_range _ hfc
      have hne : (scan_coarse s).2.frequency_coarse ≠ 0 := by omega
      have hgrid : fine_freqs (scan_coarse s).2.frequency_coarse =
          gridFrom ((scan_coarse s).2.frequency_coarse - 300000) 31 := by
        simp only [fine_freqs, hne, if_false]
      refine ⟨(scan_coarse s).2.frequency_coarse, hfc,
        (scan_fine s).1.rssi (scan_fine s).1.reads,
        (scan_fine s).1.rssi ((scan_fine s).1.reads + 1), ?_, gridFrom_eq_map 31 _,
        by omega, by omega, ?_, ?_, ?_⟩
      · unfold scan_tail
        rw [if_neg hq, hgrid, hfreq]
      · intro x hx
        have := fine_grid_bounds _ hr x hx
        exact ⟨this.1, this.2.1⟩
      · intro f hf
        obtain ⟨x, hx, hfx⟩ := probe_trace_freqs _ _ _ _ f hf
        have := fine_grid_bounds _ hr x hx
        rw [hfx]
        exact ⟨this.2.2.1, this.2.2.2⟩
      · intro hl
        have hinit : (scan_coarse s).2.rssi_fine = -100 := by
          unfold scan_coarse coarse_scan
          exact (coarse_fold_fine kSubGHzFrequencyList (scan_radio s, freq_rssi_init)).2.1
        have hfine := fine_fold_freq (fine_freqs (scan_coarse s).2.frequency_coarse)
          ((scan_coarse s).1.setRxBandwidth 58) (scan_coarse s).2
        have hfold : fine_fold ((scan_coarse s).1.setRxBandwidth 58) (scan_coarse s).2
            (fine_freqs (scan_coarse s).2.frequency_coarse) = scan_fine s := by
          unfold scan_fine; rfl
        rw [hfold, hgrid] at hfine
        rcases hfine with hmem | ⟨_, h2⟩
        · have := fine_grid_bounds _ hr _ hmem
          obtain ⟨k, hk, hxk⟩ := mem_gridFrom 31 _ _ hmem
          rw [hfreq]
          exact ⟨⟨k, by omega, by rw [hxk]⟩, this.2.2.1, this.2.2.2⟩
        · rw [hlev, h2, hinit] at hl
          exact absurd rfl hl

set_option maxRecDepth 1000000 in
/-- C28 at a concrete scan: a band with a signal of -50 dBm on 300 MHz
scanned with threshold -110 dBm.  The signal is detected, a coarse reading is
above -100 dBm, and the detected frequency is a point of the fine grid
around a table frequency, within 299.7..928.3 MHz. -/
theorem C28_scan_frequencies_witness :
    scan_ready bandEdgeState ∧
    -100 < maxReading (bandEdgeState.radio.upcoming 57) ∧
    Option.map (fun out => (out.1.signal_detected, out.1.detected_rssi_dbm))
      (cc1101_manager_scan_once 31 bandEdgeState (-110)) = some (true, -50) ∧
    ∃ res s1, cc1101_manager_scan_once 31 bandEdgeState (-110) = some (res, s1) ∧
      (res.signal_detected = true → res.detected_rssi_dbm ≠ -100 →
        ∃ fc ∈ kSubGHzFrequencyList,
          (∃ k, k ≤ 30 ∧
            res.detected_freq_mhz = ((fc - 300000 + 20000 * k : Nat) : ℚ) / 1000000) ∧
          2997 / 10 ≤ res.detected_freq_mhz ∧ res.detected_freq_mhz ≤ 9283 / 10) :=
  ⟨by decide, by decide!, by decide!,
   match C28_scan_frequencies 31 bandEdgeState (-110) (by decide) (by decide) with
   | ⟨res, s1, h1, _, _, _, _, h6⟩ =>
     ⟨res, s1, h1, fun hd hl =>
       match h6 hd (by decide!) with
       | ⟨fc, hfc, _, _, _, _, _, _, _, _, h⟩ => ⟨fc, hfc, h hl⟩⟩⟩

/-! ## Claims on the idle report of the audio service -/

/-- The step model ends in the state the loop body leaves. -/
theorem audio_task_steps_last (s : AudioService) (evt : AudioEvent) :
    (audio_task_steps s evt).getLast? = some (audio_task_event s evt) := by
  unfold audio_task_steps audio_task_event
  cases hp : (codec_prepare s).1
  · simp [hp]
  · by_cases ho : (codec_prepare s).2.codec.dev_open.1 = 0
    · cases evt <;> simp [hp, ho, play_event_sound]
    · simp [hp, ho]

/-- One pass of the loop of `audio_task` is the receive followed by the
handling of the event received. -/
theorem audio_task_iteration_eq (s : AudioService) :
    audio_task_iteration s =
      (audio_task_receive s).map (fun p => audio_task_event p.2 p.1) := by
  unfold audio_task_iteration audio_task_receive
  cases s.g_audio_queue with
  | none => rfl
  | some q =>
    simp only []
    cases hq : xQueueReceive q with
    | mk e q1 =>
      cases e with
      | none => rfl
      | some evt => rfl

set_option maxRecDepth 1000000 in
/-- C29 (the code at the failing input): the shutdown cue is queued on an
idle service and the consumer receives it.  On return from the receive, and
still after `codec_prepare()`, `audio_feedback_is_idle()` is true although
the cue has not been played yet: the playing flag is only set afterwards.
From there to the close it is false, and true again once the event is
finished. -/
theorem C29_idle_reported_before_playing :
    audio_feedback_is_idle (audio_feedback_play_shutdown (AudioService.ready Codec.good)) =
      false ∧
    (audio_task_receive (audio_feedback_play_shutdown (AudioService.ready Codec.good))).map
        (fun p => (p.1, audio_feedback_is_idle p.2,
          (audio_task_steps p.2 p.1).map audio_feedback_is_idle)) =
      some (.Shutdown, true, [true, true, false, false, false, false, false, false, true]) := by
  constructor <;> decide!

/-! ## Claims on the spectrum resampling -/

/-- The resampling index without its casts, for a bin and a sample count of
an accepted sweep. -/
theorem spectrum_src_idx_eq (i n : Nat) (hi : i < 96) (hn : n ≤ 128) :
    spectrum_src_idx i n = i * (n - 1) / 95 := by
  have h1 : i * (n - 1) ≤ 95 * 127 := Nat.mul_le_mul (by omega) (by omega)
  have h2 : i * (n - 1) / 95 ≤ 127 := by
    apply Nat.div_le_of_le_mul
    omega
  unfold spectrum_src_idx kSpectrumPointCount
  rw [Nat.mod_eq_of_lt (by omega : i < 2 ^ 32), Nat.mod_eq_of_lt (by omega : i * (n - 1) < 2 ^ 32)]
  exact Nat.mod_eq_of_lt (by omega)

/-- C30: for every sweep that `ui_manager_queue_spectrum_update` accepts
(valid, `sample_count` n in [2, 128]) and every display bin `i < 96`, the
index `src_idx` used by `update_spectrum_visual` is `floor(i (n - 1) / 95)`,
is below `n`, does not decrease with `i`, is 0 for bin 0 and `n - 1` for bin
95; the bars drawn use these indices; and the sweep is stored in the spectrum
slot.  A sweep that is not valid or whose `sample_count` is outside [2, 128]
leaves the pending data as they were. -/
theorem C30_resampling_index (u : UiPending) (sweep : Cc1101SweepResult) :
    (sweep_publishable sweep →
      (∀ i, i < kSpectrumPointCount →
        spectrum_src_idx i sweep.sample_count = i * (sweep.sample_count - 1) / 95 ∧
        spectrum_src_idx i sweep.sample_count < sweep.sample_count) ∧
      (∀ i j, i ≤ j → j < kSpectrumPointCount →
        spectrum_src_idx i sweep.sample_count ≤ spectrum_src_idx j sweep.sample_count) ∧
      spectrum_src_idx 0 sweep.sample_count = 0 ∧
      spectrum_src_idx 95 sweep.sample_count = sweep.sample_count - 1 ∧
      (∀ rssi_threshold : Int, ∃ colour bars,
        update_spectrum_visual true rssi_threshold sweep = some (colour, bars) ∧
        bars.map (fun b => (b.bin, b.src_idx)) =
          (List.range kSpectrumPointCount).map
            (fun i => (i, spectrum_src_idx i sweep.sample_count))) ∧
      (ui_manager_queue_spectrum_update u sweep).pending_spectrum = sweep ∧
      (ui_manager_queue_spectrum_update u sweep).spectrum_needs_update = true) ∧
    (¬ sweep_publishable sweep → ui_manager_queue_spectrum_update u sweep = u) := by
  constructor
  · intro hpub
    obtain ⟨hv, h2, h128⟩ := hpub
    have hslot := queue_spectrum_update_slot u sweep ⟨hv, h2, h128⟩
    refine ⟨?_, ?_, ?_, ?_, ?_, hslot.2, hslot.1⟩
    · intro i hi
      have hi96 : i < 96 := hi
      rw [spectrum_src_idx_eq i _ hi96 h128]
      refine ⟨rfl, ?_⟩
      have h1 : i * (sweep.sample_count - 1) ≤ 95 * (sweep.sample_count - 1) :=
        Nat.mul_le_mul_right _ (by omega)
      have h3 := Nat.div_le_of_le_mul h1
      omega
    · intro i j hij hj
      have hj96 : j < 96 := hj
      rw [spectrum_src_idx_eq i _ (by omega) h128, spectrum_src_idx_eq j _ hj96 h128]
      exact Nat.div_le_div_right (Nat.mul_le_mul_right _ hij)
    · rw [spectrum_src_idx_eq 0 _ (by omega) h128]
      simp
    · rw [spectrum_src_idx_eq 95 _ (by omega) h128]
      rw [Nat.mul_comm]
      exact Nat.mul_div_cancel _ (by omega)
    · intro rssi_threshold
      have hc : ¬ (sweep.sample_count < 2) := by omega
      refine ⟨decide (sweep.max_rssi_dbm ≥ rssi_threshold),
        (List.range kSpectrumPointCount).map (fun i =>
          { bin := i, src_idx := spectrum_src_idx i sweep.sample_count,
            height := rssi_to_bar_height
              (sweep.rssi_dbm.getD (spectrum_src_idx i sweep.sample_count) 0) }), ?_, ?_⟩
      · unfold update_spectrum_visual
        simp only [hv, hc, Bool.not_true, Bool.or_self, decide_False, Bool.false_eq_true,
          if_false]
      · rw [List.map_map]
        rfl
  · intro hn
    unfold ui_manager_queue_spectrum_update
    have hcond : (!sweep.valid || decide (sweep.sample_count < 2) ||
        decide (sweep.sample_count > CC1101_SWEEP_MAX_SAMPLES)) = true := by
      by_contra hc
      apply hn
      simp only [Bool.or_eq_true, Bool.not_eq_true', decide_eq_true_eq, not_or,
        Bool.not_eq_false, CC1101_SWEEP_MAX_SAMPLES] at hc
      exact ⟨hc.1.1, by omega, by omega⟩
    rw [if_pos hcond]

set_option maxRecDepth 100000 in
/-- C30 at a concrete sweep of 96 samples, where every bin shows its own
sample, and at a sweep of one sample, which is not published. -/
theorem C30_resampling_index_witness :
    sweep_publishable { sampleSweep with sample_count := 96 } ∧
    (spectrum_src_idx 40 96 = 40 ∧ spectrum_src_idx 40 96 < 96) ∧
    ¬ sweep_publishable { sampleSweep with sample_count := 1 } ∧
    ui_manager_queue_spectrum_update UiPending.initial { sampleSweep with sample_count := 1 } =
      UiPending.initial :=
  ⟨by decide,
   (match ((C30_resampling_index UiPending.initial { sampleSweep with sample_count := 96 }).1
      (by decide)).1 40 (by decide) with
    | ⟨h1, h2⟩ => ⟨h1.trans (by decide), h2⟩),
   by decide,
   (C30_resampling_index UiPending.initial { sampleSweep with sample_count := 1 }).2
     (by decide)⟩

end Cc1101
